import Mathlib

/-!
# GestureDetector: a shallow embedding of the gesture recogniser

The definitions follow `src/src/GestureDetector.h`, `src/src/geometry.cpp` and
`src/src/gesture.cpp`.

Modelling conventions.

* The target is the 32-bit ARM of the Arduino GIGA, whose touch library
  `GestureDetector.h` includes: `int` and pointers have 32 bits, `float` is
  binary32 and `double` binary64.
* C `int` values are `Int`.  The arithmetic of `Point::is_left` (differences
  and products of coordinates) is reduced to 32 bits (`wrap32`), as on the
  target; the sums and differences of screen coordinates elsewhere are taken
  exact.  `unsigned long` times are `Nat`
  reduced modulo `2 ^ 32` at every subtraction and addition.
* The bit operations on `EventType` (`&`, `|`, `~`) are two's complement
  operations on `Int`, written so that they evaluate on literals.
* User callbacks are outside the model.  An indirect call through a listener's
  callback pointer is recorded in a log together with the pointer found in the
  slot (`none` is `NULL`) and the arguments; the callee is taken to return
  without touching the detector.  A call through `NULL` is recorded like any
  other: what the target does after it is not modelled, so that a run is one
  of the code only as far as the callees in its log are set
  (`Event.callee_set`).
* `ASSERT` prints and then spins in `while(1)`.  A run that trips it stops with
  status `assertFailed`, keeping the state and the log reached so far.
* The listener table `events[MAX_EVENTS]` is a function of the slot number; no
  definition reads or writes a slot at or above `MAX_EVENTS`.
* Reading memory the program does not own or has not set (a listener index at
  or above `MAX_EVENTS`, coordinates left unset by an unknown rotation) stops
  the run with status `undefined`, after the events that precede the read.
* A registration that stores outside the table or outside a region's array
  has no resulting detector: `fill_event` returns `none`.  The function
  `fill_event_aliased` is the same registration with the layout of `RegEvent`
  on the target, where the closing vertex of a region of `MAX_POINTS` vertices
  is stored on members of the same slot.
* `float` values (the arguments `sx`, `sy` of a pinch callback) are rationals.
  The solvers `pinch_plain` and `pinch_rotated` take `float` arithmetic exact,
  in an ordered field (the rationals, or the reals with `sqrt`);
  `pinch_plain32` rounds every operation to binary32.  A quotient with a zero
  denominator has no value.
-/

namespace GestureDetector

/-! ## Constants of `GestureDetector.h` -/

def WIDTH : Int := 480
def HEIGHT : Int := 800
def SCAN_TIME : Nat := 30
def LONG_PRESS_TIME : Nat := 500
def SWIPE_TIME : Nat := 150
def MAX_POINTS : Nat := 16
def MAX_EVENTS : Nat := 20

abbrev EventType := Int

def EV_NONE : EventType := 0
def EV_TAP : EventType := 1
def EV_DRAG : EventType := 2
def EV_SWIPE : EventType := 3
def EV_PINCH : EventType := 4
def EV_RELEASED : EventType := 0x100
def EV_LONG_PRESS : EventType := 0x200

inductive Constraint
  | CO_NONE
  | CO_HORIZ
  | CO_VERT
  deriving DecidableEq, Repr

open Constraint

/-! ## Machine arithmetic -/

/-- Bitwise and of two's complement integers (C `&`).  A negative number
`Int.negSucc n` has the bits of `n` inverted, and `m ^^^ (m &&& n)` clears in
`m` the bits set in `n`. -/
def band : Int → Int → Int
  | Int.ofNat m, Int.ofNat n => Int.ofNat (m &&& n)
  | Int.ofNat m, Int.negSucc n => Int.ofNat (m ^^^ (m &&& n))
  | Int.negSucc m, Int.ofNat n => Int.ofNat (n ^^^ (n &&& m))
  | Int.negSucc m, Int.negSucc n => Int.negSucc (m ||| n)

/-- Bitwise or of two's complement integers (C `|`). -/
def bor : Int → Int → Int
  | Int.ofNat m, Int.ofNat n => Int.ofNat (m ||| n)
  | Int.ofNat m, Int.negSucc n => Int.negSucc (n ^^^ (n &&& m))
  | Int.negSucc m, Int.ofNat n => Int.negSucc (m ^^^ (m &&& n))
  | Int.negSucc m, Int.negSucc n => Int.negSucc (m &&& n)

/-- Bitwise complement of a two's complement integer (C `~`). -/
def bnot : Int → Int
  | Int.ofNat m => Int.negSucc m
  | Int.negSucc m => Int.ofNat m

/-- C `abs` on `int`. -/
def cabs (v : Int) : Int := if v < 0 then -v else v

/-- Modulus of `unsigned long` arithmetic. -/
def ULONG_MOD : Nat := 4294967296

/-- Sum of two `unsigned long` values. -/
def uadd (a b : Nat) : Nat := (a + b) % ULONG_MOD

/-- Difference of two `unsigned long` values. -/
def usub (a b : Nat) : Nat := (a % ULONG_MOD + (ULONG_MOD - b % ULONG_MOD)) % ULONG_MOD

/-! ## Geometry (`geometry.cpp`) -/

structure Point where
  x : Int
  y : Int
  deriving DecidableEq, Repr, Inhabited

/-- The value a 32-bit `int` holds after an arithmetic operation whose exact
result is `v`: two's complement wrap-around. -/
def wrap32 (v : Int) : Int :=
  (v + 2147483648) % 4294967296 - 2147483648

/-- Sidedness of `P` relative to the line through `P0` and `P1`
(`Point::is_left`, called on `this = P`), each difference and product being
computed in 32-bit `int`. -/
def Point.is_left (P P0 P1 : Point) : Int :=
  wrap32 (wrap32 (wrap32 (P1.x - P0.x) * wrap32 (P.y - P0.y))
    - wrap32 (wrap32 (P.x - P0.x) * wrap32 (P1.y - P0.y)))

/-- One pass of the edge loop of `Point::in_polygon`, for the edge from `V[i]`
to `V[i + 1]`. -/
def Point.in_polygon_edge (P : Point) (V : List Point) (wn : Int) (i : Nat) : Int :=
  if (V.getD i default).y ≤ P.y then
    if (V.getD (i + 1) default).y > P.y then
      if P.is_left (V.getD i default) (V.getD (i + 1) default) > 0 then wn + 1 else wn
    else wn
  else
    if (V.getD (i + 1) default).y ≤ P.y then
      if P.is_left (V.getD i default) (V.getD (i + 1) default) < 0 then wn - 1 else wn
    else wn

/-- Winding number of the ring `V[0..n]` around `P` (`Point::in_polygon`): the
loop `for (i = 0; i < n; i++)` over the edges. -/
def Point.in_polygon (P : Point) (V : List Point) (n : Int) : Int :=
  (List.range n.toNat).foldl (Point.in_polygon_edge P V) 0

/-! ## Data model (`GestureDetector.h`) -/

/-- A callback pointer: `none` is `NULL`, `some c` names a user function. -/
abbrev Callback := Option Nat

structure RegEvent where
  type : EventType
  param : Nat
  reg : List Point
  nPts : Int
  tapCallback : Callback
  dragCallback : Callback
  pinchCallback : Callback
  constraint : Constraint
  angle_tol : Int
  rotatable : Bool
  deriving DecidableEq, Repr

structure TrackedContact where
  indx : Int
  init_x : Int
  init_y : Int
  dx : Int
  dy : Int
  deriving DecidableEq, Repr

structure TrackedEvent where
  type : EventType
  start_time : Nat
  hold_time : Nat
  active_event : Int
  cont0 : TrackedContact
  cont1 : TrackedContact
  working_co : Constraint
  deriving DecidableEq, Repr

/-- The detector object: `rotation`, `last_polled`, `track` and the table
`events[MAX_EVENTS]`, indexed by slot number. -/
structure Detector where
  rotation : Int
  last_polled : Nat
  track : TrackedEvent
  events : Nat → RegEvent

/-- A raw contact as returned by the touch controller. -/
structure GDTpoint where
  x : Int
  y : Int
  deriving DecidableEq, Repr

/-- What a pinch callback is computed from: the two tracked contacts, the
listener's rotatable flag and the working constraint of the gesture.  The
arguments `dx, dy, sx, sy` of the call are a function of these. -/
structure PinchInput where
  c0 : TrackedContact
  c1 : TrackedContact
  rotatable : Bool
  working_co : Constraint
  deriving DecidableEq, Repr

/-- Observable events of a run: calls of `start_new_tracked` made by `poll`
and calls through the three callback pointers. -/
inductive Event
  | started (ev : EventType)
  | tap (cb : Callback) (type : EventType) (indx : Int) (param : Nat) (x y : Int)
  | drag (cb : Callback) (type : EventType) (indx : Int) (param : Nat) (x y dx dy : Int)
  | pinch (cb : Callback) (type : EventType) (indx : Int) (param : Nat) (g : PinchInput)
  deriving DecidableEq, Repr

inductive Status
  | running
  | assertFailed
  | undefined
  deriving DecidableEq, Repr

/-- Result of running a piece of the detector: the state reached, the events
observed, and whether control came back. -/
structure Run where
  det : Detector
  log : List Event
  status : Status

/-! ## Region and constraint helpers (`gesture.cpp`) -/

def in_region (event : RegEvent) (x y : Int) : Bool :=
  if event.nPts = 0 then true
  else decide ((Point.mk x y).in_polygon event.reg event.nPts ≠ 0)

def check_constraints (event : RegEvent) (dx dy : Int) : Bool :=
  if cabs dx ≠ 0 ∧ cabs (Int.tdiv dy dx) > event.angle_tol then
    if event.constraint = CO_HORIZ then false else true
  else if cabs dy ≠ 0 ∧ cabs (Int.tdiv dx dy) > event.angle_tol then
    if event.constraint = CO_VERT then false else true
  else
    if event.constraint ≠ CO_NONE then false else true

/-- Returns the constraint together with `(new_dx, new_dy)`. -/
def enforce_constraints (event : RegEvent) (dx dy : Int) : Constraint × Int × Int :=
  if event.constraint = CO_VERT then (CO_VERT, 0, dy)
  else if event.constraint = CO_HORIZ then (CO_HORIZ, dx, 0)
  else if cabs dx = 0 ∨ cabs (Int.tdiv dy dx) > event.angle_tol then (CO_VERT, 0, dy)
  else if cabs dy = 0 ∨ cabs (Int.tdiv dx dy) > event.angle_tol then (CO_HORIZ, dx, 0)
  else (CO_NONE, dx, dy)

/-! ## Dispatch (`call_cb`) -/

/-- The loop `for (i = MAX_EVENTS - 1; i >= 0; i--)` whose body either
`continue`s or stores `i` and `break`s: the first slot below the bound, going
down, at which the body breaks. -/
def scan_down (hit : Nat → Bool) : Nat → Option Nat
  | 0 => none
  | n + 1 => if hit n then some n else scan_down hit n

/-- Body of the search loop of `case EV_TAP`. -/
def tap_hit (d : Detector) (i : Nat) : Bool :=
  if !in_region (d.events i) d.track.cont0.init_x d.track.cont0.init_y then false
  else if (d.events i).type = EV_TAP then true
  else false

/-- Body of the search loop of `case EV_DRAG: case EV_SWIPE:`. -/
def drag_hit (d : Detector) (ev : EventType) (i : Nat) : Bool :=
  if !in_region (d.events i) d.track.cont0.init_x d.track.cont0.init_y then false
  else if !check_constraints (d.events i) d.track.cont0.dx d.track.cont0.dy then false
  else if (d.events i).type = ev then true
  else false

/-- Body of the search loop of `case EV_PINCH`. -/
def pinch_hit (d : Detector) (i : Nat) : Bool :=
  if !in_region (d.events i) d.track.cont0.init_x d.track.cont0.init_y then false
  else if !in_region (d.events i) d.track.cont1.init_x d.track.cont1.init_y then false
  else if !check_constraints (d.events i)
      (d.track.cont0.init_x - d.track.cont1.init_x)
      (d.track.cont0.init_y - d.track.cont1.init_y) then false
  else if (d.events i).type = EV_PINCH then true
  else false

/-- The assignment `track.active_event = i`. -/
def set_active (d : Detector) (i : Nat) : Detector :=
  { d with track := { d.track with active_event := (i : Int) } }

/-- The assignment `track.working_co = enforce_constraints(...)` made when a
pinch listener is found. -/
def set_working_co (d : Detector) (i : Nat) : Detector :=
  { d with track := { d.track with working_co :=
      (enforce_constraints (d.events i)
        (d.track.cont0.init_x - d.track.cont1.init_x)
        (d.track.cont0.init_y - d.track.cont1.init_y)).1 } }

/-- The `if (track.active_event < 0) { for ... }` block of `case EV_TAP`. -/
def resolve_tap (d : Detector) : Detector :=
  if d.track.active_event < 0 then
    match scan_down (tap_hit d) MAX_EVENTS with
    | some i => set_active d i
    | none => d
  else d

/-- The search block of `case EV_DRAG: case EV_SWIPE:`. -/
def resolve_drag (d : Detector) (ev : EventType) : Detector :=
  if d.track.active_event < 0 then
    match scan_down (drag_hit d ev) MAX_EVENTS with
    | some i => set_active d i
    | none => d
  else d

/-- The search block of `case EV_PINCH`. -/
def resolve_pinch (d : Detector) : Detector :=
  if d.track.active_event < 0 then
    match scan_down (pinch_hit d) MAX_EVENTS with
    | some i => set_working_co (set_active d i) i
    | none => d
  else d

/-- The tail of `case EV_TAP`, from `if (track.active_event < 0) return;` on. -/
def dispatch_tap (d : Detector) (released : EventType) : Run :=
  if d.track.active_event < 0 then ⟨d, [], Status.running⟩
  else if d.track.active_event ≥ (MAX_EVENTS : Int) then ⟨d, [], Status.undefined⟩
  else
    let i := d.track.active_event
    let e := d.events i.toNat
    if d.track.hold_time ≥ LONG_PRESS_TIME then
      ⟨d, [Event.tap e.tapCallback (bor (bor EV_TAP EV_LONG_PRESS) released) i e.param
            d.track.cont0.init_x d.track.cont0.init_y], Status.running⟩
    else
      ⟨d, [Event.tap e.tapCallback (bor EV_TAP released) i e.param
            d.track.cont0.init_x d.track.cont0.init_y], Status.running⟩

/-- The tail of `case EV_DRAG: case EV_SWIPE:`, with its `ASSERT`. -/
def dispatch_drag (d : Detector) (ev released : EventType) : Run :=
  if d.track.active_event < 0 then ⟨d, [], Status.running⟩
  else if d.track.active_event ≥ (MAX_EVENTS : Int) then ⟨d, [], Status.undefined⟩
  else
    let i := d.track.active_event
    let e := d.events i.toNat
    if ¬ (e.type = EV_DRAG ∨ e.type = EV_SWIPE) then ⟨d, [], Status.assertFailed⟩
    else
      let c := enforce_constraints e d.track.cont0.dx d.track.cont0.dy
      ⟨d, [Event.drag e.dragCallback (bor ev released) i e.param
            d.track.cont0.init_x d.track.cont0.init_y c.2.1 c.2.2], Status.running⟩

/-- The tail of `case EV_PINCH`, with its `ASSERT`. -/
def dispatch_pinch (d : Detector) (released : EventType) : Run :=
  if d.track.active_event < 0 then ⟨d, [], Status.running⟩
  else if d.track.active_event ≥ (MAX_EVENTS : Int) then ⟨d, [], Status.undefined⟩
  else
    let i := d.track.active_event
    let e := d.events i.toNat
    if ¬ (e.type = EV_PINCH) then ⟨d, [], Status.assertFailed⟩
    else
      ⟨d, [Event.pinch e.pinchCallback (bor EV_PINCH released) i e.param
            ⟨d.track.cont0, d.track.cont1, e.rotatable, d.track.working_co⟩],
        Status.running⟩

def call_cb (d : Detector) : Run :=
  let released := band d.track.type EV_RELEASED
  let ev := band d.track.type (bnot EV_RELEASED)
  if ev = EV_TAP then dispatch_tap (resolve_tap d) released
  else if ev = EV_DRAG ∨ ev = EV_SWIPE then dispatch_drag (resolve_drag d ev) ev released
  else if ev = EV_PINCH then dispatch_pinch (resolve_pinch d) released
  else ⟨d, [], Status.running⟩

/-! ## Polling (`poll`) -/

def start_new_tracked (d : Detector) (current_time : Nat) (ev : EventType) : Detector :=
  { d with track := { d.track with
      start_time := current_time, hold_time := 0, active_event := -1, type := ev } }

/-- The rotation switch of `poll`: the coordinates assigned to `x[i], y[i]`, or
`none` when no case of the switch matches and they stay unset. -/
def remap (rotation : Int) (p : GDTpoint) : Option (Int × Int) :=
  if rotation = 0 then some (p.x, p.y)
  else if rotation = 1 then some (p.y, WIDTH - 1 - p.x)
  else if rotation = 2 then some (WIDTH - 1 - p.x, HEIGHT - 1 - p.y)
  else if rotation = 3 then some (HEIGHT - 1 - p.y, p.x)
  else none

/-- The assignments to `track.cont[0]` made for a contact that starts at `(x, y)`. -/
def set_cont0 (d : Detector) (x y : Int) : Detector :=
  { d with track := { d.track with cont0 := ⟨0, x, y, 0, 0⟩ } }

/-- The assignments to `track.cont[1]` made for a contact that starts at `(x, y)`. -/
def set_cont1 (d : Detector) (x y : Int) : Detector :=
  { d with track := { d.track with cont1 := ⟨1, x, y, 0, 0⟩ } }

/-- The statement `track.type |= EV_RELEASED`. -/
def set_released (d : Detector) : Detector :=
  { d with track := { d.track with type := bor d.track.type EV_RELEASED } }

/-- The update of `track.cont[0].dx, dy` from the current position `(x, y)`. -/
def move_cont0 (d : Detector) (x y : Int) : Detector :=
  { d with track := { d.track with cont0 := { d.track.cont0 with
      dx := x - d.track.cont0.init_x, dy := y - d.track.cont0.init_y } } }

/-- The update of `track.cont[1].dx, dy` from the current position `(x, y)`. -/
def move_cont1 (d : Detector) (x y : Int) : Detector :=
  { d with track := { d.track with cont1 := { d.track.cont1 with
      dx := x - d.track.cont1.init_x, dy := y - d.track.cont1.init_y } } }

/-- The statement `track.hold_time = current_time - track.start_time`. -/
def set_hold_time (d : Detector) (current_time : Nat) : Detector :=
  { d with track := { d.track with hold_time := usub current_time d.track.start_time } }

/-- The events `pre` followed by the run `r`. -/
def Run.after (pre : List Event) (r : Run) : Run :=
  ⟨r.det, pre ++ r.log, r.status⟩

/-- The statements `track.type |= EV_RELEASED; call_cb();
start_new_tracked(current_time, EV_NONE);` that end `case 0`. -/
def release_and_reset (d : Detector) (current_time : Nat) : Run :=
  match (call_cb (set_released d)).status with
  | Status.running =>
    ⟨start_new_tracked (call_cb (set_released d)).det current_time EV_NONE,
      (call_cb (set_released d)).log ++ [Event.started EV_NONE], Status.running⟩
  | st => ⟨(call_cb (set_released d)).det, (call_cb (set_released d)).log, st⟩

/-- Branch `case 0` of `switch (contacts)`. -/
def poll_none (d : Detector) (current_time : Nat) : Run :=
  if d.track.type = EV_TAP ∧ (d.track.cont0.dx ≠ 0 ∨ d.track.cont0.dy ≠ 0) then
    Run.after [Event.started EV_SWIPE]
      (release_and_reset (start_new_tracked d current_time EV_SWIPE) current_time)
  else release_and_reset d current_time

/-- The statements of `case EV_PINCH` under `case 1`: the pinch is released
and a drag is started at `(x, y)`. -/
def release_pinch (d : Detector) (current_time : Nat) (xy : Option (Int × Int)) : Run :=
  match (call_cb (set_released d)).status with
  | Status.running =>
    match xy with
    | none =>
      ⟨start_new_tracked (call_cb (set_released d)).det current_time EV_DRAG,
        (call_cb (set_released d)).log ++ [Event.started EV_DRAG], Status.undefined⟩
    | some (x, y) =>
      ⟨set_cont0 (start_new_tracked (call_cb (set_released d)).det current_time EV_DRAG) x y,
        (call_cb (set_released d)).log ++ [Event.started EV_DRAG], Status.running⟩
  | st => ⟨(call_cb (set_released d)).det, (call_cb (set_released d)).log, st⟩

/-- The statements of `case EV_TAP: case EV_DRAG:` under `case 1`, for a
contact now at `(x, y)`. -/
def hold_or_move (d : Detector) (current_time : Nat) (x y : Int) : Run :=
  if (set_hold_time (move_cont0 d x y) current_time).track.cont0.dx ≠ 0 ∨
      (set_hold_time (move_cont0 d x y) current_time).track.cont0.dy ≠ 0 then
    if (set_hold_time (move_cont0 d x y) current_time).track.type = EV_TAP ∧
        (set_hold_time (move_cont0 d x y) current_time).track.hold_time > SWIPE_TIME then
      Run.after [Event.started EV_DRAG]
        (call_cb (start_new_tracked (set_hold_time (move_cont0 d x y) current_time)
          current_time EV_DRAG))
    else call_cb (set_hold_time (move_cont0 d x y) current_time)
  else ⟨set_hold_time (move_cont0 d x y) current_time, [], Status.running⟩

/-- Branch `case 1` of `switch (contacts)`; `xy` is the remapped contact 0. -/
def poll_one (d : Detector) (current_time : Nat) (xy : Option (Int × Int)) : Run :=
  if d.track.type = EV_NONE then
    match xy with
    | none => ⟨start_new_tracked d current_time EV_TAP, [Event.started EV_TAP], Status.undefined⟩
    | some (x, y) =>
      Run.after [Event.started EV_TAP]
        (call_cb (set_cont0 (start_new_tracked d current_time EV_TAP) x y))
  else if d.track.type = EV_TAP ∨ d.track.type = EV_DRAG then
    match xy with
    | none => ⟨d, [], Status.undefined⟩
    | some (x, y) => hold_or_move d current_time x y
  else if d.track.type = EV_PINCH then release_pinch d current_time xy
  else ⟨d, [], Status.running⟩

/-- Branch `case 2` of `switch (contacts)`; `xy0, xy1` are the remapped
contacts 0 and 1. -/
def poll_two (d : Detector) (current_time : Nat) (xy0 xy1 : Option (Int × Int)) : Run :=
  if d.track.type ≠ EV_PINCH then
    match xy0, xy1 with
    | some (x0, y0), some (x1, y1) =>
      ⟨set_cont1 (set_cont0 (start_new_tracked d current_time EV_PINCH) x0 y0) x1 y1,
        [Event.started EV_PINCH], Status.running⟩
    | _, _ =>
      ⟨start_new_tracked d current_time EV_PINCH, [Event.started EV_PINCH], Status.undefined⟩
  else
    match xy0, xy1 with
    | some (x0, y0), some (x1, y1) =>
      call_cb (set_hold_time (move_cont1 (move_cont0 d x0 y0) x1 y1) current_time)
    | _, _ => ⟨d, [], Status.undefined⟩

/-- The scan-interval test `current_time < last_polled + SCAN_TIME`. -/
def gated (d : Detector) (current_time : Nat) : Bool :=
  decide (current_time < uadd d.last_polled SCAN_TIME)

/-- One call of `poll()`: `current_time` is the value of `millis()` and
`points` the contacts returned by `getTouchPoints`. -/
def poll (d : Detector) (current_time : Nat) (points : List GDTpoint) : Run :=
  if gated d current_time then ⟨d, [], Status.running⟩
  else
    let d1 : Detector := { d with last_polled := current_time }
    match points with
    | [] => poll_none d1 current_time
    | [p0] => poll_one d1 current_time (remap d1.rotation p0)
    | [p0, p1] => poll_two d1 current_time (remap d1.rotation p0) (remap d1.rotation p1)
    | _ => ⟨d1, [], Status.running⟩

/-! ## Registration (`fill_event` and the `onXxx` wrappers) -/

/-- Returns `nPts` and the vertices written to `rc` (none when the rectangle
is empty, four otherwise). -/
def fill_rect_region (x y w h : Int) : Int × List Point :=
  if w = 0 ∨ h = 0 then (0, [])
  else (4, [⟨x, y⟩, ⟨x + w, y⟩, ⟨x + w, y + h⟩, ⟨x, y + h⟩])

/-- The call `memcpy(reg, rc, n * sizeof(Point))` on the `MAX_POINTS` elements
of the region storage. -/
def copy_points (reg rc : List Point) (n : Nat) : List Point :=
  (List.range MAX_POINTS).map
    (fun j => if j < n then rc.getD j default else reg.getD j default)

/-- Registration of a listener.  The result is `none` when a store falls
outside the object it is aimed at: a negative `indx`, a negative `nPts`, or the
closing vertex `reg[nPts]` at `nPts = MAX_POINTS`. -/
def fill_event (d : Detector) (ev : EventType) (rc : List Point) (nPts : Int)
    (tapCB dragCB pinchCB : Callback) (indx : Int) (param : Nat) (rotatable : Bool)
    (constraint : Constraint) (angle_tol : Int) : Option Detector :=
  if indx ≥ (MAX_EVENTS : Int) then some d
  else if indx < 0 then none
  else
    let n : Int := if nPts > (MAX_POINTS : Int) then (MAX_POINTS : Int) else nPts
    if n < 0 then none
    else
      let reg0 := (d.events indx.toNat).reg
      let reg1 := if n ≠ 0 then copy_points reg0 rc n.toNat else reg0
      if n.toNat ≥ MAX_POINTS then none
      else
        let slot : RegEvent :=
          { type := ev, param := param, reg := reg1.set n.toNat (reg1.getD 0 default),
            nPts := n, tapCallback := tapCB, dragCallback := dragCB,
            pinchCallback := pinchCB, constraint := constraint, angle_tol := angle_tol,
            rotatable := rotatable }
        some { d with events := fun j => if j = indx.toNat then slot else d.events j }

def onTap (d : Detector) (rc : List Point) (nPts : Int) (tapCB : Callback) (indx : Int)
    (param : Nat) : Option Detector :=
  fill_event d EV_TAP rc nPts tapCB none none indx param false CO_NONE 5

/-- The rectangle overload of `onTap`. -/
def onTap_rect (d : Detector) (x y w h : Int) (tapCB : Callback) (indx : Int)
    (param : Nat) : Option Detector :=
  fill_event d EV_TAP (fill_rect_region x y w h).2 (fill_rect_region x y w h).1
    tapCB none none indx param false CO_NONE 5

def onDrag (d : Detector) (rc : List Point) (nPts : Int) (dragCB : Callback) (indx : Int)
    (param : Nat) (constraint : Constraint) (angle_tol : Int) : Option Detector :=
  fill_event d EV_DRAG rc nPts none dragCB none indx param false constraint angle_tol

/-- The rectangle overload of `onDrag`. -/
def onDrag_rect (d : Detector) (x y w h : Int) (dragCB : Callback) (indx : Int)
    (param : Nat) (constraint : Constraint) (angle_tol : Int) : Option Detector :=
  fill_event d EV_DRAG (fill_rect_region x y w h).2 (fill_rect_region x y w h).1
    none dragCB none indx param false constraint angle_tol

def onSwipe (d : Detector) (rc : List Point) (nPts : Int) (dragCB : Callback) (indx : Int)
    (param : Nat) (constraint : Constraint) (angle_tol : Int) : Option Detector :=
  fill_event d EV_SWIPE rc nPts none dragCB none indx param false constraint angle_tol

/-- The rectangle overload of `onSwipe`. -/
def onSwipe_rect (d : Detector) (x y w h : Int) (dragCB : Callback) (indx : Int)
    (param : Nat) (constraint : Constraint) (angle_tol : Int) : Option Detector :=
  fill_event d EV_SWIPE (fill_rect_region x y w h).2 (fill_rect_region x y w h).1
    none dragCB none indx param false constraint angle_tol

def onPinch (d : Detector) (rc : List Point) (nPts : Int) (pinchCB : Callback) (indx : Int)
    (param : Nat) (rotatable : Bool) (constraint : Constraint) (angle_tol : Int) :
    Option Detector :=
  fill_event d EV_PINCH rc nPts none none pinchCB indx param rotatable constraint angle_tol

/-- The rectangle overload of `onPinch`. -/
def onPinch_rect (d : Detector) (x y w h : Int) (pinchCB : Callback) (indx : Int)
    (param : Nat) (rotatable : Bool) (constraint : Constraint) (angle_tol : Int) :
    Option Detector :=
  fill_event d EV_PINCH (fill_rect_region x y w h).2 (fill_rect_region x y w h).1
    none none pinchCB indx param rotatable constraint angle_tol

/-- The statement `events[indx].type = EV_NONE`; `none` when `indx` is not a
slot of the table. -/
def cancelEvent (d : Detector) (indx : Int) : Option Detector :=
  if 0 ≤ indx ∧ indx < (MAX_EVENTS : Int) then
    some { d with events := fun j =>
      if j = indx.toNat then { d.events j with type := EV_NONE } else d.events j }
  else none

/-- The test `events[indx].type != EV_NONE`; `none` when `indx` is not a slot
of the table. -/
def isEventRegistered (d : Detector) (indx : Int) : Option Bool :=
  if 0 ≤ indx ∧ indx < (MAX_EVENTS : Int) then
    some (decide ((d.events indx.toNat).type ≠ EV_NONE))
  else none

def setRotation (d : Detector) (rot : Int) : Detector :=
  { d with rotation := rot }

/-- The detector's own part of `begin()`: the tracked gesture and every slot
of the table get type `EV_NONE`. -/
def begin (d : Detector) : Detector :=
  { d with
    track := { d.track with type := EV_NONE }
    events := fun j => if j < MAX_EVENTS then { d.events j with type := EV_NONE } else d.events j }

/-- A listener slot of a zero-initialised detector object. -/
def zero_slot : RegEvent :=
  { type := 0, param := 0, reg := List.replicate MAX_POINTS ⟨0, 0⟩, nPts := 0,
    tapCallback := none, dragCallback := none, pinchCallback := none,
    constraint := CO_NONE, angle_tol := 0, rotatable := false }

/-- A zero-initialised detector object (static storage), before `begin()`. -/
def zero_detector : Detector :=
  { rotation := 0, last_polled := 0,
    track := { type := 0, start_time := 0, hold_time := 0, active_event := 0,
               cont0 := ⟨0, 0, 0, 0, 0⟩, cont1 := ⟨0, 0, 0, 0, 0⟩, working_co := CO_NONE },
    events := fun _ => zero_slot }

/-- Runs `poll` over a sequence of samples `(millis(), contacts)`, stopping at
the first poll from which control does not come back. -/
def poll_all : Detector → List (Nat × List GDTpoint) → Run
  | d, [] => ⟨d, [], Status.running⟩
  | d, s :: rest =>
    let r := poll d s.1 s.2
    match r.status with
    | Status.running =>
      let r2 := poll_all r.det rest
      ⟨r2.det, r.log ++ r2.log, r2.status⟩
    | st => ⟨r.det, r.log, st⟩

/-! ## Vocabulary of the properties -/

/-- A bound on coordinates under which `Point::is_left` does not overflow:
differences stay within `2 * COORD_MAX` and `8 * COORD_MAX ^ 2 < 2 ^ 31`. -/
def COORD_MAX : Int := 16383

/-- The coordinate `v` is within `COORD_MAX` of zero. -/
abbrev small (v : Int) : Prop :=
  -COORD_MAX ≤ v ∧ v ≤ COORD_MAX

/-- Both coordinates of the point are within `COORD_MAX` of zero. -/
abbrev Point.small (p : Point) : Prop :=
  GestureDetector.small p.x ∧ GestureDetector.small p.y

/-- The edge step of `in_polygon`, written on the two end points of the edge. -/
def edge_step (P A B : Point) (wn : Int) : Int :=
  if A.y ≤ P.y then
    if B.y > P.y then
      if P.is_left A B > 0 then wn + 1 else wn
    else wn
  else
    if B.y ≤ P.y then
      if P.is_left A B < 0 then wn - 1 else wn
    else wn

/-- The tracked gesture's base kind, `track.type & ~EV_RELEASED`. -/
def base_kind (d : Detector) : EventType := band d.track.type (bnot EV_RELEASED)

/-- Listener `i` answers the tracked gesture: it has the gesture's base kind
(one of Tap, Drag, Swipe, Pinch), its region contains the initial contact
point (both initial points for a pinch) and, for a drag, swipe or pinch, its
constraint accepts the relevant displacement. -/
def candidate (d : Detector) (i : Nat) : Bool :=
  if base_kind d = EV_TAP then
    decide ((d.events i).type = EV_TAP) &&
      in_region (d.events i) d.track.cont0.init_x d.track.cont0.init_y
  else if base_kind d = EV_DRAG ∨ base_kind d = EV_SWIPE then
    decide ((d.events i).type = base_kind d) &&
      in_region (d.events i) d.track.cont0.init_x d.track.cont0.init_y &&
      check_constraints (d.events i) d.track.cont0.dx d.track.cont0.dy
  else if base_kind d = EV_PINCH then
    decide ((d.events i).type = EV_PINCH) &&
      in_region (d.events i) d.track.cont0.init_x d.track.cont0.init_y &&
      in_region (d.events i) d.track.cont1.init_x d.track.cont1.init_y &&
      check_constraints (d.events i)
        (d.track.cont0.init_x - d.track.cont1.init_x)
        (d.track.cont0.init_y - d.track.cont1.init_y)
  else false

/-- Tap listeners in slots 2 and 5 with overlapping squares, and a fresh tap
at (7, 7), inside both. -/
def overlap_detector : Detector :=
  { rotation := 0, last_polled := 0,
    track := { type := EV_TAP, start_time := 0, hold_time := 0, active_event := -1,
               cont0 := ⟨0, 7, 7, 0, 0⟩, cont1 := ⟨0, 0, 0, 0, 0⟩, working_co := CO_NONE },
    events := fun j =>
      if j = 2 then
        { type := EV_TAP, param := 0, reg := [⟨0, 0⟩, ⟨10, 0⟩, ⟨10, 10⟩, ⟨0, 10⟩, ⟨0, 0⟩],
          nPts := 4, tapCallback := some 1, dragCallback := none, pinchCallback := none,
          constraint := CO_NONE, angle_tol := 5, rotatable := false }
      else if j = 5 then
        { type := EV_TAP, param := 0, reg := [⟨5, 5⟩, ⟨15, 5⟩, ⟨15, 15⟩, ⟨5, 15⟩, ⟨5, 5⟩],
          nPts := 4, tapCallback := some 2, dragCallback := none, pinchCallback := none,
          constraint := CO_NONE, angle_tol := 5, rotatable := false }
      else zero_slot }

/-- The resolved listener, if there is one, is a slot of the table and still
has a kind that passes the `ASSERT` of `call_cb` for the tracked gesture. -/
abbrev dispatch_ok (d : Detector) : Prop :=
  0 ≤ d.track.active_event →
    d.track.active_event < (MAX_EVENTS : Int) ∧
    ((base_kind d = EV_DRAG ∨ base_kind d = EV_SWIPE) →
      ((d.events d.track.active_event.toNat).type = EV_DRAG ∨
        (d.events d.track.active_event.toNat).type = EV_SWIPE)) ∧
    (base_kind d = EV_PINCH → (d.events d.track.active_event.toNat).type = EV_PINCH)

/-- The event is a call through a callback pointer of listener `k`, carrying
that listener's index and parameter. -/
def from_listener (d : Detector) (k : Int) : Event → Bool
  | Event.started _ => false
  | Event.tap cb _ indx param _ _ =>
    decide (indx = k ∧ cb = (d.events k.toNat).tapCallback ∧ param = (d.events k.toNat).param)
  | Event.drag cb _ indx param _ _ _ _ =>
    decide (indx = k ∧ cb = (d.events k.toNat).dragCallback ∧ param = (d.events k.toNat).param)
  | Event.pinch cb _ indx param _ =>
    decide (indx = k ∧ cb = (d.events k.toNat).pinchCallback ∧ param = (d.events k.toNat).param)

/-- Drag listeners in slots 2 and 5 with overlapping squares; a drag that
started at (7, 7), inside both, was resolved to slot 2 and has since moved to
(107, 7), outside both. -/
def sticky_detector : Detector :=
  { rotation := 0, last_polled := 0,
    track := { type := EV_DRAG, start_time := 0, hold_time := 60, active_event := 2,
               cont0 := ⟨0, 7, 7, 100, 0⟩, cont1 := ⟨0, 0, 0, 0, 0⟩, working_co := CO_NONE },
    events := fun j =>
      if j = 2 then
        { type := EV_DRAG, param := 11, reg := [⟨0, 0⟩, ⟨10, 0⟩, ⟨10, 10⟩, ⟨0, 10⟩, ⟨0, 0⟩],
          nPts := 4, tapCallback := none, dragCallback := some 1, pinchCallback := none,
          constraint := CO_NONE, angle_tol := 3, rotatable := false }
      else if j = 5 then
        { type := EV_DRAG, param := 12, reg := [⟨5, 5⟩, ⟨15, 5⟩, ⟨15, 15⟩, ⟨5, 15⟩, ⟨5, 5⟩],
          nPts := 4, tapCallback := none, dragCallback := some 2, pinchCallback := none,
          constraint := CO_NONE, angle_tol := 3, rotatable := false }
      else zero_slot }

/-- A session through the public interface: `begin()`, a Drag listener on the
square (0,0)-(100,100) in slot 0, a contact that lands at (10,10) and is seen
at (20,10) 200 ms later, which makes it a drag resolved to slot 0. -/
def drag_session : Option Run :=
  (onDrag_rect (begin zero_detector) 0 0 100 100 (some 1) 0 0 CO_NONE 3).map
    (fun d => poll_all d [(30, [⟨10, 10⟩]), (230, [⟨20, 10⟩])])

/-- The session `drag_session`, followed by `cancelEvent(0)` while the finger
is still down and then by a poll that samples zero contacts. -/
def cancelled_mid_drag : Option Run :=
  (drag_session.bind (fun r => cancelEvent r.det 0)).map (fun d => poll d 260 [])

/-- A session through the public interface: `begin()`, a Pinch listener on the
square (0,0)-(200,200) in slot 0, and two contacts seen on two scans, which
makes a pinch resolved to slot 0. -/
def pinch_session : Option Run :=
  (onPinch_rect (begin zero_detector) 0 0 200 200 (some 1) 0 0 false CO_NONE 3).map
    (fun d => poll_all d [(30, [⟨50, 100⟩, ⟨150, 100⟩]), (60, [⟨40, 100⟩, ⟨160, 100⟩])])

/-- The session `pinch_session`, followed by `cancelEvent(0)` while both
fingers are down and then by a poll that samples one contact. -/
def cancelled_mid_pinch : Option Run :=
  (pinch_session.bind (fun r => cancelEvent r.det 0)).map (fun d => poll d 90 [⟨40, 100⟩])

/-- What is compared of a run: status, log, and the tracked kind, listener and
hold time. -/
structure Summary where
  status : Status
  log : List Event
  type : EventType
  active_event : Int
  hold_time : Nat
  deriving DecidableEq, Repr

def Run.summary (r : Run) : Summary :=
  ⟨r.status, r.log, r.det.track.type, r.det.track.active_event, r.det.track.hold_time⟩

/-- The detectors `d1` and `d2` differ at most in the resolved listener and
the working constraint of the tracked gesture. -/
def same_but_resolution (d1 d2 : Detector) : Prop :=
  d2.rotation = d1.rotation ∧ d2.last_polled = d1.last_polled ∧ d2.events = d1.events ∧
  d2.track.type = d1.track.type ∧ d2.track.start_time = d1.track.start_time ∧
  d2.track.hold_time = d1.track.hold_time ∧ d2.track.cont0 = d1.track.cont0 ∧
  d2.track.cont1 = d1.track.cont1

/-- A pinch resolved to the Pinch listener of slot 0, both fingers down. -/
def pinch_detector : Detector :=
  { rotation := 0, last_polled := 60,
    track := { type := EV_PINCH, start_time := 30, hold_time := 30, active_event := 0,
               cont0 := ⟨0, 50, 100, -10, 0⟩, cont1 := ⟨1, 150, 100, 10, 0⟩,
               working_co := CO_HORIZ },
    events := fun j =>
      if j = 0 then
        { type := EV_PINCH, param := 0,
          reg := [⟨0, 0⟩, ⟨200, 0⟩, ⟨200, 200⟩, ⟨0, 200⟩, ⟨0, 0⟩],
          nPts := 4, tapCallback := none, dragCallback := none, pinchCallback := some 1,
          constraint := CO_NONE, angle_tol := 3, rotatable := false }
      else zero_slot }

/-- A tap that landed at (10, 10) at time 0 and has not moved, over a Tap
listener in slot 0, a Drag listener in slot 1 and a Swipe listener in slot 2
that all cover the square (0,0)-(100,100). -/
def tap_detector : Detector :=
  { rotation := 0, last_polled := 0,
    track := { type := EV_TAP, start_time := 0, hold_time := 0, active_event := 0,
               cont0 := ⟨0, 10, 10, 0, 0⟩, cont1 := ⟨0, 0, 0, 0, 0⟩, working_co := CO_NONE },
    events := fun j =>
      if j = 0 then
        { type := EV_TAP, param := 0,
          reg := [⟨0, 0⟩, ⟨100, 0⟩, ⟨100, 100⟩, ⟨0, 100⟩, ⟨0, 0⟩],
          nPts := 4, tapCallback := some 1, dragCallback := none, pinchCallback := none,
          constraint := CO_NONE, angle_tol := 5, rotatable := false }
      else if j = 1 then
        { type := EV_DRAG, param := 0,
          reg := [⟨0, 0⟩, ⟨100, 0⟩, ⟨100, 100⟩, ⟨0, 100⟩, ⟨0, 0⟩],
          nPts := 4, tapCallback := none, dragCallback := some 2, pinchCallback := none,
          constraint := CO_NONE, angle_tol := 3, rotatable := false }
      else if j = 2 then
        { type := EV_SWIPE, param := 0,
          reg := [⟨0, 0⟩, ⟨100, 0⟩, ⟨100, 100⟩, ⟨0, 100⟩, ⟨0, 0⟩],
          nPts := 4, tapCallback := none, dragCallback := some 3, pinchCallback := none,
          constraint := CO_NONE, angle_tol := 1, rotatable := false }
      else zero_slot }

/-- The tap of `tap_detector` after it was seen at (20, 10): a displacement
of (10, 0) while the gesture is still a tap. -/
def moved_tap_detector : Detector :=
  { tap_detector with
    last_polled := 100
    track := { tap_detector.track with hold_time := 100, cont0 := ⟨0, 10, 10, 10, 0⟩ } }

/-- The `type` argument of a callback carries `EV_RELEASED`. -/
def Event.is_released : Event → Bool
  | Event.started _ => false
  | Event.tap _ t _ _ _ _ => decide (band t EV_RELEASED ≠ 0)
  | Event.drag _ t _ _ _ _ _ _ => decide (band t EV_RELEASED ≠ 0)
  | Event.pinch _ t _ _ _ => decide (band t EV_RELEASED ≠ 0)

/-- The `type` argument of a callback. -/
def Event.type_arg : Event → Option EventType
  | Event.started _ => none
  | Event.tap _ t _ _ _ _ => some t
  | Event.drag _ t _ _ _ _ _ _ => some t
  | Event.pinch _ t _ _ _ => some t

/-- The event is a call of `start_new_tracked`. -/
def Event.is_start : Event → Bool
  | Event.started _ => true
  | _ => false

/-- Puts a dispatch in front of the first instance of a list of instances. -/
def add_to_first (e : Event) : List (List Event) → List (List Event)
  | [] => [[e]]
  | seg :: segs => (e :: seg) :: segs

/-- The tracked gesture instances of a log: the dispatches made between two
consecutive calls of `start_new_tracked` (the first instance is the one in
progress when the log starts). -/
def split_instances : List Event → List (List Event)
  | [] => [[]]
  | e :: rest =>
    if e.is_start then [] :: split_instances rest
    else add_to_first e (split_instances rest)

/-- Exactly one dispatch of the instance carries the released bit, and it is
the last one. -/
def release_once_last (seg : List Event) : Bool :=
  ((seg.filter Event.is_released).length == 1) &&
    (seg.getLast?.map Event.is_released == some true)

/-- No dispatch of the instance other than its last one carries the released
bit. -/
def released_only_last : List Event → Bool
  | [] => true
  | [_] => true
  | e :: rest => !e.is_released && released_only_last rest

/-- The log begins with a call of `start_new_tracked`. -/
def starts_with_start : List Event → Bool
  | e :: _ => e.is_start
  | [] => false

/-- Every dispatch of the log that carries the released bit is immediately
followed by a call of `start_new_tracked`. -/
def release_then_start : List Event → Bool
  | [] => true
  | e :: rest => (!e.is_released || starts_with_start rest) && release_then_start rest

/-- A session through the public interface: `begin()`, a Tap listener on the
square (0,0)-(100,100) in slot 0, a contact that lands at (10,10), is seen at
(20,10) 200 ms later and is then lifted. -/
def tap_then_drag_session : Option Run :=
  (onTap_rect (begin zero_detector) 0 0 100 100 (some 1) 0 0).map
    (fun d => poll_all d [(30, [⟨10, 10⟩]), (230, [⟨20, 10⟩]), (260, [])])

/-- The times `ts` are those of successive scans after a scan at time `last`:
each one is at least `SCAN_TIME` after the one before, so that `poll` does not
skip it, and `millis()` has not wrapped around. -/
def spaced : Nat → List Nat → Bool
  | _, [] => true
  | last, t :: ts => decide (last + SCAN_TIME ≤ t ∧ t < ULONG_MOD) && spaced t ts

/-- The samples of one contact held at the raw point `p` at the times `ts`. -/
def held_at (p : GDTpoint) (ts : List Nat) : List (Nat × List GDTpoint) :=
  ts.map (fun t => (t, [p]))

/-- The samples of one contact seen at the given times and raw points. -/
def one_contact (ms : List (Nat × GDTpoint)) : List (Nat × List GDTpoint) :=
  ms.map (fun m => (m.1, [m.2]))

/-- The `type` argument carries `EV_LONG_PRESS` but not `EV_RELEASED`. -/
def Event.is_long_press_down : Event → Bool
  | Event.tap _ t _ _ _ _ => decide (band t EV_LONG_PRESS ≠ 0 ∧ band t EV_RELEASED = 0)
  | _ => false

/-- The detector `d` while a tap that landed at `(x, y)` at time `t0` is held
without displacement: `k` is the resolved listener, `tl` the time of the last
scan and `h` the hold time recorded by it. -/
def tap_held (d : Detector) (t0 : Nat) (k : Int) (x y : Int) (tl h : Nat) : Detector :=
  { rotation := d.rotation, last_polled := tl, events := d.events,
    track := { type := EV_TAP, start_time := t0, hold_time := h, active_event := k,
               cont0 := ⟨0, x, y, 0, 0⟩, cont1 := d.track.cont1,
               working_co := d.track.working_co } }

/-- A session through the public interface: `begin()`, a Tap listener on the
square (0,0)-(100,100) in slot 0, and a contact that lands at (10,10) and is
held there over scans that span 570 ms. -/
def long_press_session : Option Run :=
  (onTap_rect (begin zero_detector) 0 0 100 100 (some 1) 0 0).map
    (fun d => poll_all d [(30, [⟨10, 10⟩]), (200, [⟨10, 10⟩]), (400, [⟨10, 10⟩]),
      (600, [⟨10, 10⟩])])

/-- The session `long_press_session`, followed by the poll that sees the
contact lifted. -/
def long_press_released : Option Run :=
  long_press_session.map (fun r => poll r.det 630 [])

/-- The listeners of `tap_detector` with no gesture in progress. -/
def idle_detector : Detector :=
  { tap_detector with
    track := { tap_detector.track with type := EV_NONE, active_event := (-1) } }

/-- The detector tracks a drag that started at `(x, y)`, under rotation `rot`,
and its resolved listener (if any) passes the `ASSERT` of `call_cb`. -/
def drag_tracked (rot : Int) (x y : Int) (s : Detector) : Prop :=
  s.track.type = EV_DRAG ∧ dispatch_ok s ∧ s.rotation = rot ∧
    s.track.cont0.init_x = x ∧ s.track.cont0.init_y = y

/-- A session through the public interface: `begin()`, a Tap, a Drag and a
Swipe listener on the square (0,0)-(100,100) in slots 0, 1 and 2, and a
contact that lands at (10,10), stays there over scans that span 210 ms and is
then seen at (20,10). -/
def slow_move_session : Option Run :=
  (((onTap_rect (begin zero_detector) 0 0 100 100 (some 1) 0 0).bind
    (fun d => onDrag_rect d 0 0 100 100 (some 2) 1 0 CO_NONE 3)).bind
    (fun d => onSwipe_rect d 0 0 100 100 (some 3) 2 0 CO_NONE 1)).map
    (fun d => poll_all d [(30, [⟨10, 10⟩]), (100, [⟨10, 10⟩]), (170, [⟨10, 10⟩]),
      (240, [⟨10, 10⟩]), (270, [⟨20, 10⟩])])

/-- The session `slow_move_session`, followed by the poll that sees the
contact lifted. -/
def slow_move_released : Option Run :=
  slow_move_session.map (fun r => poll r.det 300 [])

/-! ## The pinch solvers of `call_cb`

`Event.pinch` records what the callback arguments are computed from.  The
arguments themselves are `float` values; in the solvers of this section
`float` arithmetic is taken exact, in an ordered field `K` (the rationals for
the two-scale solver), and `sqrt` is a parameter `root : K → K`; the two-scale
solver with every operation rounded to `float` is `pinch_plain32`.  A quotient whose denominator is zero
(an infinity or a NaN in `float`) has no value in `K`: the solvers return
`none` there. -/

/-- The literal `MIN_SCALE`, 0.1. -/
def MIN_SCALE (K : Type) [LinearOrderedField K] : K := 1 / 10

/-- Conversion of a `float` to `int` (the assignments to `dx` and `dy`): the
fractional part is discarded. -/
def ctrunc {K : Type} [LinearOrderedField K] [FloorRing K] (q : K) : Int :=
  if 0 ≤ q then ⌊q⌋ else -⌊-q⌋

/-- The arguments `dx, dy, sx, sy` of a call through `pinchCallback`. -/
structure PinchArgs (K : Type) where
  dx : Int
  dy : Int
  sx : K
  sy : K

/-- The function `length` of geometry.cpp. -/
def length {K : Type} [LinearOrderedField K] (root : K → K) (x1 x2 y1 y2 : Int) : K :=
  root (((x2 - x1) * (x2 - x1) + (y2 - y1) * (y2 - y1) : Int) : K)

/-- The function `dot` of geometry.cpp, before the conversion to `float`. -/
def dot (u1 u2 v1 v2 : Int) : Int :=
  (u1 * u2) + (v1 * v2)

/-- The function `perp` of geometry.cpp, before the conversion to `float`. -/
def perp (u1 u2 v1 v2 : Int) : Int :=
  ((-v1) * u2) + (u1 * v2)

/-- The branch `if (events[i].rotatable)` of `case EV_PINCH`. -/
def pinch_rotated (K : Type) [LinearOrderedField K] [FloorRing K] (root : K → K)
    (g : PinchInput) : Option (PinchArgs K) :=
  let init_x0 := g.c0.init_x
  let init_y0 := g.c0.init_y
  let init_x1 := g.c1.init_x
  let init_y1 := g.c1.init_y
  let x0 := g.c0.init_x + g.c0.dx
  let y0 := g.c0.init_y + g.c0.dy
  let x1 := g.c1.init_x + g.c1.dx
  let y1 := g.c1.init_y + g.c1.dy
  let len0 : K := length root init_x0 init_x1 init_y0 init_y1
  let len1 : K := length root x0 x1 y0 y1
  if len0 = 0 ∨ len1 = 0 then none
  else
    let scale : K := len1 / len0
    let cosa : K := (dot (init_x1 - init_x0) (x1 - x0) (init_y1 - init_y0) (y1 - y0) : Int)
    let cosa : K := (cosa / len1) / len0
    let sina : K := (perp (init_x1 - init_x0) (x1 - x0) (init_y1 - init_y0) (y1 - y0) : Int)
    let sina : K := (sina / len1) / len0
    let scale : K := if scale < MIN_SCALE K then MIN_SCALE K else scale
    let sx : K := cosa * scale
    let sy : K := sina * scale
    some ⟨ctrunc ((x0 : K) - (sx * (init_x0 : K) - sy * (init_y0 : K))),
          ctrunc ((y0 : K) - (sy * (init_x0 : K) + sx * (init_y0 : K))), sx, sy⟩

/-- The `else` branch of `if (events[i].rotatable)` in `case EV_PINCH`: two
scales and no rotation. -/
def pinch_plain (K : Type) [LinearOrderedField K] [FloorRing K]
    (g : PinchInput) : Option (PinchArgs K) :=
  let init_x0 := g.c0.init_x
  let init_y0 := g.c0.init_y
  let init_x1 := g.c1.init_x
  let init_y1 := g.c1.init_y
  let x0 := g.c0.init_x + g.c0.dx
  let y0 := g.c0.init_y + g.c0.dy
  let x1 := g.c1.init_x + g.c1.dx
  let y1 := g.c1.init_y + g.c1.dy
  if (g.working_co ≠ CO_VERT ∧ init_x0 - init_x1 = 0) ∨
      (g.working_co ≠ CO_HORIZ ∧ init_y0 - init_y1 = 0) then none
  else
    let sx : K := if g.working_co = CO_VERT then 1
      else ((x0 - x1 : Int) : K) / ((init_x0 - init_x1 : Int) : K)
    let sy : K := if g.working_co = CO_HORIZ then 1
      else ((y0 - y1 : Int) : K) / ((init_y0 - init_y1 : Int) : K)
    let sx : K := if sx < MIN_SCALE K then MIN_SCALE K else sx
    let sy : K := if sy < MIN_SCALE K then MIN_SCALE K else sy
    some ⟨ctrunc ((x0 : K) - sx * (init_x0 : K)), ctrunc ((y0 : K) - sy * (init_y0 : K)),
          sx, sy⟩

/-- The arguments of the call recorded as `Event.pinch _ _ _ _ g`. -/
def pinch_args (K : Type) [LinearOrderedField K] [FloorRing K] (root : K → K)
    (g : PinchInput) : Option (PinchArgs K) :=
  if g.rotatable then pinch_rotated K root g else pinch_plain K g

/-- What a recorded pinch call was computed from. -/
def Event.pinch_input : Event → Option PinchInput
  | Event.pinch _ _ _ _ g => some g
  | _ => none

/-- A square root on the rationals that is right at 10000 (and nowhere else
of interest). -/
def root_at_10000 (q : ℚ) : ℚ :=
  if q = 10000 then 100 else 0

/-- A session through the public interface: `begin()`, a non-rotatable Pinch
listener without constraint and with tolerance 3 on the square
(0,0)-(300,300) in slot 0, two contacts that land at (100,100) and (200,100)
and are next seen at (90,100) and (210,100). -/
def spread_session : Option Run :=
  (onPinch_rect (begin zero_detector) 0 0 300 300 (some 1) 0 0 false CO_NONE 3).map
    (fun d => poll_all d [(30, [⟨100, 100⟩, ⟨200, 100⟩]), (60, [⟨90, 100⟩, ⟨210, 100⟩])])

/-- The pinch of `spread_session` as the solver sees it. -/
def spread_input : PinchInput :=
  ⟨⟨0, 100, 100, -10, 0⟩, ⟨1, 200, 100, 10, 0⟩, false, CO_HORIZ⟩

/-- A pinch like `spread_input` whose first contact starts at x = 101. -/
def uneven_input : PinchInput :=
  ⟨⟨0, 101, 100, -10, 0⟩, ⟨1, 201, 100, 10, 0⟩, false, CO_HORIZ⟩

/-- The session of `spread_session` with both contacts one pixel to the
right: they land at (101,100) and (201,100) and are next seen at (91,100) and
(211,100). -/
def uneven_session : Option Run :=
  (onPinch_rect (begin zero_detector) 0 0 300 300 (some 1) 0 0 false CO_NONE 3).map
    (fun d => poll_all d [(30, [⟨101, 100⟩, ⟨201, 100⟩]), (60, [⟨91, 100⟩, ⟨211, 100⟩])])

/-- A quarter turn: contacts that start at (100,100) and (200,100) and are now
at (150,50) and (150,150). -/
def quarter_turn_input : PinchInput :=
  ⟨⟨0, 100, 100, 50, -50⟩, ⟨1, 200, 100, -50, 50⟩, true, CO_HORIZ⟩

/-- A session through the public interface: `begin()`, a vertical-only Drag
listener with tolerance 3 on the square (0,0)-(100,100) in slot 0, and a
contact that lands at (10,10), stays there over scans that span 210 ms and is
then seen at (10,40). -/
def vertical_drag_session : Option Run :=
  (onDrag_rect (begin zero_detector) 0 0 100 100 (some 1) 0 0 CO_VERT 3).map
    (fun d => poll_all d [(30, [⟨10, 10⟩]), (100, [⟨10, 10⟩]), (170, [⟨10, 10⟩]),
      (240, [⟨10, 10⟩]), (270, [⟨10, 40⟩])])

/-- The same gesture as in `vertical_drag_session`, the contact being seen one
pixel to the side, at (11,40). -/
def near_vertical_drag_session : Option Run :=
  (onDrag_rect (begin zero_detector) 0 0 100 100 (some 1) 0 0 CO_VERT 3).map
    (fun d => poll_all d [(30, [⟨10, 10⟩]), (100, [⟨10, 10⟩]), (170, [⟨10, 10⟩]),
      (240, [⟨10, 10⟩]), (270, [⟨11, 40⟩])])

/-- A listener as the constraint functions see it: only the constraint and
the tolerance matter. -/
def constrained (c : Constraint) (tol : Int) : RegEvent :=
  { zero_slot with constraint := c, angle_tol := tol }

/-- A polygon of `MAX_POINTS` vertices. -/
def hexadecagon : List Point :=
  [⟨10, 0⟩, ⟨20, 0⟩, ⟨30, 0⟩, ⟨40, 0⟩, ⟨50, 10⟩, ⟨50, 20⟩, ⟨50, 30⟩, ⟨50, 40⟩,
   ⟨40, 50⟩, ⟨30, 50⟩, ⟨20, 50⟩, ⟨10, 50⟩, ⟨0, 40⟩, ⟨0, 30⟩, ⟨0, 20⟩, ⟨0, 10⟩]

/-! ## Vocabulary of the session properties -/

/-- A session through the public interface: `begin()`, a Drag listener with
constraint `c` and tolerance 3 on the square (0,0)-(300,300) in slot 0, two
contacts at (100,100) and (200,100), then the first one alone, then none: the
drag that starts when the second finger lifts is released with the
displacement (0, 0). -/
def still_drag_session (c : Constraint) : Option Run :=
  (onDrag_rect (begin zero_detector) 0 0 300 300 (some 1) 0 0 c 3).map
    (fun d => poll_all d [(30, [⟨100, 100⟩, ⟨200, 100⟩]), (60, [⟨100, 100⟩]), (90, [])])

/-- The session `slow_move_session` before its last poll: the contact has
landed at (10,10) and stayed there over scans that span 210 ms. -/
def slow_move_before : Option Run :=
  (((onTap_rect (begin zero_detector) 0 0 100 100 (some 1) 0 0).bind
    (fun d => onDrag_rect d 0 0 100 100 (some 2) 1 0 CO_NONE 3)).bind
    (fun d => onSwipe_rect d 0 0 100 100 (some 3) 2 0 CO_NONE 1)).map
    (fun d => poll_all d [(30, [⟨10, 10⟩]), (100, [⟨10, 10⟩]), (170, [⟨10, 10⟩]),
      (240, [⟨10, 10⟩])])

/-- The detector `d` with the cached listener index `k`. -/
def with_active (d : Detector) (k : Int) : Detector :=
  { d with track := { d.track with active_event := k } }

/-- A pinch on the Pinch listener of `pinch_detector` that `call_cb` has not
resolved yet. -/
def fresh_pinch_detector : Detector :=
  with_active pinch_detector (-1)
/-- The steps of `in_polygon` over the consecutive pairs of a list of
vertices, each counted from zero and added up. -/
def edge_sum (P : Point) : List Point → Int
  | a :: b :: rest => edge_step P a b 0 + edge_sum P (b :: rest)
  | _ => 0

/-- The closed ring of the square (0,0),(10,0),(10,10),(0,10). -/
def square_ring : List Point :=
  [⟨0, 0⟩, ⟨10, 0⟩, ⟨10, 10⟩, ⟨0, 10⟩, ⟨0, 0⟩]

/-- The closed ring of the rectangle x = -10, y = 0, w = 65546, h = 32768, in
the order in which `fill_rect_region` gives its corners. -/
def wide_ring : List Point :=
  [⟨-10, 0⟩, ⟨65536, 0⟩, ⟨65536, 32768⟩, ⟨-10, 32768⟩, ⟨-10, 0⟩]
/-- The resolved listener, if there is one, is a slot of the table whose kind
is the base kind of the tracked gesture. -/
abbrev resolved_sound (d : Detector) : Prop :=
  0 ≤ d.track.active_event →
    d.track.active_event < (MAX_EVENTS : Int) ∧
      (d.events d.track.active_event.toNat).type = base_kind d

/-- The tracked gesture as it is between two polls of a run that started with
`begin()`: nothing is tracked, or a Tap, a Drag or a Pinch is, without the
released bit, and its resolved listener is sound. -/
abbrev between_polls (d : Detector) : Prop :=
  d.track.type = EV_NONE ∨
    ((d.track.type = EV_TAP ∨ d.track.type = EV_DRAG ∨ d.track.type = EV_PINCH) ∧
      resolved_sound d)

/-- The rotation is one of the four that the switch of `poll` handles. -/
abbrev rotation_ok (d : Detector) : Prop :=
  0 ≤ d.rotation ∧ d.rotation ≤ 3

/-- A logged call is sound for the table of `d`: its index `i` is a slot of
the table, listener `i` has the base kind of the dispatch (Tap for a tap call,
Drag or Swipe as in the `type` argument for a drag call, Pinch for a pinch
call), and the callee and the parameter are those of listener `i` for that
shape of callback. -/
def sound_call (d : Detector) : Event → Bool
  | Event.started _ => true
  | Event.tap cb t indx param x y =>
    decide (0 ≤ indx ∧ indx < (MAX_EVENTS : Int) ∧ (d.events indx.toNat).type = EV_TAP) &&
      from_listener d indx (Event.tap cb t indx param x y)
  | Event.drag cb t indx param x y dx dy =>
    decide (0 ≤ indx ∧ indx < (MAX_EVENTS : Int) ∧
      (d.events indx.toNat).type = band t (bnot EV_RELEASED) ∧
      ((d.events indx.toNat).type = EV_DRAG ∨ (d.events indx.toNat).type = EV_SWIPE)) &&
      from_listener d indx (Event.drag cb t indx param x y dx dy)
  | Event.pinch cb t indx param g =>
    decide (0 ≤ indx ∧ indx < (MAX_EVENTS : Int) ∧ (d.events indx.toNat).type = EV_PINCH) &&
      from_listener d indx (Event.pinch cb t indx param g)

/-- Every listener of the table has the callback of its kind set (not
`NULL`). -/
abbrev callbacks_set (d : Detector) : Prop :=
  ∀ i, i < MAX_EVENTS →
    ((d.events i).type = EV_TAP → (d.events i).tapCallback ≠ none) ∧
    (((d.events i).type = EV_DRAG ∨ (d.events i).type = EV_SWIPE) →
      (d.events i).dragCallback ≠ none) ∧
    ((d.events i).type = EV_PINCH → (d.events i).pinchCallback ≠ none)

/-- The callee of a logged call is not `NULL`. -/
def Event.callee_set : Event → Bool
  | Event.started _ => true
  | Event.tap cb _ _ _ _ _ => cb.isSome
  | Event.drag cb _ _ _ _ _ _ _ => cb.isSome
  | Event.pinch cb _ _ _ _ => cb.isSome

/-- A dispatch whose base kind is Swipe carries the released bit. -/
def swipe_released (e : Event) : Bool :=
  match e.type_arg with
  | some t => decide (band t (bnot EV_RELEASED) = EV_SWIPE → band t EV_RELEASED ≠ 0)
  | none => true

/-- The event is a call of a listener of kind `k` of the table of `d`. -/
def to_kind (d : Detector) (k : EventType) : Event → Bool
  | Event.started _ => false
  | Event.tap _ _ indx _ _ _ => decide ((d.events indx.toNat).type = k)
  | Event.drag _ _ indx _ _ _ _ _ => decide ((d.events indx.toNat).type = k)
  | Event.pinch _ _ indx _ _ => decide ((d.events indx.toNat).type = k)

/-- The values of `track.type` with which `poll` calls `call_cb`. -/
abbrev dispatch_type (t : EventType) : Prop :=
  t = EV_TAP ∨ t = EV_DRAG ∨ t = EV_PINCH ∨ t = bor EV_NONE EV_RELEASED ∨
    t = bor EV_TAP EV_RELEASED ∨ t = bor EV_DRAG EV_RELEASED ∨
    t = bor EV_SWIPE EV_RELEASED ∨ t = bor EV_PINCH EV_RELEASED
/-- What one poll, or a run of polls, that starts from the detector `d` keeps:
the listener table and the rotation are untouched, no `ASSERT` fires, control
comes back whenever the rotation is one that `poll` handles, the state it
comes back with is again one met between polls, every logged call is sound,
and every call with base kind Swipe carries the released bit. -/
abbrev sound_run (d : Detector) (r : Run) : Prop :=
  r.det.events = d.events ∧ r.det.rotation = d.rotation ∧
    r.status ≠ Status.assertFailed ∧
    (rotation_ok d → r.status = Status.running) ∧
    (r.status = Status.running → between_polls r.det) ∧
    (∀ e ∈ r.log, sound_call d e = true) ∧
    (∀ e ∈ r.log, swipe_released e = true)

/-! ## A listener overwritten during a tap -/

/-- A session through the public interface: `begin()`, a Tap listener on the
square (0,0)-(100,100) in slot 0, and a contact that lands at (10,10). -/
def tap_session : Option Run :=
  (onTap_rect (begin zero_detector) 0 0 100 100 (some 1) 0 0).map
    (fun d => poll d 30 [⟨10, 10⟩])

/-- The session `tap_session`, followed by the registration of a Drag listener
in slot 0 while the finger is still down and then by a poll that samples zero
contacts. -/
def reregistered_mid_tap : Option Run :=
  (tap_session.bind (fun r => onDrag_rect r.det 0 0 100 100 (some 2) 0 0 CO_NONE 3)).map
    (fun d => poll d 60 [])

/-! ## Registration with the layout of `RegEvent`

In `RegEvent` the members `int nPts` and `TapCB tapCallback` follow
`Point reg[MAX_POINTS]` directly.  On the 32-bit target an `int` and a pointer
have four bytes each and a `Point` has eight, so that the element
`reg[MAX_POINTS]` that `fill_event` stores for a region of `MAX_POINTS`
vertices is the storage of `nPts` (its `x`) and of `tapCallback` (its `y`) of
the same slot. -/

/-- The pointer whose storage holds the 32 bits of the `int` `v`. -/
def pointer_of (v : Int) : Callback :=
  if v % 4294967296 = 0 then none else some (v % 4294967296).toNat

/-- The function `fill_event`, statement by statement, with the store
`reg[nPts] = reg[0]` at `nPts = MAX_POINTS` carried out on the members `nPts`
and `tapCallback` that lie there.  The result is `none` for a negative `indx`
and for a negative `nPts`, as in `fill_event`. -/
def fill_event_aliased (d : Detector) (ev : EventType) (rc : List Point) (nPts : Int)
    (tapCB dragCB pinchCB : Callback) (indx : Int) (param : Nat) (rotatable : Bool)
    (constraint : Constraint) (angle_tol : Int) : Option Detector :=
  if indx ≥ (MAX_EVENTS : Int) then some d
  else if indx < 0 then none
  else
    let n : Int := if nPts > (MAX_POINTS : Int) then (MAX_POINTS : Int) else nPts
    if n < 0 then none
    else
      let s0 : RegEvent := d.events indx.toNat
      let s1 : RegEvent := { s0 with type := ev, param := param }
      let s2 : RegEvent :=
        if n ≠ 0 then { s1 with reg := copy_points s1.reg rc n.toNat } else s1
      let s3 : RegEvent :=
        if n.toNat < MAX_POINTS then
          { s2 with reg := s2.reg.set n.toNat (s2.reg.getD 0 default) }
        else
          { s2 with nPts := (s2.reg.getD 0 default).x,
                    tapCallback := pointer_of (s2.reg.getD 0 default).y }
      let slot : RegEvent :=
        { s3 with nPts := n, tapCallback := tapCB, dragCallback := dragCB,
                  pinchCallback := pinchCB, constraint := constraint,
                  angle_tol := angle_tol, rotatable := rotatable }
      some { d with events := fun j => if j = indx.toNat then slot else d.events j }

/-! ## `float` arithmetic

A `float` is an IEEE 754 binary32 value and a `double` a binary64 value, as on
the target.  Their values are rationals; an operation yields the exact result
rounded to the nearest value with a significand of 24 bits (53 for `double`),
ties to even, and there is no fused multiply-add.  The exponent range is not
bounded: the quotients and products of 32-bit integers that the solver forms
are far from both ends of it. -/

/-- A session through the public interface: `begin()`, a non-rotatable Pinch
listener without constraint and with tolerance 3 on the whole screen in slot
0, two contacts that land at (100,665) and (300,420) and are next seen at
(100,571) and (300,424). -/
def tall_session : Option Run :=
  (onPinch_rect (begin zero_detector) 0 0 480 800 (some 1) 0 0 false CO_NONE 3).map
    (fun d => poll_all d [(30, [⟨100, 665⟩, ⟨300, 420⟩]), (60, [⟨100, 571⟩, ⟨300, 424⟩])])

/-- The pinch of `tall_session` as the solver sees it. -/
def tall_input : PinchInput :=
  ⟨⟨0, 100, 665, 0, -94⟩, ⟨1, 300, 420, 0, 4⟩, false, CO_NONE⟩

/-! # Properties -/

/-! ## Listener resolution -/
theorem scan_down_some (hit : Nat → Bool) (n i : Nat) (h : scan_down hit n = some i) :
    i < n ∧ hit i = true ∧ ∀ j, i < j → j < n → hit j = false := by
  induction n with
  | zero => simp [scan_down] at h
  | succ n ih =>
    unfold scan_down at h
    by_cases hn : hit n = true
    · rw [if_pos hn] at h
      have hi : n = i := Option.some.inj h
      subst hi
      exact ⟨Nat.lt_succ_self _, hn, fun j h1 h2 => by omega⟩
    · rw [if_neg hn] at h
      obtain ⟨h1, h2, h3⟩ := ih h
      refine ⟨by omega, h2, fun j hj1 hj2 => ?_⟩
      by_cases hjn : j = n
      · subst hjn
        simpa using hn
      · exact h3 j hj1 (by omega)

theorem scan_down_none (hit : Nat → Bool) (n : Nat) (h : scan_down hit n = none) :
    ∀ j, j < n → hit j = false := by
  induction n with
  | zero => intro j hj; omega
  | succ n ih =>
    unfold scan_down at h
    by_cases hn : hit n = true
    · rw [if_pos hn] at h
      cases h
    · rw [if_neg hn] at h
      intro j hj
      by_cases hjn : j = n
      · subst hjn
        simpa using hn
      · exact ih h j (by omega)

theorem scan_down_greatest (hit : Nat → Bool) (n i : Nat) (hi : i < n) (hhit : hit i = true)
    (hmax : ∀ j, j < n → hit j = true → j ≤ i) : scan_down hit n = some i := by
  cases hs : scan_down hit n with
  | none =>
    have := scan_down_none hit n hs i hi
    rw [hhit] at this
    cases this
  | some k =>
    obtain ⟨h1, h2, h3⟩ := scan_down_some hit n k hs
    have hki : k ≤ i := hmax k h1 h2
    by_cases hik : k = i
    · rw [hik]
    · have := h3 i (by omega) hi
      rw [hhit] at this
      cases this

theorem tap_hit_eq (d : Detector) (h : base_kind d = EV_TAP) (i : Nat) :
    tap_hit d i = candidate d i := by
  unfold tap_hit candidate
  rw [if_pos h]
  cases in_region (d.events i) d.track.cont0.init_x d.track.cont0.init_y <;>
    by_cases ht : (d.events i).type = EV_TAP <;> simp [ht]

theorem drag_hit_eq (d : Detector) (h1 : ¬ base_kind d = EV_TAP)
    (h : base_kind d = EV_DRAG ∨ base_kind d = EV_SWIPE) (i : Nat) :
    drag_hit d (base_kind d) i = candidate d i := by
  unfold drag_hit candidate
  rw [if_neg h1, if_pos h]
  cases in_region (d.events i) d.track.cont0.init_x d.track.cont0.init_y <;>
    cases check_constraints (d.events i) d.track.cont0.dx d.track.cont0.dy <;>
    by_cases ht : (d.events i).type = base_kind d <;> simp [ht]

theorem pinch_hit_eq (d : Detector) (h1 : ¬ base_kind d = EV_TAP)
    (h2 : ¬ (base_kind d = EV_DRAG ∨ base_kind d = EV_SWIPE))
    (h : base_kind d = EV_PINCH) (i : Nat) :
    pinch_hit d i = candidate d i := by
  unfold pinch_hit candidate
  rw [if_neg h1, if_neg h2, if_pos h]
  cases in_region (d.events i) d.track.cont0.init_x d.track.cont0.init_y <;>
    cases in_region (d.events i) d.track.cont1.init_x d.track.cont1.init_y <;>
    cases check_constraints (d.events i)
        (d.track.cont0.init_x - d.track.cont1.init_x)
        (d.track.cont0.init_y - d.track.cont1.init_y) <;>
    by_cases ht : (d.events i).type = EV_PINCH <;> simp [ht]

theorem set_active_active (d : Detector) (i : Nat) :
    (set_active d i).track.active_event = (i : Int) := rfl

theorem set_working_co_active (d : Detector) (i : Nat) :
    (set_working_co d i).track.active_event = d.track.active_event := rfl

theorem dispatch_tap_det (d : Detector) (released : EventType) :
    (dispatch_tap d released).det = d := by
  unfold dispatch_tap
  simp only []
  split_ifs <;> rfl

theorem dispatch_drag_det (d : Detector) (ev released : EventType) :
    (dispatch_drag d ev released).det = d := by
  unfold dispatch_drag
  simp only []
  split_ifs <;> rfl

theorem dispatch_pinch_det (d : Detector) (released : EventType) :
    (dispatch_pinch d released).det = d := by
  unfold dispatch_pinch
  simp only []
  split_ifs <;> rfl

theorem call_cb_eq (d : Detector) :
    call_cb d =
      if base_kind d = EV_TAP then dispatch_tap (resolve_tap d) (band d.track.type EV_RELEASED)
      else if base_kind d = EV_DRAG ∨ base_kind d = EV_SWIPE then
        dispatch_drag (resolve_drag d (base_kind d)) (base_kind d) (band d.track.type EV_RELEASED)
      else if base_kind d = EV_PINCH then
        dispatch_pinch (resolve_pinch d) (band d.track.type EV_RELEASED)
      else ⟨d, [], Status.running⟩ := rfl

theorem call_cb_det (d : Detector) :
    (call_cb d).det =
      if base_kind d = EV_TAP then resolve_tap d
      else if base_kind d = EV_DRAG ∨ base_kind d = EV_SWIPE then resolve_drag d (base_kind d)
      else if base_kind d = EV_PINCH then resolve_pinch d
      else d := by
  rw [call_cb_eq]
  split_ifs
  · exact dispatch_tap_det _ _
  · exact dispatch_drag_det _ _ _
  · exact dispatch_pinch_det _ _
  · rfl

theorem call_cb_found (d : Detector) (hneg : d.track.active_event < 0) (i : Nat)
    (hi : i < MAX_EVENTS) (hc : candidate d i = true)
    (hmax : ∀ j, j < MAX_EVENTS → candidate d j = true → j ≤ i) :
    (call_cb d).det.track.active_event = (i : Int) := by
  rw [call_cb_det]
  by_cases h1 : base_kind d = EV_TAP
  · rw [if_pos h1]
    unfold resolve_tap
    rw [if_pos hneg, scan_down_greatest (tap_hit d) MAX_EVENTS i hi
      (by rw [tap_hit_eq d h1]; exact hc)
      (fun j hj hh => hmax j hj (by rw [← tap_hit_eq d h1]; exact hh))]
    rfl
  · rw [if_neg h1]
    by_cases h2 : base_kind d = EV_DRAG ∨ base_kind d = EV_SWIPE
    · rw [if_pos h2]
      unfold resolve_drag
      rw [if_pos hneg, scan_down_greatest (drag_hit d (base_kind d)) MAX_EVENTS i hi
        (by rw [drag_hit_eq d h1 h2]; exact hc)
        (fun j hj hh => hmax j hj (by rw [← drag_hit_eq d h1 h2]; exact hh))]
      rfl
    · rw [if_neg h2]
      by_cases h3 : base_kind d = EV_PINCH
      · rw [if_pos h3]
        unfold resolve_pinch
        rw [if_pos hneg, scan_down_greatest (pinch_hit d) MAX_EVENTS i hi
          (by rw [pinch_hit_eq d h1 h2 h3]; exact hc)
          (fun j hj hh => hmax j hj (by rw [← pinch_hit_eq d h1 h2 h3]; exact hh))]
        rfl
      · exfalso
        unfold candidate at hc
        rw [if_neg h1, if_neg h2, if_neg h3] at hc
        cases hc

theorem scan_down_all_false (hit : Nat → Bool) (n : Nat) (h : ∀ j, j < n → hit j = false) :
    scan_down hit n = none := by
  cases hs : scan_down hit n with
  | none => rfl
  | some k =>
    obtain ⟨h1, h2, _⟩ := scan_down_some hit n k hs
    rw [h k h1] at h2
    cases h2

theorem dispatch_tap_neg (d : Detector) (released : EventType)
    (hneg : d.track.active_event < 0) :
    dispatch_tap d released = ⟨d, [], Status.running⟩ := by
  unfold dispatch_tap
  rw [if_pos hneg]

theorem dispatch_drag_neg (d : Detector) (ev released : EventType)
    (hneg : d.track.active_event < 0) :
    dispatch_drag d ev released = ⟨d, [], Status.running⟩ := by
  unfold dispatch_drag
  rw [if_pos hneg]

theorem dispatch_pinch_neg (d : Detector) (released : EventType)
    (hneg : d.track.active_event < 0) :
    dispatch_pinch d released = ⟨d, [], Status.running⟩ := by
  unfold dispatch_pinch
  rw [if_pos hneg]

theorem call_cb_not_found (d : Detector) (hneg : d.track.active_event < 0)
    (hnone : ∀ i, i < MAX_EVENTS → candidate d i = false) :
    call_cb d = ⟨d, [], Status.running⟩ := by
  rw [call_cb_eq]
  by_cases h1 : base_kind d = EV_TAP
  · have hres : resolve_tap d = d := by
      unfold resolve_tap
      rw [if_pos hneg, scan_down_all_false (tap_hit d) MAX_EVENTS
        (fun j hj => by rw [tap_hit_eq d h1]; exact hnone j hj)]
    rw [if_pos h1, hres, dispatch_tap_neg d _ hneg]
  · rw [if_neg h1]
    by_cases h2 : base_kind d = EV_DRAG ∨ base_kind d = EV_SWIPE
    · have hres : resolve_drag d (base_kind d) = d := by
        unfold resolve_drag
        rw [if_pos hneg, scan_down_all_false (drag_hit d (base_kind d)) MAX_EVENTS
          (fun j hj => by rw [drag_hit_eq d h1 h2]; exact hnone j hj)]
      rw [if_pos h2, hres, dispatch_drag_neg d _ _ hneg]
    · rw [if_neg h2]
      by_cases h3 : base_kind d = EV_PINCH
      · have hres : resolve_pinch d = d := by
          unfold resolve_pinch
          rw [if_pos hneg, scan_down_all_false (pinch_hit d) MAX_EVENTS
            (fun j hj => by rw [pinch_hit_eq d h1 h2 h3]; exact hnone j hj)]
        rw [if_pos h3, hres, dispatch_pinch_neg d _ hneg]
      · rw [if_neg h3]

/-- C1. Listener resolution picks the highest priority index: when `call_cb`
is entered with no resolved listener (`active_event < 0`, in particular -1) it
sets `active_event` to the greatest index below `MAX_EVENTS` whose listener
answers the tracked gesture (`candidate`: same base kind, region containing
the initial contact point or points, constraint accepting the displacement);
when no index does, `active_event` is left as it was and no callback is
invoked. -/
theorem call_cb_resolves_highest (d : Detector) (hneg : d.track.active_event < 0) :
    (∀ i, i < MAX_EVENTS → candidate d i = true →
        (∀ j, j < MAX_EVENTS → candidate d j = true → j ≤ i) →
        (call_cb d).det.track.active_event = (i : Int)) ∧
    ((∀ i, i < MAX_EVENTS → candidate d i = false) →
        (call_cb d).det.track.active_event = d.track.active_event ∧ (call_cb d).log = []) := by
  refine ⟨fun i hi hc hmax => call_cb_found d hneg i hi hc hmax, fun hnone => ?_⟩
  rw [call_cb_not_found d hneg hnone]
  exact ⟨rfl, rfl⟩

/-- C1 at Tap listeners in slots 2 and 5 with overlapping squares: a tap inside
both resolves to 5. -/
theorem call_cb_resolves_highest_witness :
    candidate overlap_detector 2 = true ∧ candidate overlap_detector 5 = true ∧
      (call_cb overlap_detector).det.track.active_event = 5 :=
  ⟨by decide, by decide,
    (call_cb_resolves_highest overlap_detector (by decide)).1 5 (by decide) (by decide)
      (by decide)⟩

/-! ## Rectangle hit-testing -/

theorem pos_mul_iff (a h : Int) (hh : 0 < h) : a * h > 0 ↔ 0 < a := by
  constructor
  · intro hp
    by_contra hc
    have : a * h ≤ 0 := Int.mul_nonpos_of_nonpos_of_nonneg (by omega) (by omega)
    omega
  · intro ha
    exact Int.mul_pos ha hh

theorem neg_mul_iff (a h : Int) (hh : 0 < h) : a * h < 0 ↔ a < 0 := by
  constructor
  · intro hp
    by_contra hc
    have : 0 ≤ a * h := Int.mul_nonneg (by omega) (by omega)
    omega
  · intro ha
    exact Int.mul_neg_of_neg_of_pos ha hh

theorem in_polygon_edge_eq (P : Point) (V : List Point) (wn : Int) (i : Nat) :
    Point.in_polygon_edge P V wn i
      = edge_step P (V.getD i default) (V.getD (i + 1) default) wn := rfl

theorem wrap32_id (v : Int) (h1 : -2147483648 ≤ v) (h2 : v < 2147483648) : wrap32 v = v := by
  unfold wrap32
  omega

theorem mul_bounds (a b c : Int) (ha : -c ≤ a ∧ a ≤ c) (hb : -c ≤ b ∧ b ≤ c) :
    -(c * c) ≤ a * b ∧ a * b ≤ c * c := by
  constructor
  · nlinarith [mul_nonneg (sub_nonneg.mpr ha.2) (sub_nonneg.mpr (neg_le.mp hb.1)),
      mul_nonneg (sub_nonneg.mpr (neg_le.mp ha.1)) (sub_nonneg.mpr hb.2)]
  · nlinarith [mul_nonneg (sub_nonneg.mpr ha.2) (sub_nonneg.mpr hb.2),
      mul_nonneg (sub_nonneg.mpr (neg_le.mp ha.1)) (sub_nonneg.mpr (neg_le.mp hb.1))]

/-- With coordinates within `COORD_MAX`, no operation of `is_left` wraps. -/
theorem is_left_small (P A B : Point) (hP : P.small) (hA : A.small) (hB : B.small) :
    P.is_left A B = (B.x - A.x) * (P.y - A.y) - (P.x - A.x) * (B.y - A.y) := by
  have hc : COORD_MAX = 16383 := rfl
  obtain ⟨⟨p1, p2⟩, ⟨p3, p4⟩⟩ := hP
  obtain ⟨⟨a1, a2⟩, ⟨a3, a4⟩⟩ := hA
  obtain ⟨⟨b1, b2⟩, ⟨b3, b4⟩⟩ := hB
  rw [hc] at p1 p2 p3 p4 a1 a2 a3 a4 b1 b2 b3 b4
  have m1 := mul_bounds (B.x - A.x) (P.y - A.y) 32766 ⟨by omega, by omega⟩ ⟨by omega, by omega⟩
  have m2 := mul_bounds (P.x - A.x) (B.y - A.y) 32766 ⟨by omega, by omega⟩ ⟨by omega, by omega⟩
  have k : (32766 : Int) * 32766 = 1073610756 := by norm_num
  rw [k] at m1 m2
  unfold Point.is_left
  rw [wrap32_id (B.x - A.x) (by omega) (by omega), wrap32_id (P.y - A.y) (by omega) (by omega),
    wrap32_id (P.x - A.x) (by omega) (by omega), wrap32_id (B.y - A.y) (by omega) (by omega),
    wrap32_id ((B.x - A.x) * (P.y - A.y)) (by omega) (by omega),
    wrap32_id ((P.x - A.x) * (B.y - A.y)) (by omega) (by omega),
    wrap32_id _ (by omega) (by omega)]

theorem edge_step_flat (P : Point) (a b c : Int) (wn : Int) :
    edge_step P ⟨a, c⟩ ⟨b, c⟩ wn = wn := by
  simp only [edge_step]
  split_ifs <;> first | rfl | omega

theorem edge_step_up (px py a y h : Int) (wn : Int) (hh : 0 < h)
    (hP : Point.small ⟨px, py⟩) (hA : Point.small ⟨a, y⟩) (hB : Point.small ⟨a, y + h⟩) :
    edge_step ⟨px, py⟩ ⟨a, y⟩ ⟨a, y + h⟩ wn
      = if y ≤ py ∧ py < y + h ∧ px < a then wn + 1 else wn := by
  have e1 : (a - a) * (py - y) - (px - a) * (y + h - y) = (a - px) * h := by ring
  have p1 := pos_mul_iff (a - px) h hh
  simp only [edge_step, is_left_small _ _ _ hP hA hB, e1]
  split_ifs <;> omega

theorem edge_step_down (px py a y h : Int) (wn : Int) (hh : 0 < h)
    (hP : Point.small ⟨px, py⟩) (hA : Point.small ⟨a, y + h⟩) (hB : Point.small ⟨a, y⟩) :
    edge_step ⟨px, py⟩ ⟨a, y + h⟩ ⟨a, y⟩ wn
      = if y ≤ py ∧ py < y + h ∧ px < a then wn - 1 else wn := by
  have e3 : (a - a) * (py - (y + h)) - (px - a) * (y - (y + h)) = (px - a) * h := by ring
  have p3 := neg_mul_iff (px - a) h hh
  simp only [edge_step, is_left_small _ _ _ hP hA hB, e3]
  split_ifs <;> omega

theorem rect_winding (x y w h px py : Int) (rest : List Point) (hw : 0 < w) (hh : 0 < h)
    (hP : Point.small ⟨px, py⟩) (h0 : Point.small ⟨x, y⟩) (h1 : Point.small ⟨x + w, y + h⟩) :
    Point.in_polygon ⟨px, py⟩
      (⟨x, y⟩ :: ⟨x + w, y⟩ :: ⟨x + w, y + h⟩ :: ⟨x, y + h⟩ :: ⟨x, y⟩ :: rest) 4
      = if x ≤ px ∧ px < x + w ∧ y ≤ py ∧ py < y + h then 1 else 0 := by
  have unroll : Point.in_polygon ⟨px, py⟩
      (⟨x, y⟩ :: ⟨x + w, y⟩ :: ⟨x + w, y + h⟩ :: ⟨x, y + h⟩ :: ⟨x, y⟩ :: rest) 4
      = edge_step ⟨px, py⟩ ⟨x, y + h⟩ ⟨x, y⟩
          (edge_step ⟨px, py⟩ ⟨x + w, y + h⟩ ⟨x, y + h⟩
            (edge_step ⟨px, py⟩ ⟨x + w, y⟩ ⟨x + w, y + h⟩
              (edge_step ⟨px, py⟩ ⟨x, y⟩ ⟨x + w, y⟩ 0))) := rfl
  rw [unroll, edge_step_flat,
    edge_step_up px py (x + w) y h _ hh hP ⟨h1.1, h0.2⟩ h1, edge_step_flat,
    edge_step_down px py x y h _ hh hP ⟨h0.1, h1.2⟩ h0]
  split_ifs <;> omega

theorem rect_ring (reg0 : List Point) (p0 p1 p2 p3 : Point) :
    ∃ rest, (copy_points reg0 [p0, p1, p2, p3] 4).set 4
        ((copy_points reg0 [p0, p1, p2, p3] 4).getD 0 default)
      = p0 :: p1 :: p2 :: p3 :: p0 :: rest :=
  ⟨_, rfl⟩

theorem fill_event_rect (d : Detector) (ev : EventType) (tapCB dragCB pinchCB : Callback)
    (indx : Int) (param : Nat) (rotatable : Bool) (constraint : Constraint) (angle_tol : Int)
    (rc : List Point) (hlo : 0 ≤ indx) (hhi : indx < (MAX_EVENTS : Int)) :
    fill_event d ev rc 4 tapCB dragCB pinchCB indx param rotatable constraint angle_tol
      = some { d with events := fun j =>
          if j = indx.toNat then
            { type := ev, param := param,
              reg := (copy_points (d.events indx.toNat).reg rc 4).set 4
                ((copy_points (d.events indx.toNat).reg rc 4).getD 0 default),
              nPts := 4, tapCallback := tapCB, dragCallback := dragCB,
              pinchCallback := pinchCB, constraint := constraint, angle_tol := angle_tol,
              rotatable := rotatable }
          else d.events j } := by
  unfold fill_event
  rw [if_neg (by omega), if_neg (by omega)]
  rfl

/-- C2 as stated fails: for the square registered by `onTap(0, 0, 50000,
50000, ...)` the point (10, 10) has `0 ≤ 10 < 50000` on both axes, yet
`in_region` is false of it: on the right edge `is_left` is
`0 * 10 - (10 - 50000) * 50000 = 2499500000`, which does not fit in 32
bits and comes out negative. -/
theorem huge_rect_misses :
    (onTap_rect zero_detector 0 0 50000 50000 (some 1) 3 0).map
        (fun d => in_region (d.events 3) 10 10) = some false ∧
      (Point.mk 10 10).is_left ⟨50000, 0⟩ ⟨50000, 50000⟩ = -1795467296 ∧
      ((0 : Int) < 50000 ∧ ((0 : Int) ≤ 10 ∧ (10 : Int) < 0 + 50000)) := by
  decide

/-- C2, amended. Rectangle hit-testing is upper-left inclusive, lower-right
exclusive for rectangles and points with coordinates within `COORD_MAX`
(16383) of zero, where the 32-bit products of `is_left` do not overflow:
registering such a rectangle `x, y, w > 0, h > 0` at a valid index (through
`fill_rect_region` and the ring closure of `fill_event`) succeeds, and
afterwards `in_region` holds of such a point `(px, py)` exactly when
`x ≤ px < x + w` and `y ≤ py < y + h`. -/
theorem rect_hit_test (d : Detector) (ev : EventType) (tapCB dragCB pinchCB : Callback)
    (indx : Int) (param : Nat) (rotatable : Bool) (constraint : Constraint) (angle_tol : Int)
    (x y w h px py : Int) (hw : 0 < w) (hh : 0 < h)
    (hlo : 0 ≤ indx) (hhi : indx < (MAX_EVENTS : Int))
    (hP : Point.small ⟨px, py⟩) (h0 : Point.small ⟨x, y⟩) (h1 : Point.small ⟨x + w, y + h⟩) :
    ∃ d1, fill_event d ev (fill_rect_region x y w h).2 (fill_rect_region x y w h).1
        tapCB dragCB pinchCB indx param rotatable constraint angle_tol = some d1 ∧
      (in_region (d1.events indx.toNat) px py = true ↔
        (x ≤ px ∧ px < x + w) ∧ (y ≤ py ∧ py < y + h)) := by
  have hrect : fill_rect_region x y w h
      = (4, [⟨x, y⟩, ⟨x + w, y⟩, ⟨x + w, y + h⟩, ⟨x, y + h⟩]) := by
    unfold fill_rect_region
    rw [if_neg (by omega)]
  obtain ⟨rest, hring⟩ := rect_ring (d.events indx.toNat).reg
    ⟨x, y⟩ ⟨x + w, y⟩ ⟨x + w, y + h⟩ ⟨x, y + h⟩
  rw [hrect]
  refine ⟨_, fill_event_rect d ev tapCB dragCB pinchCB indx param rotatable constraint
    angle_tol _ hlo hhi, ?_⟩
  simp only [if_true, in_region, hring, rect_winding x y w h px py rest hw hh hP h0 h1]
  have h40 : ¬ ((4 : Int) = 0) := by decide
  rw [if_neg h40]
  split_ifs <;> simp <;> omega

/-- C2, amended, at the square (0,0),(10,0),(10,10),(0,10) and the point
(10,5) on its right edge, which is outside. -/
theorem rect_hit_test_witness :
    ∃ d1, fill_event zero_detector EV_TAP (fill_rect_region 0 0 10 10).2
        (fill_rect_region 0 0 10 10).1 (some 1) none none 3 0 false CO_NONE 5 = some d1 ∧
      (in_region (d1.events (3 : Int).toNat) 10 5 = true ↔
        (0 ≤ (10 : Int) ∧ (10 : Int) < 0 + 10) ∧ (0 ≤ (5 : Int) ∧ (5 : Int) < 0 + 10)) :=
  rect_hit_test zero_detector EV_TAP (some 1) none none 3 0 false CO_NONE 5 0 0 10 10 10 5
    (by decide) (by decide) (by decide) (by decide) (by decide) (by decide) (by decide)

/-- The four points of the example: (5,5) and (0,5) are inside the square
(0,0),(10,0),(10,10),(0,10), while (15,5) and (10,5) are outside. -/
theorem square_examples :
    (onTap_rect zero_detector 0 0 10 10 (some 1) 3 0).map
        (fun d => [in_region (d.events 3) 5 5, in_region (d.events 3) 15 5,
          in_region (d.events 3) 10 5, in_region (d.events 3) 0 5])
      = some [true, false, false, true] := by
  decide

/-! ## Bit lemmas for the released flag -/

theorem nat_clear_or (m c : Nat) : (m ||| c) ^^^ ((m ||| c) &&& c) = m ^^^ (m &&& c) := by
  apply Nat.eq_of_testBit_eq
  intro i
  simp only [Nat.testBit_xor, Nat.testBit_and, Nat.testBit_or]
  cases m.testBit i <;> cases c.testBit i <;> rfl

theorem nat_or_clear (m c : Nat) : (m ^^^ (m &&& c)) ||| c = m ||| c := by
  apply Nat.eq_of_testBit_eq
  intro i
  simp only [Nat.testBit_xor, Nat.testBit_and, Nat.testBit_or]
  cases m.testBit i <;> cases c.testBit i <;> rfl

theorem band_bor_released (t : Int) :
    band (bor t EV_RELEASED) (bnot EV_RELEASED) = band t (bnot EV_RELEASED) := by
  cases t with
  | ofNat m =>
    show Int.ofNat ((m ||| 256) ^^^ ((m ||| 256) &&& 256)) = Int.ofNat (m ^^^ (m &&& 256))
    rw [nat_clear_or]
  | negSucc m =>
    show Int.negSucc ((m ^^^ (m &&& 256)) ||| 256) = Int.negSucc (m ||| 256)
    rw [nat_or_clear]

theorem base_kind_set_released (d : Detector) : base_kind (set_released d) = base_kind d :=
  band_bor_released d.track.type

/-! ## What `call_cb` does -/

theorem resolve_tap_cases (d : Detector) :
    resolve_tap d = d ∨
      ∃ i, i < MAX_EVENTS ∧ tap_hit d i = true ∧ d.track.active_event < 0 ∧
        resolve_tap d = set_active d i := by
  unfold resolve_tap
  by_cases hneg : d.track.active_event < 0
  · rw [if_pos hneg]
    cases hs : scan_down (tap_hit d) MAX_EVENTS with
    | none => exact Or.inl rfl
    | some i =>
      obtain ⟨h1, h2, _⟩ := scan_down_some _ _ _ hs
      exact Or.inr ⟨i, h1, h2, hneg, rfl⟩
  · rw [if_neg hneg]
    exact Or.inl rfl

theorem resolve_drag_cases (d : Detector) (ev : EventType) :
    resolve_drag d ev = d ∨
      ∃ i, i < MAX_EVENTS ∧ drag_hit d ev i = true ∧ d.track.active_event < 0 ∧
        resolve_drag d ev = set_active d i := by
  unfold resolve_drag
  by_cases hneg : d.track.active_event < 0
  · rw [if_pos hneg]
    cases hs : scan_down (drag_hit d ev) MAX_EVENTS with
    | none => exact Or.inl rfl
    | some i =>
      obtain ⟨h1, h2, _⟩ := scan_down_some _ _ _ hs
      exact Or.inr ⟨i, h1, h2, hneg, rfl⟩
  · rw [if_neg hneg]
    exact Or.inl rfl

theorem resolve_pinch_cases (d : Detector) :
    resolve_pinch d = d ∨
      ∃ i, i < MAX_EVENTS ∧ pinch_hit d i = true ∧ d.track.active_event < 0 ∧
        resolve_pinch d = set_working_co (set_active d i) i := by
  unfold resolve_pinch
  by_cases hneg : d.track.active_event < 0
  · rw [if_pos hneg]
    cases hs : scan_down (pinch_hit d) MAX_EVENTS with
    | none => exact Or.inl rfl
    | some i =>
      obtain ⟨h1, h2, _⟩ := scan_down_some _ _ _ hs
      exact Or.inr ⟨i, h1, h2, hneg, rfl⟩
  · rw [if_neg hneg]
    exact Or.inl rfl

theorem tap_hit_type (d : Detector) (i : Nat) (h : tap_hit d i = true) :
    (d.events i).type = EV_TAP := by
  unfold tap_hit at h
  split_ifs at h with h1 h2
  exact h2

theorem drag_hit_type (d : Detector) (ev : EventType) (i : Nat) (h : drag_hit d ev i = true) :
    (d.events i).type = ev := by
  unfold drag_hit at h
  split_ifs at h with h1 h2 h3
  exact h3

theorem pinch_hit_type (d : Detector) (i : Nat) (h : pinch_hit d i = true) :
    (d.events i).type = EV_PINCH := by
  unfold pinch_hit at h
  split_ifs at h with h1 h2 h3 h4
  exact h4

theorem call_cb_resolved (d : Detector) (h0 : 0 ≤ d.track.active_event) :
    call_cb d =
      if base_kind d = EV_TAP then dispatch_tap d (band d.track.type EV_RELEASED)
      else if base_kind d = EV_DRAG ∨ base_kind d = EV_SWIPE then
        dispatch_drag d (base_kind d) (band d.track.type EV_RELEASED)
      else if base_kind d = EV_PINCH then dispatch_pinch d (band d.track.type EV_RELEASED)
      else ⟨d, [], Status.running⟩ := by
  have hn : ¬ d.track.active_event < 0 := by omega
  have e1 : resolve_tap d = d := by unfold resolve_tap; rw [if_neg hn]
  have e2 : ∀ ev, resolve_drag d ev = d := by intro ev; unfold resolve_drag; rw [if_neg hn]
  have e3 : resolve_pinch d = d := by unfold resolve_pinch; rw [if_neg hn]
  rw [call_cb_eq, e1, e2, e3]

/-- Run-time type of a listener slot agrees with the tracked kind. -/
theorem call_cb_running (d : Detector) (hok : dispatch_ok d) :
    (call_cb d).status = Status.running := by
  by_cases h0 : 0 ≤ d.track.active_event
  · obtain ⟨hlt, hdrag, hpinch⟩ := hok h0
    have hn : ¬ d.track.active_event < 0 := by omega
    have hm : ¬ d.track.active_event ≥ (MAX_EVENTS : Int) := by omega
    rw [call_cb_resolved d h0]
    split_ifs with h1 h2 h3
    · unfold dispatch_tap
      rw [if_neg hn, if_neg hm]
      simp only []
      split_ifs <;> rfl
    · unfold dispatch_drag
      rw [if_neg hn, if_neg hm]
      simp only []
      rw [if_neg (not_not.mpr (hdrag h2))]
    · unfold dispatch_pinch
      rw [if_neg hn, if_neg hm]
      simp only []
      rw [if_neg (not_not.mpr (hpinch h3))]
    · rfl
  · have hneg : d.track.active_event < 0 := by omega
    rw [call_cb_eq]
    split_ifs with h1 h2 h3
    · rcases resolve_tap_cases d with h | ⟨i, hi, hhit, _, h⟩ <;> rw [h]
      · rw [dispatch_tap_neg d _ hneg]
      · unfold dispatch_tap
        have e : (set_active d i).track.active_event = (i : Int) := rfl
        have hi2 : (i : Int) < 20 := by unfold MAX_EVENTS at hi; omega
        rw [e, if_neg (by omega), if_neg (by unfold MAX_EVENTS; push_cast; omega)]
        simp only []
        split_ifs <;> rfl
    · rcases resolve_drag_cases d (base_kind d) with h | ⟨i, hi, hhit, _, h⟩ <;> rw [h]
      · rw [dispatch_drag_neg d _ _ hneg]
      · unfold dispatch_drag
        have e : (set_active d i).track.active_event = (i : Int) := rfl
        have ev : (set_active d i).events = d.events := rfl
        have hi2 : (i : Int) < 20 := by unfold MAX_EVENTS at hi; omega
        have ht := drag_hit_type d _ i hhit
        rw [e, if_neg (by omega), if_neg (by unfold MAX_EVENTS; push_cast; omega)]
        simp only [ev, Int.toNat_ofNat]
        rw [if_neg (not_not.mpr (by rw [ht]; exact h2))]
    · rcases resolve_pinch_cases d with h | ⟨i, hi, hhit, _, h⟩ <;> rw [h]
      · rw [dispatch_pinch_neg d _ hneg]
      · unfold dispatch_pinch
        have e : (set_working_co (set_active d i) i).track.active_event = (i : Int) := rfl
        have ev : (set_working_co (set_active d i) i).events = d.events := rfl
        have hi2 : (i : Int) < 20 := by unfold MAX_EVENTS at hi; omega
        have ht := pinch_hit_type d i hhit
        rw [e, if_neg (by omega), if_neg (by unfold MAX_EVENTS; push_cast; omega)]
        simp only [ev, Int.toNat_ofNat]
        rw [if_neg (not_not.mpr ht)]
    · rfl

/-! ## Sticky resolution -/

theorem call_cb_det_resolved (d : Detector) (h0 : 0 ≤ d.track.active_event) :
    (call_cb d).det = d := by
  rw [call_cb_resolved d h0]
  split_ifs
  · exact dispatch_tap_det _ _
  · exact dispatch_drag_det _ _ _
  · exact dispatch_pinch_det _ _
  · rfl

/-- C8. Listener resolution is sticky: a call of `call_cb` entered with
`active_event = k ≥ 0` leaves the whole detector as it was, so `active_event`
is still `k`, and makes at most one call, which goes through listener `k`'s
callback pointer with listener `k`'s index and parameter; the regions and
constraints of the listeners and the current displacement play no part. -/
theorem call_cb_sticky (d : Detector) (k : Int) (hk : d.track.active_event = k)
    (h0 : 0 ≤ k) :
    (call_cb d).det = d ∧ (call_cb d).det.track.active_event = k ∧
      (call_cb d).log.length ≤ 1 ∧ ∀ e ∈ (call_cb d).log, from_listener d k e = true := by
  have h0a : 0 ≤ d.track.active_event := by omega
  have hdet : (call_cb d).det = d := call_cb_det_resolved d h0a
  refine ⟨hdet, by rw [hdet]; exact hk, ?_⟩
  rw [call_cb_resolved d h0a]
  subst hk
  split_ifs
  · unfold dispatch_tap
    simp only []
    split_ifs <;> simp [from_listener]
  · unfold dispatch_drag
    simp only []
    split_ifs <;> simp [from_listener]
  · unfold dispatch_pinch
    simp only []
    split_ifs <;> simp [from_listener]
  · simp

/-- C8 at a drag resolved to slot 2 whose finger has left the region of slot 2,
while the listener of slot 5 answers the gesture. -/
theorem call_cb_sticky_witness :
    candidate sticky_detector 5 = true ∧
      in_region (sticky_detector.events 2) 107 7 = false ∧
      (call_cb sticky_detector).det = sticky_detector ∧
      (call_cb sticky_detector).det.track.active_event = 2 ∧
      (call_cb sticky_detector).log.length ≤ 1 ∧
      ∀ e ∈ (call_cb sticky_detector).log, from_listener sticky_detector 2 e = true :=
  ⟨by decide, by decide, call_cb_sticky sticky_detector 2 (by decide) (by decide)⟩

/-- The call made in the example above goes to listener 2. -/
theorem call_cb_sticky_log :
    (call_cb sticky_detector).log = [Event.drag (some 1) EV_DRAG 2 11 7 7 100 0] := by
  decide

/-! ## One poll -/

theorem poll_scan (d : Detector) (now : Nat) (pts : List GDTpoint)
    (hg : gated d now = false) :
    poll d now pts =
      match pts with
      | [] => poll_none { d with last_polled := now } now
      | [p0] => poll_one { d with last_polled := now } now (remap d.rotation p0)
      | [p0, p1] =>
        poll_two { d with last_polled := now } now (remap d.rotation p0) (remap d.rotation p1)
      | _ => ⟨{ d with last_polled := now }, [], Status.running⟩ := by
  unfold poll
  rw [hg]
  rfl

theorem poll_gated (d : Detector) (now : Nat) (pts : List GDTpoint)
    (hg : gated d now = true) : poll d now pts = ⟨d, [], Status.running⟩ := by
  unfold poll
  rw [hg]
  rfl

theorem dispatch_ok_polled (d : Detector) (now : Nat) (hok : dispatch_ok d) :
    dispatch_ok { d with last_polled := now } := hok

theorem dispatch_ok_released (d : Detector) (hok : dispatch_ok d) :
    dispatch_ok (set_released d) := by
  intro h0
  rw [base_kind_set_released]
  exact hok h0

theorem dispatch_ok_fresh (d : Detector) (h : d.track.active_event < 0) : dispatch_ok d := by
  intro h0
  omega

theorem start_new_tracked_fresh (d : Detector) (now : Nat) (ev : EventType) :
    (start_new_tracked d now ev).track.active_event < 0 :=
  show (-1 : Int) < 0 by decide

theorem release_and_reset_ok (d : Detector) (now : Nat) (hok : dispatch_ok d) :
    release_and_reset d now =
      ⟨start_new_tracked (call_cb (set_released d)).det now EV_NONE,
        (call_cb (set_released d)).log ++ [Event.started EV_NONE], Status.running⟩ := by
  unfold release_and_reset
  rw [call_cb_running _ (dispatch_ok_released d hok)]

theorem poll_none_ok (d : Detector) (now : Nat) (hok : dispatch_ok d) :
    (poll_none d now).status = Status.running ∧
      (poll_none d now).det.track.type = EV_NONE ∧
      (poll_none d now).det.track.active_event = -1 ∧
      (poll_none d now).det.track.hold_time = 0 := by
  unfold poll_none
  split_ifs with hm
  · rw [release_and_reset_ok _ now (dispatch_ok_fresh _ (start_new_tracked_fresh d now EV_SWIPE))]
    exact ⟨rfl, rfl, rfl, rfl⟩
  · rw [release_and_reset_ok _ now hok]
    exact ⟨rfl, rfl, rfl, rfl⟩

theorem poll_scan_one (d : Detector) (now : Nat) (p : GDTpoint) (hg : gated d now = false) :
    poll d now [p] = poll_one { d with last_polled := now } now (remap d.rotation p) :=
  poll_scan d now [p] hg

theorem poll_scan_none (d : Detector) (now : Nat) (hg : gated d now = false) :
    poll d now [] = poll_none { d with last_polled := now } now :=
  poll_scan d now [] hg

theorem poll_scan_two (d : Detector) (now : Nat) (p0 p1 : GDTpoint)
    (hg : gated d now = false) :
    poll d now [p0, p1] = poll_two { d with last_polled := now } now
      (remap d.rotation p0) (remap d.rotation p1) :=
  poll_scan d now [p0, p1] hg

/-! ## Shape of the dispatches -/

theorem dispatch_pinch_log (d : Detector) (released : EventType) :
    (dispatch_pinch d released).log.length ≤ 1 ∧
    ∀ e ∈ (dispatch_pinch d released).log, ∃ cb i param rot,
      e = Event.pinch cb (bor EV_PINCH released) i param
        ⟨d.track.cont0, d.track.cont1, rot, d.track.working_co⟩ := by
  unfold dispatch_pinch
  simp only []
  split_ifs
  · exact ⟨Nat.zero_le 1, fun e he => by cases he⟩
  · exact ⟨Nat.zero_le 1, fun e he => by cases he⟩
  · refine ⟨Nat.le_refl 1, fun e he => ?_⟩
    rw [List.mem_singleton] at he
    exact ⟨_, _, _, _, he⟩
  · exact ⟨Nat.zero_le 1, fun e he => by cases he⟩

theorem dispatch_drag_log (d : Detector) (ev released : EventType) :
    (dispatch_drag d ev released).log = [] ∨
      (0 ≤ d.track.active_event ∧ d.track.active_event < (MAX_EVENTS : Int) ∧
        ∃ dx dy, (dispatch_drag d ev released).log =
          [Event.drag (d.events d.track.active_event.toNat).dragCallback (bor ev released)
            d.track.active_event (d.events d.track.active_event.toNat).param
            d.track.cont0.init_x d.track.cont0.init_y dx dy]) := by
  unfold dispatch_drag
  simp only []
  split_ifs with h1 h2 h3
  · exact Or.inl rfl
  · exact Or.inl rfl
  · exact Or.inr ⟨by omega, by omega, _, _, rfl⟩
  · exact Or.inl rfl

theorem dispatch_tap_log (d : Detector) (released : EventType) :
    (dispatch_tap d released).log = [] ∨
      (0 ≤ d.track.active_event ∧ d.track.active_event < (MAX_EVENTS : Int) ∧
        (dispatch_tap d released).log =
          [Event.tap (d.events d.track.active_event.toNat).tapCallback
            (if d.track.hold_time ≥ LONG_PRESS_TIME then bor (bor EV_TAP EV_LONG_PRESS) released
              else bor EV_TAP released)
            d.track.active_event (d.events d.track.active_event.toNat).param
            d.track.cont0.init_x d.track.cont0.init_y]) := by
  unfold dispatch_tap
  simp only []
  split_ifs with h1 h2 h3
  · exact Or.inl rfl
  · exact Or.inl rfl
  · exact Or.inr ⟨by omega, by omega, rfl⟩
  · exact Or.inr ⟨by omega, by omega, rfl⟩

theorem resolve_pinch_conts (d : Detector) :
    (resolve_pinch d).track.cont0 = d.track.cont0 ∧
      (resolve_pinch d).track.cont1 = d.track.cont1 := by
  rcases resolve_pinch_cases d with h | ⟨i, _, _, _, h⟩ <;> rw [h] <;> exact ⟨rfl, rfl⟩

theorem call_cb_pinch_log (d : Detector) (hb : base_kind d = EV_PINCH) :
    (call_cb d).log.length ≤ 1 ∧
    ∀ e ∈ (call_cb d).log, ∃ cb i param rot wc,
      e = Event.pinch cb (bor EV_PINCH (band d.track.type EV_RELEASED)) i param
        ⟨d.track.cont0, d.track.cont1, rot, wc⟩ := by
  have h1 : ¬ base_kind d = EV_TAP := by rw [hb]; decide
  have h2 : ¬ (base_kind d = EV_DRAG ∨ base_kind d = EV_SWIPE) := by rw [hb]; decide
  rw [call_cb_eq, if_neg h1, if_neg h2, if_pos hb]
  obtain ⟨hl, hall⟩ := dispatch_pinch_log (resolve_pinch d) (band d.track.type EV_RELEASED)
  refine ⟨hl, fun e he => ?_⟩
  obtain ⟨cb, i, param, rot, h⟩ := hall e he
  rw [(resolve_pinch_conts d).1, (resolve_pinch_conts d).2] at h
  exact ⟨cb, i, param, rot, _, h⟩

/-! ## Pinch to one finger -/

theorem release_pinch_ok (d : Detector) (now : Nat) (x y : Int) (hok : dispatch_ok d) :
    release_pinch d now (some (x, y)) =
      ⟨set_cont0 (start_new_tracked (call_cb (set_released d)).det now EV_DRAG) x y,
        (call_cb (set_released d)).log ++ [Event.started EV_DRAG], Status.running⟩ := by
  unfold release_pinch
  rw [call_cb_running _ (dispatch_ok_released d hok)]

/-- C10, amended. Pinch to one finger: when the tracked kind is Pinch, the
resolved listener, if any, still passes the `ASSERT` of `call_cb`, and a poll
that is not skipped samples one contact whose remapped position is `(x, y)`,
the poll returns after at most one callback, a pinch callback with type
`EV_PINCH | EV_RELEASED` computed from the contacts as the previous scan left
them, followed by the start of a fresh Drag with `active_event = -1`,
`hold_time = 0`, initial position `(x, y)` and displacement `(0, 0)`. -/
theorem poll_pinch_to_one_contact (d : Detector) (now : Nat) (p : GDTpoint) (x y : Int)
    (hg : gated d now = false) (ht : d.track.type = EV_PINCH)
    (hr : remap d.rotation p = some (x, y)) (hok : dispatch_ok d) :
    (poll d now [p]).status = Status.running ∧
      (poll d now [p]).det.track.type = EV_DRAG ∧
      (poll d now [p]).det.track.active_event = -1 ∧
      (poll d now [p]).det.track.hold_time = 0 ∧
      (poll d now [p]).det.track.cont0 = ⟨0, x, y, 0, 0⟩ ∧
      (∃ calls, (poll d now [p]).log = calls ++ [Event.started EV_DRAG] ∧
        calls.length ≤ 1 ∧
        ∀ e ∈ calls, ∃ cb i param rot wc,
          e = Event.pinch cb (bor EV_PINCH EV_RELEASED) i param
            ⟨d.track.cont0, d.track.cont1, rot, wc⟩) := by
  rw [poll_scan_one d now p hg]
  have hp : poll_one { d with last_polled := now } now (remap d.rotation p)
      = release_pinch { d with last_polled := now } now (some (x, y)) := by
    unfold poll_one
    have t1 : ¬ (EV_PINCH = EV_NONE) := by decide
    have t2 : ¬ (EV_PINCH = EV_TAP ∨ EV_PINCH = EV_DRAG) := by decide
    simp only [ht, t1, t2, if_false, if_true, hr]
  rw [hp, release_pinch_ok _ now x y (dispatch_ok_polled d now hok)]
  refine ⟨rfl, rfl, rfl, rfl, rfl, _, rfl, ?_⟩
  have hty : (set_released { d with last_polled := now }).track.type
      = bor EV_PINCH EV_RELEASED := by
    show bor d.track.type EV_RELEASED = bor EV_PINCH EV_RELEASED
    rw [ht]
  have hb : base_kind (set_released { d with last_polled := now }) = EV_PINCH := by
    unfold base_kind
    rw [hty]
    decide
  obtain ⟨hl, hall⟩ := call_cb_pinch_log _ hb
  refine ⟨hl, fun e he => ?_⟩
  obtain ⟨cb, i, param, rot, wc, h⟩ := hall e he
  rw [hty] at h
  have hrel : band (bor EV_PINCH EV_RELEASED) EV_RELEASED = EV_RELEASED := by decide
  rw [hrel] at h
  exact ⟨cb, i, param, rot, wc, h⟩

/-! ## Frame of `call_cb` -/

theorem same_refl (d : Detector) : same_but_resolution d d :=
  ⟨rfl, rfl, rfl, rfl, rfl, rfl, rfl, rfl⟩

theorem call_cb_same (d : Detector) : same_but_resolution d (call_cb d).det := by
  rw [call_cb_det]
  split_ifs
  · rcases resolve_tap_cases d with h | ⟨i, _, _, _, h⟩ <;> rw [h]
    · exact same_refl d
    · exact ⟨rfl, rfl, rfl, rfl, rfl, rfl, rfl, rfl⟩
  · rcases resolve_drag_cases d (base_kind d) with h | ⟨i, _, _, _, h⟩ <;> rw [h]
    · exact same_refl d
    · exact ⟨rfl, rfl, rfl, rfl, rfl, rfl, rfl, rfl⟩
  · rcases resolve_pinch_cases d with h | ⟨i, _, _, _, h⟩ <;> rw [h]
    · exact same_refl d
    · exact ⟨rfl, rfl, rfl, rfl, rfl, rfl, rfl, rfl⟩
  · exact same_refl d

theorem call_cb_fresh_drag_log (d : Detector) (hneg : d.track.active_event < 0)
    (hb : base_kind d = EV_DRAG ∨ base_kind d = EV_SWIPE) :
    (call_cb d).log = [] ∨
      ∃ i, i < MAX_EVENTS ∧ (d.events i).type = base_kind d ∧ ∃ dx dy,
        (call_cb d).log =
          [Event.drag (d.events i).dragCallback
            (bor (base_kind d) (band d.track.type EV_RELEASED)) (i : Int) (d.events i).param
            d.track.cont0.init_x d.track.cont0.init_y dx dy] := by
  have h1 : ¬ base_kind d = EV_TAP := by
    rcases hb with h | h <;> rw [h] <;> decide
  rw [call_cb_eq, if_neg h1, if_pos hb]
  rcases resolve_drag_cases d (base_kind d) with h | ⟨i, hi, hhit, _, h⟩ <;> rw [h]
  · rw [dispatch_drag_neg d _ _ hneg]
    exact Or.inl rfl
  · rcases dispatch_drag_log (set_active d i) (base_kind d) (band d.track.type EV_RELEASED)
      with hl | ⟨_, _, dx, dy, hl⟩
    · exact Or.inl hl
    · refine Or.inr ⟨i, hi, drag_hit_type d _ i hhit, dx, dy, ?_⟩
      rw [hl]
      have e : (set_active d i).track.active_event = (i : Int) := rfl
      rw [e, Int.toNat_ofNat]
      rfl

/-! ## Release of a moved tap -/

/-- C5. Release of a moved tap is a swipe: on a poll that is not skipped and
samples zero contacts while the tracked kind is Tap with a non-zero
displacement of contact 0, the gesture is first restarted as a Swipe; the only
callback that can be invoked is the drag callback of a listener of kind Swipe,
with type `EV_SWIPE | EV_RELEASED`; the poll returns and the tracked kind is
`EV_NONE` afterwards. -/
theorem poll_release_moved_tap (d : Detector) (now : Nat) (hg : gated d now = false)
    (ht : d.track.type = EV_TAP) (hm : d.track.cont0.dx ≠ 0 ∨ d.track.cont0.dy ≠ 0) :
    (poll d now []).status = Status.running ∧
      (poll d now []).det.track.type = EV_NONE ∧
      ((poll d now []).log = [Event.started EV_SWIPE, Event.started EV_NONE] ∨
        ∃ i, i < MAX_EVENTS ∧ (d.events i).type = EV_SWIPE ∧ ∃ dx dy,
          (poll d now []).log =
            [Event.started EV_SWIPE,
              Event.drag (d.events i).dragCallback (bor EV_SWIPE EV_RELEASED) (i : Int)
                (d.events i).param d.track.cont0.init_x d.track.cont0.init_y dx dy,
              Event.started EV_NONE]) := by
  rw [poll_scan_none d now hg]
  unfold poll_none
  have hc : ({ d with last_polled := now } : Detector).track.type = EV_TAP ∧
      (({ d with last_polled := now } : Detector).track.cont0.dx ≠ 0 ∨
        ({ d with last_polled := now } : Detector).track.cont0.dy ≠ 0) := ⟨ht, hm⟩
  rw [if_pos hc, release_and_reset_ok _ now (dispatch_ok_fresh _
    (start_new_tracked_fresh _ now EV_SWIPE))]
  refine ⟨rfl, rfl, ?_⟩
  have hb : base_kind (set_released
      (start_new_tracked { d with last_polled := now } now EV_SWIPE)) = EV_SWIPE := by
    show band (bor EV_SWIPE EV_RELEASED) (bnot EV_RELEASED) = EV_SWIPE
    decide
  have hrel : band (set_released
      (start_new_tracked { d with last_polled := now } now EV_SWIPE)).track.type EV_RELEASED
        = EV_RELEASED := by
    show band (bor EV_SWIPE EV_RELEASED) EV_RELEASED = EV_RELEASED
    decide
  rcases call_cb_fresh_drag_log (set_released
      (start_new_tracked { d with last_polled := now } now EV_SWIPE))
      (start_new_tracked_fresh { d with last_polled := now } now EV_SWIPE) (Or.inr hb)
    with hl | ⟨i, hi, hty, dx, dy, hl⟩
  · left
    show [Event.started EV_SWIPE] ++ (_ ++ [Event.started EV_NONE]) = _
    rw [hl]
    rfl
  · right
    rw [hb] at hty
    refine ⟨i, hi, hty, dx, dy, ?_⟩
    show [Event.started EV_SWIPE] ++ (_ ++ [Event.started EV_NONE]) = _
    rw [hl, hb, hrel]
    rfl

/-- C5 at a tap displaced by (10, 0) over Tap, Drag and Swipe listeners. -/
theorem poll_release_moved_tap_witness :
    (poll moved_tap_detector 130 []).status = Status.running ∧
      (poll moved_tap_detector 130 []).det.track.type = EV_NONE ∧
      ((poll moved_tap_detector 130 []).log = [Event.started EV_SWIPE, Event.started EV_NONE] ∨
        ∃ i, i < MAX_EVENTS ∧ (moved_tap_detector.events i).type = EV_SWIPE ∧ ∃ dx dy,
          (poll moved_tap_detector 130 []).log =
            [Event.started EV_SWIPE,
              Event.drag (moved_tap_detector.events i).dragCallback (bor EV_SWIPE EV_RELEASED)
                (i : Int) (moved_tap_detector.events i).param
                moved_tap_detector.track.cont0.init_x moved_tap_detector.track.cont0.init_y
                dx dy,
              Event.started EV_NONE]) :=
  poll_release_moved_tap moved_tap_detector 130 (by decide) (by decide) (by decide)

/-- The release of the example above calls the Swipe listener of slot 2. -/
theorem poll_release_moved_tap_log :
    (poll moved_tap_detector 130 []).log =
      [Event.started EV_SWIPE, Event.drag (some 3) (bor EV_SWIPE EV_RELEASED) 2 0 10 10 10 0,
        Event.started EV_NONE] := by
  decide

/-! ## A tap that moves -/

theorem resolve_tap_frame (d : Detector) :
    (resolve_tap d).track.hold_time = d.track.hold_time ∧
      (resolve_tap d).track.cont0 = d.track.cont0 := by
  rcases resolve_tap_cases d with h | ⟨i, _, _, _, h⟩ <;> rw [h] <;> exact ⟨rfl, rfl⟩

theorem call_cb_tap_log (d : Detector) (hb : base_kind d = EV_TAP) :
    (call_cb d).log = [] ∨
      ∃ cb i param, (call_cb d).log =
        [Event.tap cb
          (if d.track.hold_time ≥ LONG_PRESS_TIME then
              bor (bor EV_TAP EV_LONG_PRESS) (band d.track.type EV_RELEASED)
            else bor EV_TAP (band d.track.type EV_RELEASED))
          i param d.track.cont0.init_x d.track.cont0.init_y] := by
  rw [call_cb_eq, if_pos hb]
  rcases dispatch_tap_log (resolve_tap d) (band d.track.type EV_RELEASED)
    with hl | ⟨_, _, hl⟩
  · exact Or.inl hl
  · rw [(resolve_tap_frame d).1, (resolve_tap_frame d).2] at hl
    exact Or.inr ⟨_, _, _, hl⟩

theorem moved_tap_poll (d : Detector) (now : Nat) (p : GDTpoint) (x y : Int)
    (hg : gated d now = false) (ht : d.track.type = EV_TAP)
    (hr : remap d.rotation p = some (x, y))
    (hm : x ≠ d.track.cont0.init_x ∨ y ≠ d.track.cont0.init_y) :
    (SWIPE_TIME < usub now d.track.start_time →
      (poll d now [p]).status = Status.running ∧
      (poll d now [p]).det.track.type = EV_DRAG ∧
      (poll d now [p]).det.track.start_time = now ∧
      (poll d now [p]).det.track.hold_time = 0 ∧
      ∃ calls, (poll d now [p]).log = Event.started EV_DRAG :: calls ∧
        (calls = [] ∨ ∃ i, i < MAX_EVENTS ∧ (d.events i).type = EV_DRAG ∧ ∃ dx dy,
          calls = [Event.drag (d.events i).dragCallback EV_DRAG (i : Int) (d.events i).param
            d.track.cont0.init_x d.track.cont0.init_y dx dy])) ∧
    (usub now d.track.start_time ≤ SWIPE_TIME →
      (poll d now [p]).det.track.type = EV_TAP ∧
      (poll d now [p]).det.track.start_time = d.track.start_time ∧
      (poll d now [p]).det.track.hold_time = usub now d.track.start_time ∧
      (∀ e ∈ (poll d now [p]).log, ∃ cb i param,
        e = Event.tap cb EV_TAP i param d.track.cont0.init_x d.track.cont0.init_y) ∧
      (d.track.active_event < (MAX_EVENTS : Int) →
        (poll d now [p]).status = Status.running)) := by
  have hp : poll d now [p] = hold_or_move { d with last_polled := now } now x y := by
    rw [poll_scan_one d now p hg]
    unfold poll_one
    have t1 : ¬ (EV_TAP = EV_NONE) := by decide
    simp only [ht, t1, if_false, true_or, if_true, hr]
  have hmoved : (set_hold_time (move_cont0 { d with last_polled := now } x y) now).track.cont0.dx
        ≠ 0 ∨
      (set_hold_time (move_cont0 { d with last_polled := now } x y) now).track.cont0.dy
        ≠ 0 := by
    show x - d.track.cont0.init_x ≠ 0 ∨ y - d.track.cont0.init_y ≠ 0
    omega
  have hhold : (set_hold_time (move_cont0 { d with last_polled := now } x y) now).track.hold_time
      = usub now d.track.start_time := rfl
  have htype : (set_hold_time (move_cont0 { d with last_polled := now } x y) now).track.type
      = EV_TAP := ht
  rw [hp]
  unfold hold_or_move
  rw [if_pos hmoved, hhold, htype]
  constructor
  · intro hlong
    have hc : EV_TAP = EV_TAP ∧ usub now d.track.start_time > SWIPE_TIME := ⟨rfl, hlong⟩
    rw [if_pos hc]
    have hfresh := start_new_tracked_fresh
      (set_hold_time (move_cont0 { d with last_polled := now } x y) now) now EV_DRAG
    obtain ⟨_, _, _, s4, s5, s6, _, _⟩ := call_cb_same (start_new_tracked
      (set_hold_time (move_cont0 { d with last_polled := now } x y) now) now EV_DRAG)
    refine ⟨call_cb_running _ (dispatch_ok_fresh _ hfresh), s4, s5, s6, _, rfl, ?_⟩
    have hb : base_kind (start_new_tracked
        (set_hold_time (move_cont0 { d with last_polled := now } x y) now) now EV_DRAG)
          = EV_DRAG := by
      show band EV_DRAG (bnot EV_RELEASED) = EV_DRAG
      decide
    rcases call_cb_fresh_drag_log _ hfresh (Or.inl hb) with hl | ⟨i, hi, hty, dx, dy, hl⟩
    · exact Or.inl hl
    · rw [hb] at hty
      refine Or.inr ⟨i, hi, hty, dx, dy, ?_⟩
      rw [hl, hb]
      rfl
  · intro hshort
    have hc : ¬ (EV_TAP = EV_TAP ∧ usub now d.track.start_time > SWIPE_TIME) := by
      intro h
      omega
    rw [if_neg hc]
    obtain ⟨_, _, _, s4, s5, s6, _, _⟩ := call_cb_same
      (set_hold_time (move_cont0 { d with last_polled := now } x y) now)
    have hb : base_kind (set_hold_time (move_cont0 { d with last_polled := now } x y) now)
        = EV_TAP := by
      show band d.track.type (bnot EV_RELEASED) = EV_TAP
      rw [ht]
      decide
    refine ⟨by rw [s4]; exact ht, s5, s6, ?_, ?_⟩
    · intro e he
      rcases call_cb_tap_log _ hb with hl | ⟨cb, i, param, hl⟩
      · rw [hl] at he
        cases he
      · rw [hl, List.mem_singleton, hhold, htype] at he
        have hnl : ¬ usub now d.track.start_time ≥ LONG_PRESS_TIME := by
          unfold SWIPE_TIME at hshort
          unfold LONG_PRESS_TIME
          omega
        rw [if_neg hnl] at he
        exact ⟨cb, i, param, he⟩
    · intro hlt
      apply call_cb_running
      intro h0
      refine ⟨hlt, fun h => ?_, fun h => ?_⟩
      · rw [hb] at h
        exact absurd h (by decide)
      · rw [hb] at h
        exact absurd h (by decide)

/-- C4, amended. Reclassification of a moved tap by elapsed time: on a
one-contact poll that is not skipped, where the tracked kind is Tap and the
contact is away from its touch-down point, the gesture becomes a fresh Drag
(started now, `hold_time = 0`, dispatched to a Drag listener if one answers)
when the time elapsed since touch-down exceeds `SWIPE_TIME`, and stays a Tap
(dispatched again as a plain tap) when the elapsed time is at most
`SWIPE_TIME`; in neither case does it become a Swipe. -/
theorem poll_moved_tap (d : Detector) (now : Nat) (p : GDTpoint) (x y : Int)
    (hg : gated d now = false) (ht : d.track.type = EV_TAP)
    (hr : remap d.rotation p = some (x, y))
    (hm : x ≠ d.track.cont0.init_x ∨ y ≠ d.track.cont0.init_y) :
    (SWIPE_TIME < usub now d.track.start_time →
      (poll d now [p]).status = Status.running ∧
      (poll d now [p]).det.track.type = EV_DRAG ∧
      (poll d now [p]).det.track.start_time = now ∧
      (poll d now [p]).det.track.hold_time = 0 ∧
      ∃ calls, (poll d now [p]).log = Event.started EV_DRAG :: calls ∧
        (calls = [] ∨ ∃ i, i < MAX_EVENTS ∧ (d.events i).type = EV_DRAG ∧ ∃ dx dy,
          calls = [Event.drag (d.events i).dragCallback EV_DRAG (i : Int) (d.events i).param
            d.track.cont0.init_x d.track.cont0.init_y dx dy])) ∧
    (usub now d.track.start_time ≤ SWIPE_TIME →
      (poll d now [p]).det.track.type = EV_TAP ∧
      (poll d now [p]).det.track.start_time = d.track.start_time ∧
      (poll d now [p]).det.track.hold_time = usub now d.track.start_time ∧
      (∀ e ∈ (poll d now [p]).log, ∃ cb i param,
        e = Event.tap cb EV_TAP i param d.track.cont0.init_x d.track.cont0.init_y) ∧
      (d.track.active_event < (MAX_EVENTS : Int) →
        (poll d now [p]).status = Status.running)) :=
  moved_tap_poll d now p x y hg ht hr hm

/-- C4, amended, at a tap seen displaced 200 ms and 100 ms after it landed. -/
theorem poll_moved_tap_witness :
    (poll tap_detector 200 [⟨20, 10⟩]).det.track.type = EV_DRAG ∧
      (poll tap_detector 100 [⟨20, 10⟩]).det.track.type = EV_TAP :=
  ⟨((poll_moved_tap tap_detector 200 ⟨20, 10⟩ 20 10 (by decide) (by decide) (by decide)
      (by decide)).1 (by decide)).2.1,
    ((poll_moved_tap tap_detector 100 ⟨20, 10⟩ 20 10 (by decide) (by decide) (by decide)
      (by decide)).2 (by decide)).1⟩

/-- C4 as stated fails: a tap that moves 100 ms after touch-down (less than
`SWIPE_TIME`) stays a Tap instead of becoming a Drag, and one that moves
200 ms after touch-down (at least `SWIPE_TIME`) becomes a Drag instead of a
Swipe. -/
theorem moved_tap_not_by_swipe_time :
    usub 100 tap_detector.track.start_time < SWIPE_TIME ∧
      (poll tap_detector 100 [⟨20, 10⟩]).summary
        = ⟨Status.running, [Event.tap (some 1) EV_TAP 0 0 10 10], EV_TAP, 0, 100⟩ ∧
    usub 200 tap_detector.track.start_time ≥ SWIPE_TIME ∧
      (poll tap_detector 200 [⟨20, 10⟩]).summary
        = ⟨Status.running,
            [Event.started EV_DRAG, Event.drag (some 2) EV_DRAG 1 0 10 10 10 0],
            EV_DRAG, 1, 0⟩ := by
  decide

/-! ## Release semantics -/

theorem call_cb_log_length (d : Detector) : (call_cb d).log.length ≤ 1 := by
  rw [call_cb_eq]
  split_ifs
  · rcases dispatch_tap_log (resolve_tap d) (band d.track.type EV_RELEASED)
      with h | ⟨_, _, h⟩ <;> rw [h]
    · exact Nat.zero_le 1
    · exact Nat.le_refl 1
  · rcases dispatch_drag_log (resolve_drag d (base_kind d)) (base_kind d)
      (band d.track.type EV_RELEASED) with h | ⟨_, _, _, _, h⟩ <;> rw [h]
    · exact Nat.zero_le 1
    · exact Nat.le_refl 1
  · exact (dispatch_pinch_log _ _).1
  · exact Nat.zero_le 1

theorem call_cb_type_arg (d : Detector) :
    ∀ e ∈ (call_cb d).log,
      e.type_arg = some (bor EV_TAP (band d.track.type EV_RELEASED)) ∨
      e.type_arg = some (bor (bor EV_TAP EV_LONG_PRESS) (band d.track.type EV_RELEASED)) ∨
      e.type_arg = some (bor (base_kind d) (band d.track.type EV_RELEASED)) ∨
      e.type_arg = some (bor EV_PINCH (band d.track.type EV_RELEASED)) := by
  intro e he
  rw [call_cb_eq] at he
  split_ifs at he
  · rcases dispatch_tap_log (resolve_tap d) (band d.track.type EV_RELEASED)
      with h | ⟨_, _, h⟩
    · rw [h] at he
      cases he
    · rw [h, List.mem_singleton] at he
      rw [he]
      by_cases hl : (resolve_tap d).track.hold_time ≥ LONG_PRESS_TIME
      · rw [if_pos hl]
        exact Or.inr (Or.inl rfl)
      · rw [if_neg hl]
        exact Or.inl rfl
  · rcases dispatch_drag_log (resolve_drag d (base_kind d)) (base_kind d)
      (band d.track.type EV_RELEASED) with h | ⟨_, _, _, _, h⟩
    · rw [h] at he
      cases he
    · rw [h, List.mem_singleton] at he
      rw [he]
      exact Or.inr (Or.inr (Or.inl rfl))
  · obtain ⟨cb, i, param, rot, h⟩ := (dispatch_pinch_log _ _).2 e he
    rw [h]
    exact Or.inr (Or.inr (Or.inr rfl))
  · cases he

theorem is_released_of_type_arg (e : Event) (t : EventType) (h : e.type_arg = some t)
    (ht : band t EV_RELEASED = 0) : e.is_released = false := by
  cases e with
  | started ev => rfl
  | tap cb t2 i p x y =>
    have : t2 = t := Option.some.inj h
    subst this
    simp [Event.is_released, ht]
  | drag cb t2 i p x y dx dy =>
    have : t2 = t := Option.some.inj h
    subst this
    simp [Event.is_released, ht]
  | pinch cb t2 i p g =>
    have : t2 = t := Option.some.inj h
    subst this
    simp [Event.is_released, ht]

/-- A dispatch made while the tracked kind is exactly Tap, Drag or Pinch does
not carry the released bit. -/
theorem call_cb_unreleased (d : Detector)
    (ht : d.track.type = EV_TAP ∨ d.track.type = EV_DRAG ∨ d.track.type = EV_PINCH) :
    ∀ e ∈ (call_cb d).log, e.is_released = false := by
  intro e he
  have h := call_cb_type_arg d e he
  unfold base_kind at h
  rcases ht with ht | ht | ht <;> rw [ht] at h <;>
    rcases h with h | h | h | h <;>
    exact is_released_of_type_arg e _ h (by decide)

theorem call_cb_log_of_stopped (d : Detector) (h : (call_cb d).status ≠ Status.running) :
    (call_cb d).log = [] := by
  rw [call_cb_eq] at h ⊢
  split_ifs at h ⊢
  · unfold dispatch_tap at h ⊢
    simp only [] at h ⊢
    split_ifs at h ⊢ <;> first | rfl | exact absurd rfl h
  · unfold dispatch_drag at h ⊢
    simp only [] at h ⊢
    split_ifs at h ⊢ <;> first | rfl | exact absurd rfl h
  · unfold dispatch_pinch at h ⊢
    simp only [] at h ⊢
    split_ifs at h ⊢ <;> first | rfl | exact absurd rfl h
  · rfl

/-! ### The log invariant -/

theorem release_then_start_append (a b : List Event) (ha : release_then_start a = true)
    (hb : release_then_start b = true) : release_then_start (a ++ b) = true := by
  induction a with
  | nil => exact hb
  | cons e rest ih =>
    unfold release_then_start at ha
    rw [Bool.and_eq_true] at ha
    obtain ⟨h1, h2⟩ := ha
    show release_then_start (e :: (rest ++ b)) = true
    unfold release_then_start
    rw [Bool.and_eq_true]
    refine ⟨?_, ih h2⟩
    cases hr : e.is_released
    · rfl
    · rw [hr] at h1
      cases rest with
      | nil => cases h1
      | cons f rest2 => exact h1

theorem release_then_start_unreleased (l : List Event)
    (h : ∀ e ∈ l, e.is_released = false) : release_then_start l = true := by
  induction l with
  | nil => rfl
  | cons e rest ih =>
    unfold release_then_start
    rw [Bool.and_eq_true]
    refine ⟨?_, ih (fun f hf => h f (List.mem_cons_of_mem _ hf))⟩
    rw [h e (List.mem_cons_self _ _)]
    rfl

theorem release_then_start_call_start (l : List Event) (hl : l.length ≤ 1) (ev : EventType) :
    release_then_start (l ++ [Event.started ev]) = true := by
  cases l with
  | nil => rfl
  | cons e rest =>
    cases rest with
    | nil =>
      show release_then_start [e, Event.started ev] = true
      cases hr : e.is_released <;>
        simp [release_then_start, hr, Event.is_released, starts_with_start, Event.is_start]
    | cons f r2 =>
      simp at hl

theorem release_then_start_start_cons (l : List Event) (ev : EventType)
    (h : release_then_start l = true) : release_then_start (Event.started ev :: l) = true := by
  unfold release_then_start
  rw [Bool.and_eq_true]
  exact ⟨rfl, h⟩

/-! ### Every poll keeps the invariant -/

theorem release_and_reset_log (d : Detector) (now : Nat) :
    release_then_start (release_and_reset d now).log = true := by
  unfold release_and_reset
  split
  · exact release_then_start_call_start _ (call_cb_log_length _) EV_NONE
  · rename_i st hst
    have hne : (call_cb (set_released d)).status ≠ Status.running := by
      intro hr
      exact hst hr
    show release_then_start (call_cb (set_released d)).log = true
    rw [call_cb_log_of_stopped _ hne]
    rfl

theorem poll_none_log (d : Detector) (now : Nat) :
    release_then_start (poll_none d now).log = true := by
  unfold poll_none
  split_ifs
  · exact release_then_start_start_cons _ EV_SWIPE (release_and_reset_log _ now)
  · exact release_and_reset_log d now

theorem release_pinch_log (d : Detector) (now : Nat) (xy : Option (Int × Int)) :
    release_then_start (release_pinch d now xy).log = true := by
  unfold release_pinch
  split
  · split
    · exact release_then_start_call_start _ (call_cb_log_length _) EV_DRAG
    · exact release_then_start_call_start _ (call_cb_log_length _) EV_DRAG
  · rename_i st hst
    have hne : (call_cb (set_released d)).status ≠ Status.running := by
      intro hr
      exact hst hr
    show release_then_start (call_cb (set_released d)).log = true
    rw [call_cb_log_of_stopped _ hne]
    rfl

theorem hold_or_move_log (d : Detector) (now : Nat) (x y : Int)
    (ht : d.track.type = EV_TAP ∨ d.track.type = EV_DRAG) :
    release_then_start (hold_or_move d now x y).log = true := by
  unfold hold_or_move
  split_ifs
  · exact release_then_start_start_cons _ EV_DRAG
      (release_then_start_unreleased _ (call_cb_unreleased _ (Or.inr (Or.inl rfl))))
  · refine release_then_start_unreleased _ (call_cb_unreleased _ ?_)
    rcases ht with h | h
    · exact Or.inl h
    · exact Or.inr (Or.inl h)
  · rfl

theorem poll_one_log (d : Detector) (now : Nat) (xy : Option (Int × Int)) :
    release_then_start (poll_one d now xy).log = true := by
  unfold poll_one
  split_ifs with h1 h2 h3
  · cases xy with
    | none => rfl
    | some v =>
      exact release_then_start_start_cons _ EV_TAP
        (release_then_start_unreleased _ (call_cb_unreleased _ (Or.inl rfl)))
  · cases xy with
    | none => rfl
    | some v => exact hold_or_move_log d now v.1 v.2 h2
  · exact release_pinch_log d now xy
  · rfl

theorem poll_two_log (d : Detector) (now : Nat) (xy0 xy1 : Option (Int × Int)) :
    release_then_start (poll_two d now xy0 xy1).log = true := by
  unfold poll_two
  split_ifs with h1
  · split <;> rfl
  · split
    · have hp : d.track.type = EV_PINCH := not_not.mp h1
      exact release_then_start_unreleased _
        (call_cb_unreleased _ (Or.inr (Or.inr hp)))
    · rfl

theorem poll_log (d : Detector) (now : Nat) (pts : List GDTpoint) :
    release_then_start (poll d now pts).log = true := by
  cases hg : gated d now
  · rw [poll_scan d now pts hg]
    split
    · exact poll_none_log _ now
    · exact poll_one_log _ now _
    · exact poll_two_log _ now _ _
    · rfl
  · rw [poll_gated d now pts hg]
    rfl

theorem poll_all_log (samples : List (Nat × List GDTpoint)) :
    ∀ d : Detector, release_then_start (poll_all d samples).log = true := by
  induction samples with
  | nil => intro d; rfl
  | cons s rest ih =>
    intro d
    unfold poll_all
    simp only []
    split
    · exact release_then_start_append _ _ (poll_log d s.1 s.2) (ih _)
    · exact poll_log d s.1 s.2

/-! ### From the log invariant to the instances -/

theorem split_instances_ne_nil (l : List Event) : split_instances l ≠ [] := by
  cases l with
  | nil => simp [split_instances]
  | cons e rest =>
    unfold split_instances
    split_ifs
    · simp
    · cases split_instances rest <;> simp [add_to_first]

theorem split_instances_of_start (l : List Event) (h : starts_with_start l = true) :
    ∃ segs, split_instances l = [] :: segs := by
  cases l with
  | nil => cases h
  | cons e rest =>
    have he : e.is_start = true := h
    unfold split_instances
    rw [if_pos he]
    exact ⟨_, rfl⟩

theorem is_start_unreleased (e : Event) (h : e.is_start = true) : e.is_released = false := by
  cases e <;> first | rfl | cases h

theorem released_only_last_cons (e : Event) (seg : List Event)
    (h1 : e.is_released = true → seg = []) (h2 : released_only_last seg = true) :
    released_only_last (e :: seg) = true := by
  cases seg with
  | nil => rfl
  | cons f rest =>
    show (!e.is_released && released_only_last (f :: rest)) = true
    rw [h2, Bool.and_true]
    cases hr : e.is_released
    · rfl
    · exact absurd (h1 hr) (by simp)

theorem instances_released_only_last (l : List Event) (h : release_then_start l = true) :
    ∀ seg ∈ split_instances l, released_only_last seg = true := by
  induction l with
  | nil =>
    intro seg hseg
    simp only [split_instances, List.mem_singleton] at hseg
    rw [hseg]
    rfl
  | cons e rest ih =>
    unfold release_then_start at h
    rw [Bool.and_eq_true] at h
    obtain ⟨h1, h2⟩ := h
    intro seg hseg
    unfold split_instances at hseg
    by_cases hs : e.is_start = true
    · rw [if_pos hs, List.mem_cons] at hseg
      rcases hseg with hseg | hseg
      · rw [hseg]
        rfl
      · exact ih h2 seg hseg
    · rw [if_neg hs] at hseg
      cases hsp : split_instances rest with
      | nil => exact absurd hsp (split_instances_ne_nil rest)
      | cons seg0 segs =>
        rw [hsp] at hseg
        simp only [add_to_first, List.mem_cons] at hseg
        rcases hseg with hseg | hseg
        · rw [hseg]
          apply released_only_last_cons
          · intro hr
            rw [hr] at h1
            have hst : starts_with_start rest = true := by simpa using h1
            obtain ⟨segs2, hs2⟩ := split_instances_of_start rest hst
            rw [hs2] at hsp
            exact (List.cons.inj hsp).1.symm
          · exact ih h2 seg0 (by rw [hsp]; exact List.mem_cons_self _ _)
        · exact ih h2 seg (by rw [hsp]; exact List.mem_cons_of_mem _ hseg)

/-- C3, amended. Release semantics: for every detector state and every
sequence of polls, in every tracked gesture instance of the log (the
dispatches between two calls of `start_new_tracked`) no dispatch other than
the last one carries `EV_RELEASED`; so at most one dispatch of an instance
carries it, and that dispatch ends the instance. -/
theorem released_dispatch_is_last (d : Detector) (samples : List (Nat × List GDTpoint)) :
    ∀ seg ∈ split_instances (poll_all d samples).log, released_only_last seg = true :=
  instances_released_only_last _ (poll_all_log samples d)

/-- C3, amended, at a long press: the instance of a tap held for 570 ms has two
dispatches, and only the second, its last, carries `EV_RELEASED`. -/
theorem released_dispatch_is_last_witness :
    [Event.tap (some 1) EV_TAP 0 0 10 10,
        Event.tap (some 1) (bor (bor EV_TAP EV_LONG_PRESS) EV_RELEASED) 0 0 10 10]
        ∈ split_instances (poll_all idle_detector
          [(30, [⟨10, 10⟩]), (300, [⟨10, 10⟩]), (600, [⟨10, 10⟩]), (630, [])]).log ∧
      released_only_last
        [Event.tap (some 1) EV_TAP 0 0 10 10,
          Event.tap (some 1) (bor (bor EV_TAP EV_LONG_PRESS) EV_RELEASED) 0 0 10 10] = true :=
  ⟨by decide,
    released_dispatch_is_last idle_detector
      [(30, [⟨10, 10⟩]), (300, [⟨10, 10⟩]), (600, [⟨10, 10⟩]), (630, [])] _ (by decide)⟩

/-- C3 as stated fails: a tap that is dispatched at touch-down and then turns
into a drag is an instance with one dispatch, none of which carries
`EV_RELEASED`. -/
theorem tap_instance_without_release :
    tap_then_drag_session.map (fun r => split_instances r.log)
        = some [[], [Event.tap (some 1) EV_TAP 0 0 10 10], [], []] ∧
      release_once_last [Event.tap (some 1) EV_TAP 0 0 10 10] = false := by
  decide

/-! ## Sequences of scans -/

theorem poll_all_cons_running (d : Detector) (s : Nat × List GDTpoint)
    (rest : List (Nat × List GDTpoint)) (h : (poll d s.1 s.2).status = Status.running) :
    poll_all d (s :: rest) =
      ⟨(poll_all (poll d s.1 s.2).det rest).det,
        (poll d s.1 s.2).log ++ (poll_all (poll d s.1 s.2).det rest).log,
        (poll_all (poll d s.1 s.2).det rest).status⟩ := by
  show (match (poll d s.1 s.2).status with
    | Status.running => _
    | st => _) = _
  rw [h]

theorem poll_all_append (a b : List (Nat × List GDTpoint)) :
    ∀ d : Detector, (poll_all d a).status = Status.running →
      poll_all d (a ++ b) =
        ⟨(poll_all (poll_all d a).det b).det,
          (poll_all d a).log ++ (poll_all (poll_all d a).det b).log,
          (poll_all (poll_all d a).det b).status⟩ := by
  induction a with
  | nil =>
    intro d _
    rfl
  | cons s rest ih =>
    intro d h
    have hs : (poll d s.1 s.2).status = Status.running := by
      by_contra hne
      have : poll_all d (s :: rest) = ⟨(poll d s.1 s.2).det, (poll d s.1 s.2).log,
          (poll d s.1 s.2).status⟩ := by
        show (match (poll d s.1 s.2).status with
          | Status.running => _
          | st => _) = _
        cases hst : (poll d s.1 s.2).status with
        | running => exact absurd hst hne
        | assertFailed => rfl
        | undefined => rfl
      rw [this] at h
      exact hne h
    rw [poll_all_cons_running d s rest hs] at h
    rw [List.cons_append, poll_all_cons_running d s (rest ++ b) hs, ih _ h,
      poll_all_cons_running d s rest hs]
    simp only [List.append_assoc]

theorem poll_all_single (d : Detector) (s : Nat × List GDTpoint) :
    poll_all d [s] = poll d s.1 s.2 := by
  show (match (poll d s.1 s.2).status with
    | Status.running =>
      (⟨(poll d s.1 s.2).det, (poll d s.1 s.2).log ++ [], Status.running⟩ : Run)
    | st => ⟨(poll d s.1 s.2).det, (poll d s.1 s.2).log, st⟩) = _
  generalize poll d s.1 s.2 = r
  rcases r with ⟨dt, lg, st⟩
  cases st <;> simp

theorem not_gated_of_spaced (d : Detector) (t : Nat) (h1 : d.last_polled + SCAN_TIME ≤ t)
    (h2 : t < ULONG_MOD) : gated d t = false := by
  unfold gated uadd
  rw [Nat.mod_eq_of_lt (by omega)]
  exact decide_eq_false (by omega)

theorem spaced_cons (l t : Nat) (ts : List Nat) (h : spaced l (t :: ts) = true) :
    (l + SCAN_TIME ≤ t ∧ t < ULONG_MOD) ∧ spaced t ts = true := by
  unfold spaced at h
  rw [Bool.and_eq_true, decide_eq_true_eq] at h
  exact h

theorem usub_of_le (a b : Nat) (h1 : b ≤ a) (h2 : a < ULONG_MOD) : usub a b = a - b := by
  unfold usub
  have hb : b < ULONG_MOD := by omega
  rw [Nat.mod_eq_of_lt h2, Nat.mod_eq_of_lt hb]
  have : a + (ULONG_MOD - b) = (a - b) + ULONG_MOD := by omega
  rw [this, Nat.add_mod_right, Nat.mod_eq_of_lt (by omega)]

theorem remap_some (rot : Int) (p q : GDTpoint) (v : Int × Int) (h : remap rot p = some v) :
    ∃ w, remap rot q = some w := by
  unfold remap at h ⊢
  split_ifs at h ⊢
  · exact ⟨_, rfl⟩
  · exact ⟨_, rfl⟩
  · exact ⟨_, rfl⟩
  · exact ⟨_, rfl⟩

/-! ## `call_cb` keeps the resolved listener sound -/

theorem base_kind_of_same (d1 d2 : Detector) (h : same_but_resolution d1 d2) :
    base_kind d2 = base_kind d1 := by
  unfold base_kind
  rw [h.2.2.2.1]

theorem call_cb_keeps_ok (d : Detector) (hok : dispatch_ok d) :
    dispatch_ok (call_cb d).det := by
  by_cases h0 : 0 ≤ d.track.active_event
  · rw [call_cb_det_resolved d h0]
    exact hok
  · have hneg : d.track.active_event < 0 := by omega
    have hsame := call_cb_same d
    have hbk := base_kind_of_same d _ hsame
    have hev : (call_cb d).det.events = d.events := hsame.2.2.1
    intro h0r
    rw [hbk, hev]
    rw [call_cb_det] at h0r ⊢
    have hi20 : ∀ i : Nat, i < MAX_EVENTS → (i : Int) < (MAX_EVENTS : Int) := by
      intro i hi
      exact_mod_cast hi
    split_ifs at h0r ⊢ with h1 h2 h3
    · rcases resolve_tap_cases d with h | ⟨i, hi, hhit, _, h⟩ <;> rw [h] at h0r ⊢
      · omega
      · refine ⟨hi20 i hi, fun hh => ?_, fun hh => ?_⟩
        · rw [h1] at hh
          exact absurd hh (by decide)
        · rw [h1] at hh
          exact absurd hh (by decide)
    · rcases resolve_drag_cases d (base_kind d) with h | ⟨i, hi, hhit, _, h⟩
      all_goals rw [h] at h0r ⊢
      · omega
      · have e : (set_active d i).track.active_event = (i : Int) := rfl
        rw [e, Int.toNat_ofNat]
        refine ⟨hi20 i hi, fun _ => ?_, fun hh => ?_⟩
        · rw [drag_hit_type d _ i hhit]
          exact h2
        · rw [drag_hit_type d _ i hhit]
          exact hh
    · rcases resolve_pinch_cases d with h | ⟨i, hi, hhit, _, h⟩ <;> rw [h] at h0r ⊢
      · omega
      · have e : (set_working_co (set_active d i) i).track.active_event = (i : Int) := rfl
        rw [e, Int.toNat_ofNat]
        refine ⟨hi20 i hi, fun hh => ?_, fun _ => pinch_hit_type d i hhit⟩
        rw [pinch_hit_type d i hhit]
        rw [h3] at hh
        exact absurd hh (by decide)
    · omega

theorem resolve_drag_frame (d : Detector) (ev : EventType) :
    (resolve_drag d ev).track.cont0 = d.track.cont0 := by
  rcases resolve_drag_cases d ev with h | ⟨i, _, _, _, h⟩ <;> rw [h]
  rfl

theorem call_cb_drag_log (d : Detector)
    (hb : base_kind d = EV_DRAG ∨ base_kind d = EV_SWIPE) :
    ∀ e ∈ (call_cb d).log, ∃ cb i param dx dy,
      e = Event.drag cb (bor (base_kind d) (band d.track.type EV_RELEASED)) i param
        d.track.cont0.init_x d.track.cont0.init_y dx dy := by
  have h1 : ¬ base_kind d = EV_TAP := by
    rcases hb with h | h <;> rw [h] <;> decide
  intro e he
  rw [call_cb_eq, if_neg h1, if_pos hb] at he
  rcases dispatch_drag_log (resolve_drag d (base_kind d)) (base_kind d)
      (band d.track.type EV_RELEASED) with hl | ⟨_, _, dx, dy, hl⟩
  · rw [hl] at he
    cases he
  · rw [hl, List.mem_singleton, resolve_drag_frame] at he
    exact ⟨_, _, _, dx, dy, he⟩

/-! ## A tap that is held -/

theorem run_eta (r : Run) : (⟨r.det, [] ++ r.log, r.status⟩ : Run) = r := by
  rcases r with ⟨dt, lg, st⟩
  rfl

theorem scan_down_exists (hit : Nat → Bool) (n i : Nat) (hi : i < n) (h : hit i = true) :
    ∃ k, scan_down hit n = some k := by
  cases hs : scan_down hit n with
  | none =>
    have := scan_down_none hit n hs i hi
    rw [h] at this
    cases this
  | some k => exact ⟨k, rfl⟩

/-- The scan that sees a contact land on an idle detector, over a Tap listener. -/
theorem landing_poll (d : Detector) (t0 : Nat) (p : GDTpoint) (x y : Int)
    (hidle : d.track.type = EV_NONE) (hg : gated d t0 = false)
    (hp : remap d.rotation p = some (x, y))
    (hlisten : ∃ i, i < MAX_EVENTS ∧ (d.events i).type = EV_TAP ∧
      in_region (d.events i) x y = true) :
    ∃ k, k < MAX_EVENTS ∧ (d.events k).type = EV_TAP ∧ in_region (d.events k) x y = true ∧
      poll d t0 [p] =
        ⟨tap_held d t0 (k : Int) x y t0 0,
          [Event.started EV_TAP,
            Event.tap (d.events k).tapCallback EV_TAP (k : Int) (d.events k).param x y],
          Status.running⟩ := by
  obtain ⟨i, hi, hty, hin⟩ := hlisten
  have hhit : tap_hit (set_cont0 (start_new_tracked { d with last_polled := t0 } t0 EV_TAP) x y)
      i = true := by
    unfold tap_hit
    show (if (!in_region (d.events i) x y) = true then false
      else if (d.events i).type = EV_TAP then true else false) = true
    rw [hin, hty]
    rfl
  obtain ⟨k, hk⟩ := scan_down_exists _ MAX_EVENTS i hi hhit
  obtain ⟨hk1, hk2, _⟩ := scan_down_some _ _ _ hk
  have hkty := tap_hit_type _ k hk2
  have hkin : in_region (d.events k) x y = true := by
    unfold tap_hit at hk2
    have : (if (!in_region (d.events k) x y) = true then false
      else if (d.events k).type = EV_TAP then true else false) = true := hk2
    cases hr : in_region (d.events k) x y
    · rw [hr] at this
      cases this
    · rfl
  refine ⟨k, hk1, hkty, hkin, ?_⟩
  rw [poll_scan_one d t0 p hg]
  unfold poll_one
  have c1 : ({ d with last_polled := t0 } : Detector).track.type = EV_NONE := hidle
  rw [if_pos c1, hp]
  show Run.after [Event.started EV_TAP] (call_cb _) = _
  rw [call_cb_eq]
  have hb : base_kind (set_cont0 (start_new_tracked { d with last_polled := t0 } t0 EV_TAP) x y)
      = EV_TAP := by
    show band EV_TAP (bnot EV_RELEASED) = EV_TAP
    decide
  rw [if_pos hb]
  have hres : resolve_tap (set_cont0 (start_new_tracked { d with last_polled := t0 } t0 EV_TAP)
      x y) = tap_held d t0 (k : Int) x y t0 0 := by
    unfold resolve_tap
    have hneg : (set_cont0 (start_new_tracked { d with last_polled := t0 } t0 EV_TAP)
      x y).track.active_event < 0 := show (-1 : Int) < 0 by decide
    rw [if_pos hneg, hk]
    rfl
  rw [hres]
  unfold dispatch_tap
  have e : (tap_held d t0 (k : Int) x y t0 0).track.active_event = (k : Int) := rfl
  have hk20 : (k : Int) < (MAX_EVENTS : Int) := by exact_mod_cast hk1
  rw [e, if_neg (by omega), if_neg (by omega)]
  simp only []
  have hh : ¬ (tap_held d t0 (k : Int) x y t0 0).track.hold_time ≥ LONG_PRESS_TIME := by
    show ¬ (0 ≥ LONG_PRESS_TIME)
    decide
  rw [if_neg hh, Int.toNat_ofNat]
  rfl

/-- A scan that sees the held contact where it landed. -/
theorem held_poll (d : Detector) (t0 : Nat) (k : Int) (p : GDTpoint) (x y : Int)
    (tl h t : Nat) (hp : remap d.rotation p = some (x, y))
    (hg : gated (tap_held d t0 k x y tl h) t = false) :
    poll (tap_held d t0 k x y tl h) t [p] =
      ⟨tap_held d t0 k x y t (usub t t0), [], Status.running⟩ := by
  rw [poll_scan_one _ t p hg]
  unfold poll_one
  have c1 : ¬ (({ tap_held d t0 k x y tl h with last_polled := t } : Detector).track.type
      = EV_NONE) := show ¬ (EV_TAP = EV_NONE) by decide
  have c2 : ({ tap_held d t0 k x y tl h with last_polled := t } : Detector).track.type = EV_TAP ∨
      ({ tap_held d t0 k x y tl h with last_polled := t } : Detector).track.type = EV_DRAG :=
    Or.inl rfl
  have hp2 : remap (tap_held d t0 k x y tl h).rotation p = some (x, y) := hp
  rw [if_neg c1, if_pos c2, hp2]
  show hold_or_move _ t x y = _
  unfold hold_or_move
  have hnm : ¬ ((set_hold_time (move_cont0
      ({ tap_held d t0 k x y tl h with last_polled := t } : Detector) x y) t).track.cont0.dx ≠ 0 ∨
      (set_hold_time (move_cont0
      ({ tap_held d t0 k x y tl h with last_polled := t } : Detector) x y) t).track.cont0.dy
        ≠ 0) := by
    show ¬ (x - x ≠ 0 ∨ y - y ≠ 0)
    omega
  rw [if_neg hnm]
  have hst : set_hold_time (move_cont0
      ({ tap_held d t0 k x y tl h with last_polled := t } : Detector) x y) t
        = tap_held d t0 k x y t (usub t t0) := by
    unfold set_hold_time move_cont0 tap_held
    simp only [sub_self]
  rw [hst]

theorem held_run (d : Detector) (t0 : Nat) (k : Int) (p : GDTpoint) (x y : Int)
    (hp : remap d.rotation p = some (x, y)) (after : List Nat) :
    ∀ (mid : List Nat) (tl h : Nat), spaced tl (mid ++ after) = true →
      ∃ tl1 h1, spaced tl1 after = true ∧
        ∀ rest, poll_all (tap_held d t0 k x y tl h) (held_at p mid ++ rest)
          = poll_all (tap_held d t0 k x y tl1 h1) rest := by
  intro mid
  induction mid with
  | nil =>
    intro tl h hs
    exact ⟨tl, h, hs, fun rest => rfl⟩
  | cons t mid ih =>
    intro tl h hs
    obtain ⟨⟨h1, h2⟩, h3⟩ := spaced_cons tl t (mid ++ after) hs
    obtain ⟨tl1, hh1, hs1, hrun⟩ := ih t (usub t t0) h3
    refine ⟨tl1, hh1, hs1, fun rest => ?_⟩
    have hg : gated (tap_held d t0 k x y tl h) t = false :=
      not_gated_of_spaced _ t h1 h2
    have hpoll := held_poll d t0 k p x y tl h t hp hg
    show poll_all (tap_held d t0 k x y tl h) ((t, [p]) :: (held_at p mid ++ rest)) = _
    rw [poll_all_cons_running _ (t, [p]) _ (by rw [hpoll])]
    simp only [hpoll]
    rw [hrun rest]
    exact run_eta _

/-- The scan that sees a held tap lifted. -/
theorem held_release (d : Detector) (t0 : Nat) (k : Nat) (x y : Int) (tl h t : Nat)
    (hk : k < MAX_EVENTS) (hh : LONG_PRESS_TIME ≤ h)
    (hg : gated (tap_held d t0 (k : Int) x y tl h) t = false) :
    (poll (tap_held d t0 (k : Int) x y tl h) t []).status = Status.running ∧
    (poll (tap_held d t0 (k : Int) x y tl h) t []).log =
      [Event.tap (d.events k).tapCallback (bor (bor EV_TAP EV_LONG_PRESS) EV_RELEASED) (k : Int)
          (d.events k).param x y,
        Event.started EV_NONE] := by
  have hk20 : (k : Int) < (MAX_EVENTS : Int) := by exact_mod_cast hk
  rw [poll_scan_none _ t hg]
  unfold poll_none
  have hnm : ¬ (({ tap_held d t0 (k : Int) x y tl h with last_polled := t } : Detector).track.type
        = EV_TAP ∧
      (({ tap_held d t0 (k : Int) x y tl h with last_polled := t } : Detector).track.cont0.dx ≠ 0 ∨
       ({ tap_held d t0 (k : Int) x y tl h with last_polled := t } : Detector).track.cont0.dy
        ≠ 0)) := by
    intro hc
    have : (0 : Int) ≠ 0 ∨ (0 : Int) ≠ 0 := hc.2
    omega
  rw [if_neg hnm]
  have hbk : base_kind ({ tap_held d t0 (k : Int) x y tl h with last_polled := t } : Detector)
      = EV_TAP := by
    show band EV_TAP (bnot EV_RELEASED) = EV_TAP
    decide
  have hok : dispatch_ok ({ tap_held d t0 (k : Int) x y tl h with last_polled := t } : Detector) := by
    intro _
    refine ⟨hk20, fun hb => ?_, fun hb => ?_⟩
    · rw [hbk] at hb
      exact absurd hb (by decide)
    · rw [hbk] at hb
      exact absurd hb (by decide)
  rw [release_and_reset_ok _ t hok]
  refine ⟨rfl, ?_⟩
  show (call_cb _).log ++ [Event.started EV_NONE] = _
  have h0 : 0 ≤ (set_released ({ tap_held d t0 (k : Int) x y tl h with last_polled := t }
      : Detector)).track.active_event := by
    show (0 : Int) ≤ (k : Int)
    omega
  rw [call_cb_resolved _ h0]
  have hb : base_kind (set_released ({ tap_held d t0 (k : Int) x y tl h with last_polled := t }
      : Detector)) = EV_TAP := by
    show band (bor EV_TAP EV_RELEASED) (bnot EV_RELEASED) = EV_TAP
    decide
  rw [if_pos hb]
  unfold dispatch_tap
  have e : (set_released ({ tap_held d t0 (k : Int) x y tl h with last_polled := t }
      : Detector)).track.active_event = (k : Int) := rfl
  have eh : (set_released ({ tap_held d t0 (k : Int) x y tl h with last_polled := t }
      : Detector)).track.hold_time = h := rfl
  rw [e, if_neg (by omega), if_neg (by omega)]
  simp only []
  rw [eh, if_pos hh, Int.toNat_ofNat]
  rfl

theorem held_at_append (p : GDTpoint) (a b : List Nat) :
    held_at p (a ++ b) = held_at p a ++ held_at p b := by
  unfold held_at
  rw [List.map_append]

/-- C7, amended. Long-press is reported on release: when a contact lands on an
idle detector inside the region of a Tap listener and is seen at its
touch-down position on every scan up to one at least `LONG_PRESS_TIME` after
touch-down, the scans before the release make exactly one callback, the plain
`EV_TAP` of the touch-down, and none with `EV_LONG_PRESS`; the poll that sees
the release calls the same listener with `EV_TAP | EV_LONG_PRESS |
EV_RELEASED`. -/
theorem long_press_only_on_release (d : Detector) (p : GDTpoint) (x y : Int)
    (t0 tl tr : Nat) (mid : List Nat)
    (hidle : d.track.type = EV_NONE) (hp : remap d.rotation p = some (x, y))
    (hlisten : ∃ i, i < MAX_EVENTS ∧ (d.events i).type = EV_TAP ∧
      in_region (d.events i) x y = true)
    (hsp : spaced d.last_polled (t0 :: (mid ++ [tl, tr])) = true)
    (hlong : t0 + LONG_PRESS_TIME ≤ tl) :
    ∃ k, k < MAX_EVENTS ∧ (d.events k).type = EV_TAP ∧ in_region (d.events k) x y = true ∧
      (poll_all d ((t0, [p]) :: held_at p (mid ++ [tl]))).status = Status.running ∧
      (poll_all d ((t0, [p]) :: held_at p (mid ++ [tl]))).log =
        [Event.started EV_TAP,
          Event.tap (d.events k).tapCallback EV_TAP (k : Int) (d.events k).param x y] ∧
      (poll_all d ((t0, [p]) :: (held_at p (mid ++ [tl]) ++ [(tr, [])]))).status
        = Status.running ∧
      (poll_all d ((t0, [p]) :: (held_at p (mid ++ [tl]) ++ [(tr, [])]))).log =
        [Event.started EV_TAP,
          Event.tap (d.events k).tapCallback EV_TAP (k : Int) (d.events k).param x y,
          Event.tap (d.events k).tapCallback (bor (bor EV_TAP EV_LONG_PRESS) EV_RELEASED)
            (k : Int) (d.events k).param x y,
          Event.started EV_NONE] := by
  obtain ⟨⟨a1, a2⟩, hsp1⟩ := spaced_cons _ _ _ hsp
  obtain ⟨k, hk, hty, hin, hland⟩ :=
    landing_poll d t0 p x y hidle (not_gated_of_spaced d t0 a1 a2) hp hlisten
  obtain ⟨tl1, h1, hsp2, hrun⟩ := held_run d t0 (k : Int) p x y hp [tl, tr] mid t0 0 hsp1
  obtain ⟨⟨b1, b2⟩, hsp3⟩ := spaced_cons _ _ _ hsp2
  obtain ⟨⟨c1, c2⟩, _⟩ := spaced_cons _ _ _ hsp3
  have hlast := held_poll d t0 (k : Int) p x y tl1 h1 tl hp
    (not_gated_of_spaced (tap_held d t0 (k : Int) x y tl1 h1) tl b1 b2)
  rw [usub_of_le tl t0 (by omega) b2] at hlast
  obtain ⟨hrs, hrl⟩ := held_release d t0 k x y tl (tl - t0) tr hk (by omega)
    (not_gated_of_spaced (tap_held d t0 (k : Int) x y tl (tl - t0)) tr c1 c2)
  have hs0 : (poll d (t0, [p]).1 (t0, [p]).2).status = Status.running := by
    show (poll d t0 [p]).status = Status.running
    rw [hland]
  have hheld : poll_all (tap_held d t0 (k : Int) x y t0 0) (held_at p mid ++ [(tl, [p])])
      = ⟨tap_held d t0 (k : Int) x y tl (tl - t0), [], Status.running⟩ := by
    rw [hrun, poll_all_single]
    exact hlast
  have hfull : poll_all (tap_held d t0 (k : Int) x y t0 0)
      (held_at p mid ++ [(tl, [p]), (tr, [])])
        = poll (tap_held d t0 (k : Int) x y tl (tl - t0)) tr [] := by
    rw [hrun, poll_all_cons_running _ (tl, [p]) _ (by rw [hlast])]
    simp only [hlast]
    rw [poll_all_single]
    exact run_eta _
  have e1 : held_at p (mid ++ [tl]) = held_at p mid ++ [(tl, [p])] := held_at_append p mid [tl]
  have e2 : held_at p (mid ++ [tl]) ++ [(tr, [])] = held_at p mid ++ [(tl, [p]), (tr, [])] := by
    rw [e1, List.append_assoc]
    rfl
  refine ⟨k, hk, hty, hin, ?_, ?_, ?_, ?_⟩
  · rw [poll_all_cons_running d _ _ hs0]
    show (poll_all (poll d t0 [p]).det _).status = _
    rw [hland, e1]
    show (poll_all (tap_held d t0 (k : Int) x y t0 0) _).status = _
    rw [hheld]
  · rw [poll_all_cons_running d _ _ hs0]
    show (poll d t0 [p]).log ++ (poll_all (poll d t0 [p]).det _).log = _
    rw [hland, e1]
    show _ ++ (poll_all (tap_held d t0 (k : Int) x y t0 0) _).log = _
    rw [hheld]
    rfl
  · rw [poll_all_cons_running d _ _ hs0]
    show (poll_all (poll d t0 [p]).det _).status = _
    rw [hland, e2]
    show (poll_all (tap_held d t0 (k : Int) x y t0 0) _).status = _
    rw [hfull, hrs]
  · rw [poll_all_cons_running d _ _ hs0]
    show (poll d t0 [p]).log ++ (poll_all (poll d t0 [p]).det _).log = _
    rw [hland, e2]
    show _ ++ (poll_all (tap_held d t0 (k : Int) x y t0 0) _).log = _
    rw [hfull, hrl]
    rfl

/-- C7, amended, at a tap held from 30 ms to 600 ms and released at 630 ms. -/
theorem long_press_only_on_release_witness :
    ∃ k, k < MAX_EVENTS ∧ (idle_detector.events k).type = EV_TAP ∧
      in_region (idle_detector.events k) 10 10 = true ∧
      (poll_all idle_detector
        ((30, [⟨10, 10⟩]) :: held_at ⟨10, 10⟩ ([200, 400] ++ [600]))).status = Status.running ∧
      (poll_all idle_detector
        ((30, [⟨10, 10⟩]) :: held_at ⟨10, 10⟩ ([200, 400] ++ [600]))).log =
        [Event.started EV_TAP,
          Event.tap (idle_detector.events k).tapCallback EV_TAP (k : Int)
            (idle_detector.events k).param 10 10] ∧
      (poll_all idle_detector
        ((30, [⟨10, 10⟩]) :: (held_at ⟨10, 10⟩ ([200, 400] ++ [600]) ++ [(630, [])]))).status
        = Status.running ∧
      (poll_all idle_detector
        ((30, [⟨10, 10⟩]) :: (held_at ⟨10, 10⟩ ([200, 400] ++ [600]) ++ [(630, [])]))).log =
        [Event.started EV_TAP,
          Event.tap (idle_detector.events k).tapCallback EV_TAP (k : Int)
            (idle_detector.events k).param 10 10,
          Event.tap (idle_detector.events k).tapCallback
            (bor (bor EV_TAP EV_LONG_PRESS) EV_RELEASED) (k : Int)
            (idle_detector.events k).param 10 10,
          Event.started EV_NONE] :=
  long_press_only_on_release idle_detector ⟨10, 10⟩ 10 10 30 600 630 [200, 400]
    (by decide) (by decide) ⟨0, by decide, by decide, by decide⟩ (by decide) (by decide)

/-- C7 as stated fails: a tap held in place inside a Tap listener over scans
that span 570 ms gets no callback with `EV_LONG_PRESS` set and `EV_RELEASED`
clear before its release; the long press arrives with the release. -/
theorem no_long_press_while_down :
    long_press_session.map (fun r => (r.summary, r.log.filter Event.is_long_press_down))
        = some (⟨Status.running, [Event.started EV_TAP, Event.tap (some 1) EV_TAP 0 0 10 10],
            EV_TAP, 0, 570⟩, []) ∧
      long_press_released.map (fun r => r.log)
        = some [Event.tap (some 1) (bor (bor EV_TAP EV_LONG_PRESS) EV_RELEASED) 0 0 10 10,
            Event.started EV_NONE] := by
  decide

/-! ## A tap that moves after the swipe time -/

/-- The scan that sees a contact land on an idle detector. -/
theorem landing_poll_any (d : Detector) (t0 : Nat) (p : GDTpoint) (x y : Int)
    (hidle : d.track.type = EV_NONE) (hg : gated d t0 = false)
    (hp : remap d.rotation p = some (x, y)) :
    ∃ k : Int, (poll d t0 [p]).status = Status.running ∧
      (poll d t0 [p]).det = tap_held d t0 k x y t0 0 := by
  have hpoll : poll d t0 [p] = Run.after [Event.started EV_TAP]
      (call_cb (set_cont0 (start_new_tracked { d with last_polled := t0 } t0 EV_TAP) x y)) := by
    rw [poll_scan_one d t0 p hg]
    unfold poll_one
    have c1 : ({ d with last_polled := t0 } : Detector).track.type = EV_NONE := hidle
    rw [if_pos c1, hp]
  have hneg : (set_cont0 (start_new_tracked { d with last_polled := t0 } t0 EV_TAP)
      x y).track.active_event < 0 := show (-1 : Int) < 0 by decide
  have hb : base_kind (set_cont0 (start_new_tracked { d with last_polled := t0 } t0 EV_TAP) x y)
      = EV_TAP := by
    show band EV_TAP (bnot EV_RELEASED) = EV_TAP
    decide
  rw [hpoll]
  show ∃ k : Int, (call_cb _).status = Status.running ∧ (call_cb _).det = _
  rw [call_cb_running _ (dispatch_ok_fresh _ hneg), call_cb_det, if_pos hb]
  rcases resolve_tap_cases
    (set_cont0 (start_new_tracked { d with last_polled := t0 } t0 EV_TAP) x y)
    with h | ⟨i, _, _, _, h⟩
  · exact ⟨-1, rfl, by rw [h]; rfl⟩
  · exact ⟨(i : Int), rfl, by rw [h]; rfl⟩

/-- The scan that sees a held tap displaced, later than `SWIPE_TIME` after it
landed. -/
theorem slow_move_poll (d : Detector) (t0 : Nat) (k : Int) (q : GDTpoint) (x y x1 y1 : Int)
    (tl h tm : Nat) (hq : remap d.rotation q = some (x1, y1)) (hmv : x1 ≠ x ∨ y1 ≠ y)
    (hg : gated (tap_held d t0 k x y tl h) tm = false)
    (hslow : SWIPE_TIME < usub tm t0) :
    (poll (tap_held d t0 k x y tl h) tm [q]).status = Status.running ∧
      (poll (tap_held d t0 k x y tl h) tm [q]).det.last_polled = tm ∧
      drag_tracked d.rotation x y (poll (tap_held d t0 k x y tl h) tm [q]).det := by
  have hmv2 : x1 ≠ (tap_held d t0 k x y tl h).track.cont0.init_x ∨
      y1 ≠ (tap_held d t0 k x y tl h).track.cont0.init_y := hmv
  obtain ⟨hs, hty, _, _, _⟩ := (moved_tap_poll (tap_held d t0 k x y tl h) tm q x1 y1 hg rfl hq
    hmv2).1 hslow
  refine ⟨hs, ?_, hty, ?_, ?_, ?_, ?_⟩
  all_goals
    have hpoll : poll (tap_held d t0 k x y tl h) tm [q] = Run.after [Event.started EV_DRAG]
        (call_cb (start_new_tracked (set_hold_time (move_cont0
          ({ tap_held d t0 k x y tl h with last_polled := tm } : Detector) x1 y1) tm)
          tm EV_DRAG)) := by
      rw [poll_scan_one _ tm q hg]
      unfold poll_one
      have c1 : ¬ (({ tap_held d t0 k x y tl h with last_polled := tm } : Detector).track.type
          = EV_NONE) := show ¬ (EV_TAP = EV_NONE) by decide
      have c2 : ({ tap_held d t0 k x y tl h with last_polled := tm } : Detector).track.type
            = EV_TAP ∨
          ({ tap_held d t0 k x y tl h with last_polled := tm } : Detector).track.type
            = EV_DRAG := Or.inl rfl
      have hq2 : remap (tap_held d t0 k x y tl h).rotation q = some (x1, y1) := hq
      rw [if_neg c1, if_pos c2, hq2]
      show hold_or_move _ tm x1 y1 = _
      unfold hold_or_move
      have hm : (set_hold_time (move_cont0
          ({ tap_held d t0 k x y tl h with last_polled := tm } : Detector) x1 y1)
            tm).track.cont0.dx ≠ 0 ∨
          (set_hold_time (move_cont0
          ({ tap_held d t0 k x y tl h with last_polled := tm } : Detector) x1 y1)
            tm).track.cont0.dy ≠ 0 := by
        show x1 - x ≠ 0 ∨ y1 - y ≠ 0
        omega
      have hc : (set_hold_time (move_cont0
          ({ tap_held d t0 k x y tl h with last_polled := tm } : Detector) x1 y1)
            tm).track.type = EV_TAP ∧
          (set_hold_time (move_cont0
          ({ tap_held d t0 k x y tl h with last_polled := tm } : Detector) x1 y1)
            tm).track.hold_time > SWIPE_TIME := ⟨rfl, hslow⟩
      rw [if_pos hm, if_pos hc]
    obtain ⟨s1, s2, _, _, _, _, s7, _⟩ := call_cb_same (start_new_tracked (set_hold_time
      (move_cont0 ({ tap_held d t0 k x y tl h with last_polled := tm } : Detector) x1 y1) tm)
      tm EV_DRAG)
    rw [hpoll]
  · exact s2
  · exact call_cb_keeps_ok _ (dispatch_ok_fresh _ (start_new_tracked_fresh _ tm EV_DRAG))
  · exact s1
  · show (call_cb _).det.track.cont0.init_x = x
    rw [s7]
    rfl
  · show (call_cb _).det.track.cont0.init_y = y
    rw [s7]
    rfl

/-- A scan that sees one contact while a drag is tracked. -/
theorem drag_poll (rot : Int) (x y : Int) (s : Detector) (t : Nat) (q v : GDTpoint)
    (w : Int × Int) (hv : remap rot v = some w) (hinv : drag_tracked rot x y s)
    (hg : gated s t = false) :
    (poll s t [q]).status = Status.running ∧ (poll s t [q]).det.last_polled = t ∧
      drag_tracked rot x y (poll s t [q]).det := by
  obtain ⟨hty, hok, hrot, hx, hy⟩ := hinv
  obtain ⟨⟨x1, y1⟩, hq⟩ := remap_some rot v q w hv
  have hpoll : poll s t [q] = hold_or_move { s with last_polled := t } t x1 y1 := by
    rw [poll_scan_one s t q hg]
    unfold poll_one
    have c1 : ¬ (({ s with last_polled := t } : Detector).track.type = EV_NONE) := by
      show ¬ (s.track.type = EV_NONE)
      rw [hty]
      decide
    have c2 : ({ s with last_polled := t } : Detector).track.type = EV_TAP ∨
        ({ s with last_polled := t } : Detector).track.type = EV_DRAG := Or.inr hty
    rw [if_neg c1, if_pos c2, hrot, hq]
  have hnt : ¬ ((set_hold_time (move_cont0 ({ s with last_polled := t } : Detector) x1 y1)
      t).track.type = EV_TAP ∧
      (set_hold_time (move_cont0 ({ s with last_polled := t } : Detector) x1 y1)
      t).track.hold_time > SWIPE_TIME) := by
    intro hc
    have h1 : s.track.type = EV_TAP := hc.1
    rw [hty] at h1
    exact absurd h1 (by decide)
  have hok1 : dispatch_ok (set_hold_time (move_cont0 ({ s with last_polled := t } : Detector)
      x1 y1) t) := hok
  rw [hpoll]
  unfold hold_or_move
  split_ifs with hm
  · obtain ⟨s1, s2, _, s4, _, _, s7, _⟩ := call_cb_same
      (set_hold_time (move_cont0 ({ s with last_polled := t } : Detector) x1 y1) t)
    refine ⟨call_cb_running _ hok1, s2, ?_, call_cb_keeps_ok _ hok1, ?_, ?_, ?_⟩
    · rw [s4]
      exact hty
    · rw [s1]
      exact hrot
    · rw [s7]
      exact hx
    · rw [s7]
      exact hy
  · exact ⟨rfl, rfl, hty, hok1, hrot, hx, hy⟩

theorem one_contact_cons (m : Nat × GDTpoint) (ms : List (Nat × GDTpoint)) :
    one_contact (m :: ms) = (m.1, [m.2]) :: one_contact ms := rfl

theorem drag_run (rot : Int) (x y : Int) (v : GDTpoint) (w : Int × Int)
    (hv : remap rot v = some w) (after : List Nat) :
    ∀ (more : List (Nat × GDTpoint)) (s : Detector), drag_tracked rot x y s →
      spaced s.last_polled (more.map Prod.fst ++ after) = true →
      (poll_all s (one_contact more)).status = Status.running ∧
        drag_tracked rot x y (poll_all s (one_contact more)).det ∧
        spaced (poll_all s (one_contact more)).det.last_polled after = true := by
  intro more
  induction more with
  | nil =>
    intro s hinv hs
    exact ⟨rfl, hinv, hs⟩
  | cons m more ih =>
    intro s hinv hs
    obtain ⟨⟨h1, h2⟩, h3⟩ := spaced_cons _ _ _ hs
    obtain ⟨p1, p2, p3⟩ := drag_poll rot x y s m.1 m.2 v w hv hinv
      (not_gated_of_spaced s m.1 h1 h2)
    rw [← p2] at h3
    obtain ⟨q1, q2, q3⟩ := ih _ p3 h3
    rw [one_contact_cons, poll_all_cons_running s (m.1, [m.2]) _ p1]
    exact ⟨q1, q2, q3⟩

/-- The scan that sees a tracked drag lifted. -/
theorem drag_release (rot : Int) (x y : Int) (s : Detector) (t : Nat)
    (hinv : drag_tracked rot x y s) (hg : gated s t = false) :
    (poll s t []).status = Status.running ∧
      ∃ calls, (poll s t []).log = calls ++ [Event.started EV_NONE] ∧ calls.length ≤ 1 ∧
        ∀ e ∈ calls, ∃ cb i param dx dy,
          e = Event.drag cb (bor EV_DRAG EV_RELEASED) i param x y dx dy := by
  obtain ⟨hty, hok, _, hx, hy⟩ := hinv
  rw [poll_scan_none s t hg]
  unfold poll_none
  have hnm : ¬ (({ s with last_polled := t } : Detector).track.type = EV_TAP ∧
      (({ s with last_polled := t } : Detector).track.cont0.dx ≠ 0 ∨
       ({ s with last_polled := t } : Detector).track.cont0.dy ≠ 0)) := by
    intro hc
    have h1 : s.track.type = EV_TAP := hc.1
    rw [hty] at h1
    exact absurd h1 (by decide)
  rw [if_neg hnm, release_and_reset_ok _ t (dispatch_ok_polled s t hok)]
  refine ⟨rfl, _, rfl, call_cb_log_length _, ?_⟩
  have hty2 : (set_released ({ s with last_polled := t } : Detector)).track.type
      = bor EV_DRAG EV_RELEASED := by
    show bor s.track.type EV_RELEASED = _
    rw [hty]
  have hb : base_kind (set_released ({ s with last_polled := t } : Detector)) = EV_DRAG := by
    unfold base_kind
    rw [hty2]
    decide
  intro e he
  obtain ⟨cb, i, param, dx, dy, h⟩ := call_cb_drag_log _ (Or.inl hb) e he
  rw [hb, hty2] at h
  have hrel : band (bor EV_DRAG EV_RELEASED) EV_RELEASED = EV_RELEASED := by decide
  rw [hrel] at h
  have ex : (set_released ({ s with last_polled := t } : Detector)).track.cont0.init_x = x := hx
  have ey : (set_released ({ s with last_polled := t } : Detector)).track.cont0.init_y = y := hy
  rw [ex, ey] at h
  exact ⟨cb, i, param, dx, dy, h⟩

/-- C6, amended. A contact that lands on an idle detector, is seen at its
touch-down position on the scans of the first 200 ms, is then seen displaced
and is finally released, is tracked as a Drag from the scan that sees the
displacement; the release poll returns and its only possible dispatch is a
drag callback with type `EV_DRAG | EV_RELEASED` (never Swipe, never Tap). -/
theorem release_after_slow_move (d : Detector) (p q : GDTpoint) (x y x1 y1 : Int)
    (t0 tm tr : Nat) (holds : List Nat) (more : List (Nat × GDTpoint))
    (hidle : d.track.type = EV_NONE)
    (hp : remap d.rotation p = some (x, y)) (hq : remap d.rotation q = some (x1, y1))
    (hmv : x1 ≠ x ∨ y1 ≠ y)
    (hsp : spaced d.last_polled
      (t0 :: (holds ++ (tm :: (more.map Prod.fst ++ [tr])))) = true)
    (hslow : t0 + 200 ≤ tm) :
    (poll_all d ((t0, [p]) :: (held_at p holds ++ ((tm, [q]) :: one_contact more)))).status
        = Status.running ∧
      (poll_all d ((t0, [p]) :: (held_at p holds ++
        ((tm, [q]) :: one_contact more)))).det.track.type = EV_DRAG ∧
      (poll (poll_all d ((t0, [p]) :: (held_at p holds ++
        ((tm, [q]) :: one_contact more)))).det tr []).status = Status.running ∧
      ∃ calls,
        (poll (poll_all d ((t0, [p]) :: (held_at p holds ++
          ((tm, [q]) :: one_contact more)))).det tr []).log
            = calls ++ [Event.started EV_NONE] ∧
        calls.length ≤ 1 ∧
        ∀ e ∈ calls, ∃ cb i param dx dy,
          e = Event.drag cb (bor EV_DRAG EV_RELEASED) i param x y dx dy := by
  obtain ⟨⟨a1, a2⟩, hsp1⟩ := spaced_cons _ _ _ hsp
  obtain ⟨k, hl1, hl2⟩ := landing_poll_any d t0 p x y hidle (not_gated_of_spaced d t0 a1 a2) hp
  obtain ⟨tl1, h1, hsp2, hrun⟩ := held_run d t0 k p x y hp
    (tm :: (more.map Prod.fst ++ [tr])) holds t0 0 hsp1
  obtain ⟨⟨b1, b2⟩, hsp3⟩ := spaced_cons _ _ _ hsp2
  have hus : SWIPE_TIME < usub tm t0 := by
    rw [usub_of_le tm t0 (by omega) b2]
    unfold SWIPE_TIME
    omega
  obtain ⟨m1, m2, m3⟩ := slow_move_poll d t0 k q x y x1 y1 tl1 h1 tm hq hmv
    (not_gated_of_spaced (tap_held d t0 k x y tl1 h1) tm b1 b2) hus
  rw [← m2] at hsp3
  obtain ⟨r1, r2, r3⟩ := drag_run d.rotation x y p (x, y) hp [tr] more _ m3 hsp3
  obtain ⟨⟨c1, c2⟩, _⟩ := spaced_cons _ _ _ r3
  have hbefore : poll_all d ((t0, [p]) :: (held_at p holds ++ ((tm, [q]) :: one_contact more)))
      = ⟨(poll_all (poll (tap_held d t0 k x y tl1 h1) tm [q]).det (one_contact more)).det,
          (poll d t0 [p]).log ++ ((poll (tap_held d t0 k x y tl1 h1) tm [q]).log ++
            (poll_all (poll (tap_held d t0 k x y tl1 h1) tm [q]).det (one_contact more)).log),
          (poll_all (poll (tap_held d t0 k x y tl1 h1) tm [q]).det
            (one_contact more)).status⟩ := by
    rw [poll_all_cons_running d (t0, [p]) _ hl1]
    show (⟨(poll_all (poll d t0 [p]).det _).det, _ ++ (poll_all (poll d t0 [p]).det _).log,
      (poll_all (poll d t0 [p]).det _).status⟩ : Run) = _
    rw [hl2, hrun, poll_all_cons_running _ (tm, [q]) _ m1]
  rw [hbefore]
  obtain ⟨f1, f2⟩ := drag_release d.rotation x y _ tr r2 (not_gated_of_spaced _ tr c1 c2)
  exact ⟨r1, r2.1, f1, f2⟩

/-- C6, amended, at a contact held for 210 ms, then moved twice and released. -/
theorem release_after_slow_move_witness :
    (poll_all idle_detector ((30, [⟨10, 10⟩]) :: (held_at ⟨10, 10⟩ [100, 170, 240] ++
        ((270, [⟨20, 10⟩]) :: one_contact [(300, ⟨30, 10⟩)])))).status = Status.running ∧
      (poll_all idle_detector ((30, [⟨10, 10⟩]) :: (held_at ⟨10, 10⟩ [100, 170, 240] ++
        ((270, [⟨20, 10⟩]) :: one_contact [(300, ⟨30, 10⟩)])))).det.track.type = EV_DRAG ∧
      (poll (poll_all idle_detector ((30, [⟨10, 10⟩]) :: (held_at ⟨10, 10⟩ [100, 170, 240] ++
        ((270, [⟨20, 10⟩]) :: one_contact [(300, ⟨30, 10⟩)])))).det 330 []).status
          = Status.running ∧
      ∃ calls,
        (poll (poll_all idle_detector ((30, [⟨10, 10⟩]) :: (held_at ⟨10, 10⟩ [100, 170, 240] ++
          ((270, [⟨20, 10⟩]) :: one_contact [(300, ⟨30, 10⟩)])))).det 330 []).log
            = calls ++ [Event.started EV_NONE] ∧
        calls.length ≤ 1 ∧
        ∀ e ∈ calls, ∃ cb i param dx dy,
          e = Event.drag cb (bor EV_DRAG EV_RELEASED) i param 10 10 dx dy :=
  release_after_slow_move idle_detector ⟨10, 10⟩ ⟨20, 10⟩ 10 10 20 10 30 270 330
    [100, 170, 240] [(300, ⟨30, 10⟩)] (by decide) (by decide) (by decide) (by decide)
    (by decide) (by decide)

/-- C6 as stated fails: with Tap, Drag and Swipe listeners over the region, a
contact that stays in place for 210 ms, moves and is released is dispatched on
release as `EV_DRAG | EV_RELEASED` to the Drag listener, not as a Swipe. -/
theorem slow_move_release_is_drag :
    slow_move_session.map Run.summary
        = some ⟨Status.running,
            [Event.started EV_TAP, Event.tap (some 1) EV_TAP 0 0 10 10,
              Event.started EV_DRAG, Event.drag (some 2) EV_DRAG 1 0 10 10 10 0],
            EV_DRAG, 1, 0⟩ ∧
      slow_move_released.map (fun r => r.log)
        = some [Event.drag (some 2) (bor EV_DRAG EV_RELEASED) 1 0 10 10 10 0,
            Event.started EV_NONE] := by
  decide

/-- C9 as stated fails: after `cancelEvent` on the listener of a drag in
progress, the poll that samples zero contacts stops in the `ASSERT` of
`call_cb`; it makes no callback and the tracked gesture keeps kind
`EV_DRAG | EV_RELEASED` and its listener index. -/
theorem cancel_mid_drag_hangs :
    drag_session.map Run.summary
        = some ⟨Status.running,
            [Event.started EV_TAP, Event.started EV_DRAG,
              Event.drag (some 1) EV_DRAG 0 0 10 10 10 0], EV_DRAG, 0, 0⟩ ∧
      cancelled_mid_drag.map Run.summary
        = some ⟨Status.assertFailed, [], bor EV_DRAG EV_RELEASED, 0, 0⟩ := by
  decide

/-- C10, amended, at a pinch resolved to a Pinch listener. -/
theorem poll_pinch_to_one_contact_witness :
    (poll pinch_detector 90 [⟨40, 100⟩]).status = Status.running ∧
      (poll pinch_detector 90 [⟨40, 100⟩]).det.track.type = EV_DRAG ∧
      (poll pinch_detector 90 [⟨40, 100⟩]).det.track.active_event = -1 ∧
      (poll pinch_detector 90 [⟨40, 100⟩]).det.track.hold_time = 0 ∧
      (poll pinch_detector 90 [⟨40, 100⟩]).det.track.cont0 = ⟨0, 40, 100, 0, 0⟩ ∧
      (∃ calls, (poll pinch_detector 90 [⟨40, 100⟩]).log = calls ++ [Event.started EV_DRAG] ∧
        calls.length ≤ 1 ∧
        ∀ e ∈ calls, ∃ cb i param rot wc,
          e = Event.pinch cb (bor EV_PINCH EV_RELEASED) i param
            ⟨pinch_detector.track.cont0, pinch_detector.track.cont1, rot, wc⟩) :=
  poll_pinch_to_one_contact pinch_detector 90 ⟨40, 100⟩ 40 100 (by decide) (by decide)
    (by decide) (by decide)

/-- C10 as stated fails: after `cancelEvent` on the listener of a pinch in
progress, the poll that samples one contact stops in the `ASSERT` of
`call_cb`; no callback is made and no Drag is started. -/
theorem cancel_mid_pinch_hangs :
    pinch_session.map (fun r => r.summary.type) = some EV_PINCH ∧
      pinch_session.map (fun r => r.summary.active_event) = some 0 ∧
      cancelled_mid_pinch.map Run.summary
        = some ⟨Status.assertFailed, [], bor EV_PINCH EV_RELEASED, 0, 30⟩ := by
  decide

/-! ## The constraint functions -/

theorem cabs_eq_natAbs (v : Int) : cabs v = (v.natAbs : Int) := by
  unfold cabs
  split_ifs <;> omega

theorem cabs_zero : cabs 0 = 0 := by
  decide

theorem cabs_eq_zero_iff (v : Int) : cabs v = 0 ↔ v = 0 := by
  unfold cabs
  split_ifs <;> omega

/-- The test `abs(a / b) > t` of the constraint functions, without the
division: the truncated quotient exceeds `t` exactly when `|a|` reaches
`(t + 1) * |b|`. -/
theorem quotient_gt_iff (a b t : Int) (hb : b ≠ 0) (ht : 0 ≤ t) :
    cabs (Int.tdiv a b) > t ↔ (t + 1) * cabs b ≤ cabs a := by
  rw [cabs_eq_natAbs, cabs_eq_natAbs, cabs_eq_natAbs, Int.natAbs_tdiv]
  obtain ⟨n, rfl⟩ := Int.eq_ofNat_of_zero_le ht
  have hpos : 0 < b.natAbs := Int.natAbs_pos.mpr hb
  have hdiv : a.natAbs.div b.natAbs = a.natAbs / b.natAbs := rfl
  rw [hdiv]
  have key : n + 1 ≤ a.natAbs / b.natAbs ↔ (n + 1) * b.natAbs ≤ a.natAbs :=
    Nat.le_div_iff_mul_le hpos
  constructor
  · intro h
    have h1 : n + 1 ≤ a.natAbs / b.natAbs := by omega
    have h2 := key.mp h1
    exact_mod_cast h2
  · intro h
    have h2 : (n + 1) * b.natAbs ≤ a.natAbs := by exact_mod_cast h
    have h1 := key.mpr h2
    omega

/-- A displacement along an axis reaches the last branch of
`check_constraints`, which accepts it for a listener without constraint
only. -/
theorem check_constraints_axis (event : RegEvent) (v : Int) (ht : 0 ≤ event.angle_tol) :
    check_constraints event 0 v = decide (event.constraint = CO_NONE) ∧
      check_constraints event v 0 = decide (event.constraint = CO_NONE) := by
  have h0 : ¬ (cabs 0 > event.angle_tol) := by rw [cabs_zero]; omega
  constructor
  · unfold check_constraints
    rw [if_neg (by rw [cabs_zero]; simp), Int.zero_tdiv, if_neg (fun h => h0 h.2)]
    by_cases hc : event.constraint = CO_NONE <;> simp [hc]
  · unfold check_constraints
    rw [Int.zero_tdiv, if_neg (fun h => h0 h.2), if_neg (by rw [cabs_zero]; simp)]
    by_cases hc : event.constraint = CO_NONE <;> simp [hc]

/-- C11, evaluated on the code: with a tolerance `angle_tol ≥ 0`, a listener
with a constraint (vertical-only or horizontal-only) has every displacement
`(0, v)` and every displacement `(v, 0)` rejected by `check_constraints`, the
allowed axis included. -/
theorem axis_movement_rejected (event : RegEvent) (v : Int) (ht : 0 ≤ event.angle_tol)
    (hc : event.constraint ≠ CO_NONE) :
    check_constraints event 0 v = false ∧ check_constraints event v 0 = false := by
  have h := check_constraints_axis event v ht
  rw [h.1, h.2]
  simp [hc]

/-- C11 at a vertical-only listener with tolerance 3 and the displacement
(0, 5). -/
theorem axis_movement_rejected_witness :
    check_constraints (constrained CO_VERT 3) 0 5 = false ∧
      check_constraints (constrained CO_VERT 3) 5 0 = false :=
  axis_movement_rejected (constrained CO_VERT 3) 5 (by decide) (by decide)

/-- A horizontal-only listener rejects the horizontal displacement (5, 0). -/
theorem horizontal_axis_rejected :
    check_constraints (constrained CO_HORIZ 3) 5 0 = false := by
  decide

/-- Through the public interface: a vertical-only Drag listener gets no call
for a drag from (10,10) to (10,40), and is called for the drag from (10,10)
to (11,40). -/
theorem vertical_drag_not_dispatched :
    vertical_drag_session.map (fun r => (r.log, r.status))
        = some ([Event.started EV_TAP, Event.started EV_DRAG], Status.running) ∧
      near_vertical_drag_session.map (fun r => (r.log, r.status))
        = some ([Event.started EV_TAP, Event.started EV_DRAG,
            Event.drag (some 1) EV_DRAG 0 0 10 10 0 30], Status.running) := by
  decide

/-- The sibling `enforce_constraints` takes a displacement with `dx = 0` as
vertical. -/
theorem enforce_constraints_zero_dx (event : RegEvent) (dy : Int)
    (hc : event.constraint = CO_NONE) :
    enforce_constraints event 0 dy = (CO_VERT, 0, dy) := by
  unfold enforce_constraints
  rw [hc, if_neg (by decide), if_neg (by decide), if_pos (Or.inl cabs_zero)]

/-- The five outcomes of `enforce_constraints`. -/
theorem enforce_constraints_cases (event : RegEvent) (dx dy : Int) :
    enforce_constraints event dx dy = (CO_VERT, 0, dy) ∨
      (enforce_constraints event dx dy = (CO_HORIZ, dx, 0) ∧
        (event.constraint = CO_HORIZ ∨ (event.constraint ≠ CO_VERT ∧ dx ≠ 0))) ∨
      (enforce_constraints event dx dy = (CO_NONE, dx, dy) ∧
        event.constraint ≠ CO_VERT ∧ event.constraint ≠ CO_HORIZ ∧
        ¬ (cabs dx = 0 ∨ cabs (Int.tdiv dy dx) > event.angle_tol) ∧
        ¬ (cabs dy = 0 ∨ cabs (Int.tdiv dx dy) > event.angle_tol)) := by
  unfold enforce_constraints
  split_ifs with h1 h2 h3 h4
  · exact Or.inl rfl
  · exact Or.inr (Or.inl ⟨rfl, Or.inl h2⟩)
  · exact Or.inl rfl
  · refine Or.inr (Or.inl ⟨rfl, Or.inr ⟨h1, ?_⟩⟩)
    intro hdx
    exact h3 (Or.inl ((cabs_eq_zero_iff dx).mpr hdx))
  · exact Or.inr (Or.inr ⟨rfl, h1, h2, h3, h4⟩)

/-- C12. `enforce_constraints` is idempotent: for every listener with
`angle_tol ≥ 0` (whatever its constraint) and every displacement, applying it
again to the displacement it returned gives the same displacement and the
same constraint. -/
theorem enforce_constraints_idempotent (event : RegEvent) (dx dy : Int)
    (ht : 0 ≤ event.angle_tol) :
    enforce_constraints event (enforce_constraints event dx dy).2.1
        (enforce_constraints event dx dy).2.2 = enforce_constraints event dx dy := by
  have h0 : ¬ (cabs 0 > event.angle_tol) := by rw [cabs_zero]; omega
  rcases enforce_constraints_cases event dx dy with h | ⟨h, hc⟩ | ⟨h, -⟩
  · rw [h]
    show enforce_constraints event 0 dy = (CO_VERT, 0, dy)
    by_cases h1 : event.constraint = CO_VERT
    · rw [enforce_constraints, if_pos h1]
    · by_cases h2 : event.constraint = CO_HORIZ
      · rw [enforce_constraints, if_neg h1, if_pos h2] at h
        have hf := congrArg Prod.fst h
        simp at hf
      · rw [enforce_constraints, if_neg h1, if_neg h2, if_pos (Or.inl cabs_zero)]
  · rw [h]
    show enforce_constraints event dx 0 = (CO_HORIZ, dx, 0)
    unfold enforce_constraints
    rcases hc with hc | ⟨hv, hdx⟩
    · rw [hc, if_neg (by decide), if_pos rfl]
    · rw [if_neg hv]
      split_ifs with h2 h3
      · rfl
      · rcases h3 with h3 | h3
        · exact absurd ((cabs_eq_zero_iff dx).mp h3) hdx
        · rw [Int.zero_tdiv] at h3
          exact absurd h3 h0
      · rfl
      · rename_i h4
        exact absurd (Or.inl cabs_zero) h4
  · rw [h]
    exact h

/-- C12 at a listener without constraint, tolerance 3 and the displacement
(7, 1), which is snapped to (7, 0). -/
theorem enforce_constraints_idempotent_witness :
    enforce_constraints (constrained CO_NONE 3)
        (enforce_constraints (constrained CO_NONE 3) 7 1).2.1
        (enforce_constraints (constrained CO_NONE 3) 7 1).2.2
      = enforce_constraints (constrained CO_NONE 3) 7 1 :=
  enforce_constraints_idempotent (constrained CO_NONE 3) 7 1 (by decide)

/-- The displacement (7, 1) of the example is snapped to the horizontal
axis. -/
theorem enforce_constraints_example :
    enforce_constraints (constrained CO_NONE 3) 7 1 = (CO_HORIZ, 7, 0) := by
  decide

/-- A negative tolerance breaks idempotence: with tolerance -1 the
displacement (7, 1) goes to (7, 0) horizontal, and (7, 0) goes to (0, 0)
vertical. -/
theorem enforce_constraints_negative_tol :
    enforce_constraints (constrained CO_HORIZ (-1)) 7 1 = (CO_HORIZ, 7, 0) ∧
      enforce_constraints (constrained CO_NONE (-1)) 7 0 = (CO_VERT, 0, 0) := by
  decide

/-- C13 as stated fails: with tolerance 3 the displacement (2, 7) has
`|dy| > 3 * |dx|` and the displacement (7, 2) has `|dx| > 3 * |dy|`, yet
`enforce_constraints` snaps neither, because `7 / 2` is 3 in integer
division. -/
theorem snapping_misses_steep_moves :
    (constrained CO_NONE 3).constraint = CO_NONE ∧ (0 : Int) ≤ (constrained CO_NONE 3).angle_tol ∧
      ((2 : Int) ≠ 0 ∧ cabs 7 > (constrained CO_NONE 3).angle_tol * cabs 2) ∧
      enforce_constraints (constrained CO_NONE 3) 2 7 = (CO_NONE, 2, 7) ∧
      ¬ ((7 : Int) ≠ 0 ∧ cabs 2 > (constrained CO_NONE 3).angle_tol * cabs 7) ∧
      ((2 : Int) ≠ 0 ∧ cabs 7 > (constrained CO_NONE 3).angle_tol * cabs 2) ∧
      enforce_constraints (constrained CO_NONE 3) 7 2 = (CO_NONE, 7, 2) := by
  decide

/-- C13, amended. Snapping follows the truncated integer quotient: for a
listener without constraint and with `angle_tol ≥ 0`, a displacement with
`dx ≠ 0` and `|dy| ≥ (angle_tol + 1) * |dx|` (that is `|dy / dx| > angle_tol`
in integer division) is returned as vertical-only with `new_dx = 0` and
`new_dy = dy`; when that does not apply, `dy ≠ 0` and
`|dx| ≥ (angle_tol + 1) * |dy|` give horizontal-only with `new_dy = 0` and
`new_dx = dx`. -/
theorem enforce_snaps_by_quotient (event : RegEvent) (dx dy : Int)
    (hc : event.constraint = CO_NONE) (ht : 0 ≤ event.angle_tol) :
    (dx ≠ 0 → (event.angle_tol + 1) * cabs dx ≤ cabs dy →
        enforce_constraints event dx dy = (CO_VERT, 0, dy)) ∧
      (¬ (dx ≠ 0 ∧ (event.angle_tol + 1) * cabs dx ≤ cabs dy) → dy ≠ 0 →
        (event.angle_tol + 1) * cabs dy ≤ cabs dx →
        enforce_constraints event dx dy = (CO_HORIZ, dx, 0)) := by
  have hv : ¬ (event.constraint = CO_VERT) := by rw [hc]; decide
  have hh : ¬ (event.constraint = CO_HORIZ) := by rw [hc]; decide
  constructor
  · intro hdx hq
    unfold enforce_constraints
    rw [if_neg hv, if_neg hh,
      if_pos (Or.inr ((quotient_gt_iff dy dx event.angle_tol hdx ht).mpr hq))]
  · intro hn hdy hq
    have hdx : dx ≠ 0 := by
      intro h0
      rw [h0, cabs_zero] at hq
      have h1 : 0 < cabs dy := by
        have := cabs_eq_zero_iff dy
        have h2 : 0 ≤ cabs dy := by rw [cabs_eq_natAbs]; omega
        omega
      nlinarith
    have hq1 : ¬ (cabs (Int.tdiv dy dx) > event.angle_tol) := by
      intro h
      exact hn ⟨hdx, (quotient_gt_iff dy dx event.angle_tol hdx ht).mp h⟩
    have h3 : ¬ (cabs dx = 0 ∨ cabs (Int.tdiv dy dx) > event.angle_tol) := by
      rintro (h | h)
      · exact hdx ((cabs_eq_zero_iff dx).mp h)
      · exact hq1 h
    unfold enforce_constraints
    rw [if_neg hv, if_neg hh, if_neg h3,
      if_pos (Or.inr ((quotient_gt_iff dx dy event.angle_tol hdy ht).mpr hq))]

/-- C13, amended, at tolerance 3: the displacement (1, 4) is snapped to the
vertical axis and the displacement (4, 1) to the horizontal axis. -/
theorem enforce_snaps_by_quotient_witness :
    enforce_constraints (constrained CO_NONE 3) 1 4 = (CO_VERT, 0, 4) ∧
      enforce_constraints (constrained CO_NONE 3) 4 1 = (CO_HORIZ, 4, 0) :=
  ⟨(enforce_snaps_by_quotient (constrained CO_NONE 3) 1 4 rfl (by decide)).1
      (by decide) (by decide),
    (enforce_snaps_by_quotient (constrained CO_NONE 3) 4 1 rfl (by decide)).2
      (by decide) (by decide) (by decide)⟩

/-- Without constraint and with `angle_tol ≥ 0`, `enforce_constraints` leaves
a displacement as it is exactly when both components are non-zero and neither
reaches `(angle_tol + 1)` times the other. -/
theorem enforce_keeps_iff (event : RegEvent) (dx dy : Int)
    (hc : event.constraint = CO_NONE) (ht : 0 ≤ event.angle_tol) :
    (enforce_constraints event dx dy).1 = CO_NONE ↔
      dx ≠ 0 ∧ dy ≠ 0 ∧ cabs dy < (event.angle_tol + 1) * cabs dx ∧
        cabs dx < (event.angle_tol + 1) * cabs dy := by
  have hv : ¬ (event.constraint = CO_VERT) := by rw [hc]; decide
  have hh : ¬ (event.constraint = CO_HORIZ) := by rw [hc]; decide
  unfold enforce_constraints
  rw [if_neg hv, if_neg hh]
  by_cases hdx : dx = 0
  · rw [if_pos (Or.inl ((cabs_eq_zero_iff dx).mpr hdx))]
    constructor
    · intro h; exact absurd (show CO_VERT = CO_NONE from h) (by decide)
    · intro h; exact absurd hdx h.1
  · by_cases hdy : dy = 0
    · have hq : ¬ (cabs (Int.tdiv dy dx) > event.angle_tol) := by
        rw [hdy, Int.zero_tdiv, cabs_zero]; omega
      have h3 : ¬ (cabs dx = 0 ∨ cabs (Int.tdiv dy dx) > event.angle_tol) := by
        rintro (h | h)
        · exact hdx ((cabs_eq_zero_iff dx).mp h)
        · exact hq h
      rw [if_neg h3, if_pos (Or.inl ((cabs_eq_zero_iff dy).mpr hdy))]
      constructor
      · intro h; exact absurd (show CO_HORIZ = CO_NONE from h) (by decide)
      · intro h; exact absurd hdy h.2.1
    · have e1 := quotient_gt_iff dy dx event.angle_tol hdx ht
      have e2 := quotient_gt_iff dx dy event.angle_tol hdy ht
      have z1 := cabs_eq_zero_iff dx
      have z2 := cabs_eq_zero_iff dy
      split_ifs with h3 h4
      · constructor
        · intro h; exact h.elim
        · intro h
          rcases h3 with h3 | h3
          · exact absurd (z1.mp h3) hdx
          · have := e1.mp h3
            omega
      · constructor
        · intro h; exact h.elim
        · intro h
          rcases h4 with h4 | h4
          · exact absurd (z2.mp h4) hdy
          · have := e2.mp h4
            omega
      · constructor
        · intro _
          refine ⟨hdx, hdy, ?_, ?_⟩
          · by_contra hlt
            exact h3 (Or.inr (e1.mpr (by omega)))
          · by_contra hlt
            exact h4 (Or.inr (e2.mpr (by omega)))
        · intro _; rfl

/-! ## The pinch solvers -/

/-- The two-scale solver returns a result exactly when the quotients it
computes have non-zero denominators. -/
theorem pinch_plain_some (K : Type) [LinearOrderedField K] [FloorRing K] (g : PinchInput)
    (hx : g.working_co ≠ CO_VERT → g.c0.init_x ≠ g.c1.init_x)
    (hy : g.working_co ≠ CO_HORIZ → g.c0.init_y ≠ g.c1.init_y) :
    ∃ sx sy : K, MIN_SCALE K ≤ sx ∧ MIN_SCALE K ≤ sy ∧
      pinch_plain K g
        = some ⟨ctrunc (((g.c0.init_x + g.c0.dx : Int) : K) - sx * (g.c0.init_x : K)),
            ctrunc (((g.c0.init_y + g.c0.dy : Int) : K) - sy * (g.c0.init_y : K)), sx, sy⟩ := by
  have hn : ¬ ((g.working_co ≠ CO_VERT ∧ g.c0.init_x - g.c1.init_x = 0) ∨
      (g.working_co ≠ CO_HORIZ ∧ g.c0.init_y - g.c1.init_y = 0)) := by
    rintro (⟨h1, h2⟩ | ⟨h1, h2⟩)
    · exact hx h1 (by omega)
    · exact hy h1 (by omega)
  unfold pinch_plain
  simp only []
  rw [if_neg hn]
  refine ⟨_, _, ?_, ?_, rfl⟩
  · split_ifs <;> first | exact le_refl _ | exact le_of_not_lt (by assumption)
  · split_ifs <;> first | exact le_refl _ | exact le_of_not_lt (by assumption)

theorem pinch_plain_spread :
    pinch_plain ℚ spread_input = some ⟨-30, 0, 6 / 5, 1⟩ := by
  simp [pinch_plain, spread_input, MIN_SCALE, ctrunc]
  norm_num

theorem pinch_plain_uneven :
    pinch_plain ℚ uneven_input = some ⟨-30, 0, 6 / 5, 1⟩ := by
  simp [pinch_plain, uneven_input, MIN_SCALE, ctrunc]
  norm_num

theorem spread_session_log :
    spread_session.map (fun r => (r.log, r.status))
      = some ([Event.started EV_PINCH, Event.pinch (some 1) EV_PINCH 0 0 spread_input],
          Status.running) := by
  decide

theorem uneven_session_log :
    uneven_session.map (fun r => (r.log, r.status))
      = some ([Event.started EV_PINCH, Event.pinch (some 1) EV_PINCH 0 0 uneven_input],
          Status.running) := by
  decide
/-- C14 as stated fails: in the example the call is made with `sx = 1.2`,
which is more than 0.01 away from 1.1818, and with `sy = 1`, which is not the
minimum scale 0.1. -/
theorem spread_scales_not_as_stated :
    spread_session.map (fun r => r.log.filterMap Event.pinch_input) = some [spread_input] ∧
      ∃ a, pinch_args ℚ root_at_10000 spread_input = some a ∧
        1 / 100 < |a.sx - 11818 / 10000| ∧ a.sy ≠ MIN_SCALE ℚ := by
  refine ⟨by decide, ⟨-30, 0, 6 / 5, 1⟩, ?_, ?_, ?_⟩
  · rw [pinch_args, if_neg (by decide)]
    exact pinch_plain_spread
  · show (1 : ℚ) / 100 < |6 / 5 - 11818 / 10000|
    rw [abs_of_nonneg (by norm_num)]
    norm_num
  · show (1 : ℚ) ≠ MIN_SCALE ℚ
    unfold MIN_SCALE
    norm_num

/-- C14, amended. In the example (non-rotatable Pinch listener, no constraint,
tolerance 3, contacts from (100,100) and (200,100) to (90,100) and (210,100))
the working constraint found at the start of the pinch is horizontal-only, and
the one call of the callback has `sx = 1.2`, `sy = 1`, `dx = -30`, `dy = 0`,
which maps the initial point (100,100) of contact 0 to its current point
(90,100). -/
theorem spread_example :
    spread_session.map (fun r => (r.log, r.status))
        = some ([Event.started EV_PINCH, Event.pinch (some 1) EV_PINCH 0 0 spread_input],
            Status.running) ∧
      spread_input.working_co = CO_HORIZ ∧
      pinch_args ℚ root_at_10000 spread_input = some ⟨-30, 0, 6 / 5, 1⟩ ∧
      (6 / 5 : ℚ) * 100 + ((-30 : Int) : ℚ) = 90 ∧ (1 : ℚ) * 100 + ((0 : Int) : ℚ) = 100 := by
  refine ⟨spread_session_log, rfl, ?_, by norm_num, by norm_num⟩
  rw [pinch_args, if_neg (by decide)]
  exact pinch_plain_spread

/-- The rotating solver at a current separation of the same length as the
initial one `(a, b)`: the scale is 1, and `sx`, `sy` are the dot and the perp
product of the two separations over `a * a + b * b`. -/
theorem pinch_rotated_same_length (K : Type) [LinearOrderedField K] [FloorRing K]
    (root : K → K) (g : PinchInput) (a b u v : Int) (hab : a ≠ 0 ∨ b ≠ 0)
    (hroot : root ((a * a + b * b : Int) : K) * root ((a * a + b * b : Int) : K)
      = ((a * a + b * b : Int) : K))
    (hx : g.c1.init_x - g.c0.init_x = a) (hy : g.c1.init_y - g.c0.init_y = b)
    (hu : (g.c1.init_x + g.c1.dx) - (g.c0.init_x + g.c0.dx) = u)
    (hv : (g.c1.init_y + g.c1.dy) - (g.c0.init_y + g.c0.dy) = v)
    (hlen : u * u + v * v = a * a + b * b) :
    ∃ args, pinch_rotated K root g = some args ∧
      args.sx * ((a * a + b * b : Int) : K) = ((a * u + b * v : Int) : K) ∧
      args.sy * ((a * a + b * b : Int) : K) = ((a * v - b * u : Int) : K) := by
  have hpos : (0 : Int) < a * a + b * b := by
    rcases hab with h | h
    · have := mul_self_pos.mpr h
      nlinarith [mul_self_nonneg b]
    · have := mul_self_pos.mpr h
      nlinarith [mul_self_nonneg a]
  have hN : ((a * a + b * b : Int) : K) ≠ 0 := by
    exact_mod_cast (ne_of_gt hpos)
  have hL : root ((a * a + b * b : Int) : K) ≠ 0 := by
    intro h0
    rw [h0, mul_zero] at hroot
    exact hN hroot.symm
  have hlen0 : length root g.c0.init_x g.c1.init_x g.c0.init_y g.c1.init_y
      = root ((a * a + b * b : Int) : K) := by
    unfold length
    rw [hx, hy]
  have hlen1 : length root (g.c0.init_x + g.c0.dx) (g.c1.init_x + g.c1.dx)
      (g.c0.init_y + g.c0.dy) (g.c1.init_y + g.c1.dy) = root ((a * a + b * b : Int) : K) := by
    unfold length
    rw [hu, hv, hlen]
  have hmin : ¬ ((1 : K) < MIN_SCALE K) := by
    unfold MIN_SCALE
    norm_num
  unfold pinch_rotated
  simp only [hlen0, hlen1, hx, hy, hu, hv]
  generalize root ((a * a + b * b : Int) : K) = L at hroot hL ⊢
  have hLL : ¬ (L = 0 ∨ L = 0) := fun h => h.elim hL hL
  rw [if_neg hLL, div_self hL, if_neg hmin]
  refine ⟨_, rfl, ?_, ?_⟩
  · show (((dot a u b v : Int) : K) / L / L) * 1 * ((a * a + b * b : Int) : K) = _
    rw [← hroot]
    unfold dot
    field_simp
  · show (((perp a u b v : Int) : K) / L / L) * 1 * ((a * a + b * b : Int) : K) = _
    rw [← hroot]
    have e : perp a u b v = a * v - b * u := by unfold perp; ring
    rw [e]
    field_simp

/-- A quarter turn of a rotatable pinch, in any ordered field: whenever the
square root is exact at the squared length of the non-zero initial separation
`(a, b)`, a current separation `(-b, a)` gives `sx = 0` and `sy = 1`, and a
current separation `(b, -a)` gives `sx = 0` and `sy = -1`. -/
theorem quarter_turn_exact_root (K : Type) [LinearOrderedField K] [FloorRing K]
    (root : K → K) (g : PinchInput) (a b : Int) (hrot : g.rotatable = true)
    (hab : a ≠ 0 ∨ b ≠ 0)
    (hroot : root ((a * a + b * b : Int) : K) * root ((a * a + b * b : Int) : K)
      = ((a * a + b * b : Int) : K))
    (hx : g.c1.init_x - g.c0.init_x = a) (hy : g.c1.init_y - g.c0.init_y = b) :
    ((g.c1.init_x + g.c1.dx) - (g.c0.init_x + g.c0.dx) = -b →
      (g.c1.init_y + g.c1.dy) - (g.c0.init_y + g.c0.dy) = a →
      ∃ args, pinch_args K root g = some args ∧ args.sx = 0 ∧ args.sy = 1) ∧
    ((g.c1.init_x + g.c1.dx) - (g.c0.init_x + g.c0.dx) = b →
      (g.c1.init_y + g.c1.dy) - (g.c0.init_y + g.c0.dy) = -a →
      ∃ args, pinch_args K root g = some args ∧ args.sx = 0 ∧ args.sy = -1) := by
  have hpos : (0 : Int) < a * a + b * b := by
    rcases hab with h | h
    · have := mul_self_pos.mpr h
      nlinarith [mul_self_nonneg b]
    · have := mul_self_pos.mpr h
      nlinarith [mul_self_nonneg a]
  have hN : ((a * a + b * b : Int) : K) ≠ 0 := by
    exact_mod_cast (ne_of_gt hpos)
  constructor
  · intro hu hv
    obtain ⟨args, h, h1, h2⟩ := pinch_rotated_same_length K root g a b (-b) a hab hroot
      hx hy hu hv (by ring)
    refine ⟨args, by rw [pinch_args, if_pos hrot]; exact h, ?_, ?_⟩
    · have e : (a * -b + b * a : Int) = 0 := by ring
      rw [e, Int.cast_zero] at h1
      exact (mul_eq_zero.mp h1).resolve_right hN
    · have e : (a * a - b * -b : Int) = a * a + b * b := by ring
      rw [e] at h2
      exact mul_right_cancel₀ hN (by rw [h2, one_mul])
  · intro hu hv
    obtain ⟨args, h, h1, h2⟩ := pinch_rotated_same_length K root g a b b (-a) hab hroot
      hx hy hu hv (by ring)
    refine ⟨args, by rw [pinch_args, if_pos hrot]; exact h, ?_, ?_⟩
    · have e : (a * b + b * -a : Int) = 0 := by ring
      rw [e, Int.cast_zero] at h1
      exact (mul_eq_zero.mp h1).resolve_right hN
    · have e : (a * -a - b * b : Int) = -(a * a + b * b) := by ring
      rw [e] at h2
      refine mul_right_cancel₀ hN ?_
      rw [h2]
      push_cast
      ring

/-- The same quarter turn over the rationals, where the square root of 10000
is exact. -/
theorem quarter_turn_rational :
    ∃ args, pinch_args ℚ root_at_10000 quarter_turn_input = some args ∧
      args.sx = 0 ∧ args.sy = 1 :=
  (quarter_turn_exact_root ℚ root_at_10000 quarter_turn_input 100 0 rfl (by decide)
    (by simp [root_at_10000]; norm_num) (by decide) (by decide)).1 (by decide) (by decide)

/-- The call of the example in full: `dx = 250`, `dy = -50`, `sx = 0`,
`sy = 1`. -/
theorem quarter_turn_example :
    pinch_args ℚ root_at_10000 quarter_turn_input = some ⟨250, -50, 0, 1⟩ := by
  simp [pinch_args, pinch_rotated, quarter_turn_input, length, dot, perp, root_at_10000,
    MIN_SCALE, ctrunc]
  norm_num

/-! ## Registration (`fill_event`) -/

theorem copy_points_length (reg rc : List Point) (n : Nat) :
    (copy_points reg rc n).length = MAX_POINTS := by
  unfold copy_points
  simp

theorem copy_points_getD (reg rc : List Point) (n j : Nat) (hj : j < MAX_POINTS) :
    (copy_points reg rc n).getD j default
      = if j < n then rc.getD j default else reg.getD j default := by
  unfold copy_points
  rw [List.getD_eq_getElem?_getD, List.getElem?_map, List.getElem?_range hj]
  rfl

/-- The store `reg[n] = reg[0]` read back. -/
theorem getD_set_closing (reg : List Point) (n j : Nat) (hn : n < reg.length) :
    (reg.set n (reg.getD 0 default)).getD j default
      = if j = n then reg.getD 0 default else reg.getD j default := by
  by_cases hj : j = n
  · subst hj
    simp [List.getD_eq_getElem?_getD, List.getElem?_set, hn]
  · have hj2 : ¬ (n = j) := fun h => hj h.symm
    simp [List.getD_eq_getElem?_getD, List.getElem?_set, hj, hj2]

theorem fill_event_high_index (d : Detector) (ev : EventType) (rc : List Point) (nPts : Int)
    (tapCB dragCB pinchCB : Callback) (indx : Int) (param : Nat) (rotatable : Bool)
    (constraint : Constraint) (angle_tol : Int) (hi : (MAX_EVENTS : Int) ≤ indx) :
    fill_event d ev rc nPts tapCB dragCB pinchCB indx param rotatable constraint angle_tol
      = some d := by
  unfold fill_event
  rw [if_pos hi]

theorem fill_event_negative_index (d : Detector) (ev : EventType) (rc : List Point)
    (nPts : Int) (tapCB dragCB pinchCB : Callback) (indx : Int) (param : Nat)
    (rotatable : Bool) (constraint : Constraint) (angle_tol : Int) (hi : indx < 0) :
    fill_event d ev rc nPts tapCB dragCB pinchCB indx param rotatable constraint angle_tol
      = none := by
  unfold fill_event
  have h20 : (MAX_EVENTS : Int) = 20 := rfl
  rw [if_neg (by omega), if_pos hi]

theorem fill_event_full (d : Detector) (ev : EventType) (rc : List Point) (nPts : Int)
    (tapCB dragCB pinchCB : Callback) (indx : Int) (param : Nat) (rotatable : Bool)
    (constraint : Constraint) (angle_tol : Int)
    (hlo : 0 ≤ indx) (hhi : indx < (MAX_EVENTS : Int)) (hn : (MAX_POINTS : Int) ≤ nPts) :
    fill_event d ev rc nPts tapCB dragCB pinchCB indx param rotatable constraint angle_tol
      = none := by
  have h16 : (MAX_POINTS : Int) = 16 := rfl
  unfold fill_event
  rw [if_neg (by omega), if_neg (by omega)]
  simp only []
  have hnn : (if nPts > (MAX_POINTS : Int) then (MAX_POINTS : Int) else nPts) = 16 := by
    split_ifs <;> omega
  simp only [hnn]
  rw [if_neg (by decide), if_pos (by decide)]

/-- A registration of fewer than `MAX_POINTS` vertices at a slot of the
table: the detector it leaves. -/
theorem fill_event_fits (d : Detector) (ev : EventType) (rc : List Point) (nPts : Int)
    (tapCB dragCB pinchCB : Callback) (indx : Int) (param : Nat) (rotatable : Bool)
    (constraint : Constraint) (angle_tol : Int)
    (hlo : 0 ≤ indx) (hhi : indx < (MAX_EVENTS : Int))
    (h0 : 0 ≤ nPts) (hn : nPts < (MAX_POINTS : Int)) :
    ∃ d1, fill_event d ev rc nPts tapCB dragCB pinchCB indx param rotatable constraint
        angle_tol = some d1 ∧
      d1.rotation = d.rotation ∧ d1.last_polled = d.last_polled ∧ d1.track = d.track ∧
      (∀ j, j ≠ indx.toNat → d1.events j = d.events j) ∧
      (d1.events indx.toNat).type = ev ∧ (d1.events indx.toNat).param = param ∧
      (d1.events indx.toNat).nPts = nPts ∧
      (d1.events indx.toNat).tapCallback = tapCB ∧
      (d1.events indx.toNat).dragCallback = dragCB ∧
      (d1.events indx.toNat).pinchCallback = pinchCB ∧
      (d1.events indx.toNat).constraint = constraint ∧
      (d1.events indx.toNat).angle_tol = angle_tol ∧
      (d1.events indx.toNat).rotatable = rotatable ∧
      (∀ j : Nat, (j : Int) < nPts →
        (d1.events indx.toNat).reg.getD j default = rc.getD j default) ∧
      (1 ≤ nPts →
        (d1.events indx.toNat).reg.getD nPts.toNat default = rc.getD 0 default) ∧
      (1 ≤ nPts → (d1.events indx.toNat).reg.length = MAX_POINTS) := by
  have h16 : (MAX_POINTS : Int) = 16 := rfl
  have h16n : MAX_POINTS = 16 := rfl
  have hgt : ¬ (nPts > (MAX_POINTS : Int)) := by omega
  have hneg : ¬ (nPts < 0) := by omega
  have hfit : ¬ (nPts.toNat ≥ MAX_POINTS) := by omega
  unfold fill_event
  rw [if_neg (by omega), if_neg (by omega)]
  simp only [if_neg hgt, if_neg hneg, if_neg hfit]
  refine ⟨_, rfl, rfl, rfl, rfl, ?_, ?_⟩
  · intro j hj
    simp only [if_neg hj]
  · simp only [if_true, true_and]
    refine ⟨?_, ?_, ?_⟩
    · intro j hj
      have hne : nPts ≠ 0 := by omega
      rw [if_pos hne, getD_set_closing _ _ _ (by rw [copy_points_length]; omega),
        if_neg (by omega), copy_points_getD _ _ _ _ (by omega), if_pos (by omega)]
    · intro h1
      have hne : nPts ≠ 0 := by omega
      rw [if_pos hne, getD_set_closing _ _ _ (by rw [copy_points_length]; omega),
        if_pos rfl, copy_points_getD _ _ _ _ (by omega), if_pos (by omega)]
    · intro h1
      have hne : nPts ≠ 0 := by omega
      rw [if_pos hne, List.length_set, copy_points_length]

/-- C17, evaluated on the code: a registration at an index `≥ MAX_EVENTS`
returns with the detector (and so the whole listener table) unchanged, while a
registration at a negative index is not ignored: it passes the only guard,
`indx >= MAX_EVENTS`, and stores outside the table. -/
theorem out_of_range_registration (d : Detector) (ev : EventType) (rc : List Point)
    (nPts : Int) (tapCB dragCB pinchCB : Callback) (indx : Int) (param : Nat)
    (rotatable : Bool) (constraint : Constraint) (angle_tol : Int) :
    ((MAX_EVENTS : Int) ≤ indx →
      fill_event d ev rc nPts tapCB dragCB pinchCB indx param rotatable constraint angle_tol
        = some d) ∧
    (indx < 0 →
      fill_event d ev rc nPts tapCB dragCB pinchCB indx param rotatable constraint angle_tol
        = none) :=
  ⟨fill_event_high_index d ev rc nPts tapCB dragCB pinchCB indx param rotatable constraint
      angle_tol,
    fill_event_negative_index d ev rc nPts tapCB dragCB pinchCB indx param rotatable
      constraint angle_tol⟩

/-- C17 at `onTap` of the square (0,0)-(10,10) with index `MAX_EVENTS` and with
index -1. -/
theorem out_of_range_registration_witness :
    onTap_rect zero_detector 0 0 10 10 (some 1) 20 0 = some zero_detector ∧
      onTap_rect zero_detector 0 0 10 10 (some 1) (-1) 0 = none :=
  ⟨(out_of_range_registration zero_detector EV_TAP (fill_rect_region 0 0 10 10).2
      (fill_rect_region 0 0 10 10).1 (some 1) none none 20 0 false CO_NONE 5).1 (by decide),
    (out_of_range_registration zero_detector EV_TAP (fill_rect_region 0 0 10 10).2
      (fill_rect_region 0 0 10 10).1 (some 1) none none (-1) 0 false CO_NONE 5).2
      (by decide)⟩

/-- C18, evaluated on the code: at a slot of the table, a registration of
`1 ≤ nPts < MAX_POINTS` vertices stores `nPts`, the supplied vertices and
the closing vertex `reg[nPts] = reg[0]` inside the `MAX_POINTS` elements of
the region, while for `nPts ≥ MAX_POINTS` the count is cut to `MAX_POINTS` and
the closing store `reg[MAX_POINTS] = reg[0]` is outside the region's array. -/
theorem closing_vertex_storage (d : Detector) (ev : EventType) (rc : List Point)
    (nPts : Int) (tapCB dragCB pinchCB : Callback) (indx : Int) (param : Nat)
    (rotatable : Bool) (constraint : Constraint) (angle_tol : Int)
    (hlo : 0 ≤ indx) (hhi : indx < (MAX_EVENTS : Int)) (h1 : 1 ≤ nPts) :
    (nPts < (MAX_POINTS : Int) →
      ∃ d1, fill_event d ev rc nPts tapCB dragCB pinchCB indx param rotatable constraint
          angle_tol = some d1 ∧
        (d1.events indx.toNat).nPts = nPts ∧
        (∀ j : Nat, (j : Int) < nPts →
          (d1.events indx.toNat).reg.getD j default = rc.getD j default) ∧
        (d1.events indx.toNat).reg.getD nPts.toNat default
          = (d1.events indx.toNat).reg.getD 0 default ∧
        nPts.toNat < (d1.events indx.toNat).reg.length ∧
        (d1.events indx.toNat).reg.length = MAX_POINTS) ∧
    ((MAX_POINTS : Int) ≤ nPts →
      fill_event d ev rc nPts tapCB dragCB pinchCB indx param rotatable constraint angle_tol
        = none) := by
  constructor
  · intro hn
    obtain ⟨d1, h, -, -, -, -, -, -, hp, -, -, -, -, -, -, hv, hc, hl⟩ :=
      fill_event_fits d ev rc nPts tapCB dragCB pinchCB indx param rotatable constraint
        angle_tol hlo hhi (by omega) hn
    have h16 : (MAX_POINTS : Int) = 16 := rfl
    have h16n : MAX_POINTS = 16 := rfl
    refine ⟨d1, h, hp, hv, ?_, ?_, hl h1⟩
    · rw [hc h1, hv 0 (by omega)]
    · rw [hl h1]
      omega
  · exact fill_event_full d ev rc nPts tapCB dragCB pinchCB indx param rotatable constraint
      angle_tol hlo hhi

/-- C18 at `onTap` of a polygon of `MAX_POINTS` vertices in slot 0. -/
theorem closing_vertex_storage_witness :
    onTap zero_detector hexadecagon 16 (some 1) 0 0 = none :=
  (closing_vertex_storage zero_detector EV_TAP hexadecagon 16 (some 1) none none 0 0 false
    CO_NONE 5 (by decide) (by decide) (by decide)).2 (by decide)

/-- The polygon of the example has `MAX_POINTS` vertices. -/
theorem hexadecagon_length : (hexadecagon.length : Int) = (MAX_POINTS : Int) := by
  decide

/-- Through the public interface: after `begin()` and a Tap listener in slot
2, the registration of a Drag listener with a polygon of `MAX_POINTS` vertices
in slot 5 stores its closing vertex outside the region's array, while one
with 15 vertices is registered. -/
theorem full_polygon_registration :
    ((onTap_rect (begin zero_detector) 0 0 10 10 (some 1) 2 0).bind
      (fun d => onDrag d hexadecagon 16 (some 2) 5 0 CO_NONE 3)).isNone = true ∧
    ((onTap_rect (begin zero_detector) 0 0 10 10 (some 1) 2 0).bind
      (fun d => onDrag d (hexadecagon.take 15) 15 (some 2) 5 0 CO_NONE 3)).isSome = true := by
  decide

/-- C20. Zero-area rectangles and zero-point regions match everywhere: when
`w = 0` or `h = 0`, `fill_rect_region` yields a region of zero points, and
for a listener whose region has zero points `in_region` is true of every
point. -/
theorem zero_area_matches_everywhere (x y w h : Int) (event : RegEvent) (px py : Int) :
    (w = 0 ∨ h = 0 → (fill_rect_region x y w h).1 = 0) ∧
      (event.nPts = 0 → in_region event px py = true) := by
  constructor
  · intro hz
    unfold fill_rect_region
    rw [if_pos hz]
  · intro hz
    unfold in_region
    rw [if_pos hz]

/-- C20 at the rectangle (5, 5, 0, 10) and at an empty slot probed at
(123, -7). -/
theorem zero_area_matches_everywhere_witness :
    (fill_rect_region 5 5 0 10).1 = 0 ∧ in_region zero_slot 123 (-7) = true :=
  ⟨(zero_area_matches_everywhere 5 5 0 10 zero_slot 123 (-7)).1 (Or.inl rfl),
    (zero_area_matches_everywhere 5 5 0 10 zero_slot 123 (-7)).2 rfl⟩

/-- Through registration: a listener registered at a slot of the table with a
rectangle of zero width or height has a region of zero points and matches
every point. -/
theorem zero_area_listener (d : Detector) (ev : EventType) (tapCB dragCB pinchCB : Callback)
    (indx : Int) (param : Nat) (rotatable : Bool) (constraint : Constraint) (angle_tol : Int)
    (x y w h : Int) (hz : w = 0 ∨ h = 0)
    (hlo : 0 ≤ indx) (hhi : indx < (MAX_EVENTS : Int)) :
    ∃ d1, fill_event d ev (fill_rect_region x y w h).2 (fill_rect_region x y w h).1
        tapCB dragCB pinchCB indx param rotatable constraint angle_tol = some d1 ∧
      (d1.events indx.toNat).nPts = 0 ∧
      ∀ px py, in_region (d1.events indx.toNat) px py = true := by
  have hrect : (fill_rect_region x y w h).1 = 0 := by
    unfold fill_rect_region
    rw [if_pos hz]
  obtain ⟨d1, h, -, -, -, -, -, -, hp, -⟩ :=
    fill_event_fits d ev (fill_rect_region x y w h).2 (fill_rect_region x y w h).1
      tapCB dragCB pinchCB indx param rotatable constraint angle_tol hlo hhi
      (by rw [hrect]) (by rw [hrect]; decide)
  refine ⟨d1, h, by rw [hp, hrect], ?_⟩
  intro px py
  unfold in_region
  rw [if_pos (by rw [hp, hrect])]

/-! ## Zero displacement -/

/-- At the displacement (0, 0) a vertical-only listener rejects, like a
horizontal-only one, where the sibling `enforce_constraints` takes the same
displacement as vertical. -/
theorem zero_displacement_not_vertical :
    check_constraints (constrained CO_VERT 3) 0 0 = false ∧
      check_constraints (constrained CO_HORIZ 3) 0 0 = false ∧
      check_constraints (constrained CO_NONE 3) 0 0 = true ∧
      enforce_constraints (constrained CO_NONE 3) 0 0 = (CO_VERT, 0, 0) := by
  decide

/-- C21, evaluated on the code: for `dx = 0` and `dy = 0` and every
`angle_tol`, both division guards of `check_constraints` fail and it falls
through to its last branch, the one for moves in between vertical and
horizontal, so it returns true if and only if the listener has no constraint:
it rejects for vertical-only, which the vertical branch accepts, as it does for
horizontal-only. -/
theorem zero_displacement_gate (event : RegEvent) :
    (check_constraints event 0 0 = true ↔ event.constraint = CO_NONE) ∧
      (check_constraints event 0 0 = false ↔
        (event.constraint = CO_VERT ∨ event.constraint = CO_HORIZ)) := by
  have h1 : ¬ (cabs 0 ≠ 0 ∧ cabs (Int.tdiv 0 0) > event.angle_tol) := by
    rw [cabs_zero]
    exact fun h => h.1 rfl
  unfold check_constraints
  rw [if_neg h1, if_neg h1]
  cases hc : event.constraint <;> simp

/-- Through the public interface: a drag that starts when one finger of a
pinch lifts and is released where it started is reported to a Drag listener
without constraint, and to neither a vertical-only nor a horizontal-only
one. -/
theorem still_drag_release :
    (still_drag_session CO_NONE).map (fun r => (r.log, r.status))
        = some ([Event.started EV_PINCH, Event.started EV_DRAG,
            Event.drag (some 1) (bor EV_DRAG EV_RELEASED) 0 0 100 100 0 0,
            Event.started EV_NONE], Status.running) ∧
      (still_drag_session CO_VERT).map (fun r => (r.log, r.status))
        = some ([Event.started EV_PINCH, Event.started EV_DRAG, Event.started EV_NONE],
            Status.running) ∧
      (still_drag_session CO_HORIZ).map (fun r => (r.log, r.status))
        = some ([Event.started EV_PINCH, Event.started EV_DRAG, Event.started EV_NONE],
            Status.running) := by
  decide

/-! ## Reclassification of a tap as a drag -/

/-- C22 as stated fails: in `slow_move_session` the tap is resolved to the Tap
listener of slot 0 before the poll that sees the contact moved, and after that
poll, which reclassifies it as a drag, the cached index is 1, the Drag
listener. -/
theorem reclassification_changes_listener :
    slow_move_before.map (fun r => (r.status, r.det.track.type, r.det.track.active_event))
        = some (Status.running, EV_TAP, 0) ∧
      slow_move_session.map (fun r => (r.status, r.det.track.type, r.det.track.active_event))
        = some (Status.running, EV_DRAG, 1) ∧
      slow_move_session = slow_move_before.map (fun r =>
        Run.after r.log (poll r.det 270 [⟨20, 10⟩])) := by
  refine ⟨by decide, by decide, ?_⟩
  rfl

theorem with_active_fresh (d : Detector) (k : Int) (now : Nat) (ev : EventType) :
    start_new_tracked (with_active d k) now ev = start_new_tracked d now ev := rfl

/-- A one-contact poll that reclassifies a tap as a drag is
`start_new_tracked(current_time, EV_DRAG)` followed by `call_cb()`. -/
theorem reclassifying_poll (d : Detector) (now : Nat) (p : GDTpoint) (x y : Int)
    (hg : gated d now = false) (ht : d.track.type = EV_TAP)
    (hr : remap d.rotation p = some (x, y))
    (hm : x ≠ d.track.cont0.init_x ∨ y ≠ d.track.cont0.init_y)
    (hs : SWIPE_TIME < usub now d.track.start_time) :
    poll d now [p] = Run.after [Event.started EV_DRAG]
      (call_cb (start_new_tracked
        (set_hold_time (move_cont0 { d with last_polled := now } x y) now) now EV_DRAG)) := by
  have hp : poll d now [p] = hold_or_move { d with last_polled := now } now x y := by
    rw [poll_scan_one d now p hg]
    unfold poll_one
    have t1 : ¬ (EV_TAP = EV_NONE) := by decide
    simp only [ht, t1, if_false, true_or, if_true, hr]
  have hmoved : (set_hold_time (move_cont0 { d with last_polled := now } x y) now).track.cont0.dx
        ≠ 0 ∨
      (set_hold_time (move_cont0 { d with last_polled := now } x y) now).track.cont0.dy
        ≠ 0 := by
    show x - d.track.cont0.init_x ≠ 0 ∨ y - d.track.cont0.init_y ≠ 0
    omega
  have hhold : (set_hold_time (move_cont0 { d with last_polled := now } x y) now).track.hold_time
      = usub now d.track.start_time := rfl
  have htype : (set_hold_time (move_cont0 { d with last_polled := now } x y) now).track.type
      = EV_TAP := ht
  rw [hp]
  unfold hold_or_move
  rw [if_pos hmoved, hhold, htype, if_pos ⟨rfl, hs⟩]

/-- After `call_cb` on a drag that has no listener yet, the cached index is
negative or that of a Drag listener. -/
theorem fresh_drag_resolution (d : Detector) (hneg : d.track.active_event < 0)
    (ht : d.track.type = EV_DRAG) :
    (call_cb d).det.track.active_event < 0 ∨
      ∃ i, i < MAX_EVENTS ∧ (d.events i).type = EV_DRAG ∧
        (call_cb d).det.track.active_event = (i : Int) := by
  have hb : base_kind d = EV_DRAG := by
    unfold base_kind
    rw [ht]
    decide
  have h1 : ¬ (EV_DRAG = EV_TAP) := by decide
  rw [call_cb_det, hb, if_neg h1, if_pos (Or.inl rfl)]
  rcases resolve_drag_cases d EV_DRAG with h | ⟨i, hi, hhit, -, h⟩
  · rw [h]
    exact Or.inl hneg
  · rw [h]
    exact Or.inr ⟨i, hi, drag_hit_type d EV_DRAG i hhit, set_active_active d i⟩

/-- C22, amended. Reclassification discards the cached listener: when a
one-contact poll reclassifies the tracked gesture from Tap to Drag (the
contact has moved and more than `SWIPE_TIME` has passed), `start_new_tracked`
sets `active_event` to -1 whatever was cached, and the `call_cb` that follows
resolves afresh: the poll does not depend on the cached index, and after it
`active_event` is negative or the index of a Drag listener, never that of the
Tap listener cached before. -/
theorem reclassification_resolves_afresh (d : Detector) (now : Nat) (p : GDTpoint)
    (x y : Int) (hg : gated d now = false) (ht : d.track.type = EV_TAP)
    (hr : remap d.rotation p = some (x, y))
    (hm : x ≠ d.track.cont0.init_x ∨ y ≠ d.track.cont0.init_y)
    (hs : SWIPE_TIME < usub now d.track.start_time) :
    (start_new_tracked (set_hold_time (move_cont0 { d with last_polled := now } x y) now)
        now EV_DRAG).track.active_event = -1 ∧
      (∀ k, poll (with_active d k) now [p] = poll d now [p]) ∧
      ((poll d now [p]).det.track.active_event < 0 ∨
        ∃ i, i < MAX_EVENTS ∧ (d.events i).type = EV_DRAG ∧
          (poll d now [p]).det.track.active_event = (i : Int)) ∧
      (0 ≤ d.track.active_event →
        (d.events d.track.active_event.toNat).type = EV_TAP →
        (poll d now [p]).det.track.active_event ≠ d.track.active_event) := by
  have hres := fresh_drag_resolution
    (start_new_tracked (set_hold_time (move_cont0 { d with last_polled := now } x y) now)
      now EV_DRAG) (start_new_tracked_fresh _ now EV_DRAG) rfl
  have hpoll := reclassifying_poll d now p x y hg ht hr hm hs
  have hact : (poll d now [p]).det.track.active_event < 0 ∨
      ∃ i, i < MAX_EVENTS ∧ (d.events i).type = EV_DRAG ∧
        (poll d now [p]).det.track.active_event = (i : Int) := by
    rw [hpoll]
    exact hres
  refine ⟨rfl, ?_, hact, ?_⟩
  · intro k
    rw [hpoll, reclassifying_poll (with_active d k) now p x y hg ht hr hm hs]
    rfl
  · intro h0 htap heq
    rcases hact with h | ⟨i, -, hty, h⟩
    · omega
    · rw [← heq, h, Int.toNat_ofNat, hty] at htap
      exact absurd htap (by decide)

/-- C22, amended, at a tap resolved to the Tap listener of slot 0 of
`tap_detector` and seen moved 200 ms after it landed. -/
theorem reclassification_resolves_afresh_witness :
    (poll tap_detector 200 [⟨20, 10⟩]).det.track.active_event < 0 ∨
      ∃ i, i < MAX_EVENTS ∧ (tap_detector.events i).type = EV_DRAG ∧
        (poll tap_detector 200 [⟨20, 10⟩]).det.track.active_event = (i : Int) :=
  (reclassification_resolves_afresh tap_detector 200 ⟨20, 10⟩ 20 10 (by decide) (by decide)
    (by decide) (by decide) (by decide)).2.2.1

/-! ## Denominators of the two-scale pinch solver -/

/-- A quotient above a tolerance `≥ 0` has a non-zero numerator. -/
theorem numerator_ne_zero (a b t : Int) (ht : 0 ≤ t) (h : cabs (Int.tdiv a b) > t) : a ≠ 0 := by
  intro ha
  rw [ha, Int.zero_tdiv, cabs_zero] at h
  omega

/-- A separation `(dx, dy)`, not zero, that `check_constraints` accepts for a
listener with `angle_tol ≥ 0` has `dx ≠ 0` unless `enforce_constraints` gives
vertical-only, and `dy ≠ 0` unless it gives horizontal-only. -/
theorem accepted_separation (event : RegEvent) (dx dy : Int) (ht : 0 ≤ event.angle_tol)
    (hne : dx ≠ 0 ∨ dy ≠ 0) (hc : check_constraints event dx dy = true) :
    ((enforce_constraints event dx dy).1 ≠ CO_VERT → dx ≠ 0) ∧
      ((enforce_constraints event dx dy).1 ≠ CO_HORIZ → dy ≠ 0) := by
  have z1 := cabs_eq_zero_iff dx
  have z2 := cabs_eq_zero_iff dy
  by_cases hv : event.constraint = CO_VERT
  · have he : enforce_constraints event dx dy = (CO_VERT, 0, dy) := by
      rw [enforce_constraints, if_pos hv]
    rw [he]
    refine ⟨fun h => absurd rfl h, fun _ => ?_⟩
    by_cases a : cabs dx ≠ 0 ∧ cabs (Int.tdiv dy dx) > event.angle_tol
    · exact numerator_ne_zero dy dx _ ht a.2
    · rw [check_constraints, if_neg a, hv] at hc
      simp at hc
  · by_cases hh : event.constraint = CO_HORIZ
    · have he : enforce_constraints event dx dy = (CO_HORIZ, dx, 0) := by
        rw [enforce_constraints, if_neg hv, if_pos hh]
      rw [he]
      refine ⟨fun _ => ?_, fun h => absurd rfl h⟩
      by_cases a : cabs dx ≠ 0 ∧ cabs (Int.tdiv dy dx) > event.angle_tol
      · rw [check_constraints, if_pos a, hh] at hc
        simp at hc
      · by_cases b : cabs dy ≠ 0 ∧ cabs (Int.tdiv dx dy) > event.angle_tol
        · exact numerator_ne_zero dx dy _ ht b.2
        · rw [check_constraints, if_neg a, if_neg b, hh] at hc
          simp at hc
    · unfold enforce_constraints
      rw [if_neg hv, if_neg hh]
      split_ifs with h3 h4
      · refine ⟨fun h => absurd rfl h, fun _ => ?_⟩
        rcases h3 with h3 | h3
        · have hdx : dx = 0 := z1.mp h3
          rcases hne with h | h
          · exact absurd hdx h
          · exact h
        · exact numerator_ne_zero dy dx _ ht h3
      · refine ⟨fun _ hdx => h3 (Or.inl (z1.mpr hdx)), fun h => absurd rfl h⟩
      · exact ⟨fun _ hdx => h3 (Or.inl (z1.mpr hdx)), fun _ hdy => h4 (Or.inl (z2.mpr hdy))⟩

/-- C23. No zero denominator in the two-scale pinch solver: when `call_cb`
resolves a pinch whose two initial contact points are distinct to a listener
with `angle_tol ≥ 0`, the resolved state has `init_x0 ≠ init_x1` whenever
`working_co` is not vertical-only and `init_y0 ≠ init_y1` whenever it is not
horizontal-only, so that the solver has a result, now and as long as the
initial points and the working constraint stay. -/
theorem pinch_denominators_nonzero (d : Detector) (hb : base_kind d = EV_PINCH)
    (hneg : d.track.active_event < 0)
    (hdist : d.track.cont0.init_x ≠ d.track.cont1.init_x ∨
      d.track.cont0.init_y ≠ d.track.cont1.init_y)
    (hres : 0 ≤ (call_cb d).det.track.active_event)
    (htol : 0 ≤ (d.events (call_cb d).det.track.active_event.toNat).angle_tol) :
    ((call_cb d).det.track.working_co ≠ CO_VERT →
        (call_cb d).det.track.cont0.init_x ≠ (call_cb d).det.track.cont1.init_x) ∧
      ((call_cb d).det.track.working_co ≠ CO_HORIZ →
        (call_cb d).det.track.cont0.init_y ≠ (call_cb d).det.track.cont1.init_y) ∧
      ∀ c0 c1 : TrackedContact,
        c0.init_x = d.track.cont0.init_x → c0.init_y = d.track.cont0.init_y →
        c1.init_x = d.track.cont1.init_x → c1.init_y = d.track.cont1.init_y →
        ∃ a, pinch_plain ℚ ⟨c0, c1, false, (call_cb d).det.track.working_co⟩ = some a := by
  have h1 : ¬ (EV_PINCH = EV_TAP) := by decide
  have h2 : ¬ (EV_PINCH = EV_DRAG ∨ EV_PINCH = EV_SWIPE) := by decide
  have hdet : (call_cb d).det = resolve_pinch d := by
    rw [call_cb_det, hb, if_neg h1, if_neg h2, if_pos rfl]
  rw [hdet] at hres htol ⊢
  rcases resolve_pinch_cases d with h | ⟨i, hi, hhit, -, h⟩
  · rw [h] at hres
    omega
  · rw [h, set_working_co_active, set_active_active, Int.toNat_ofNat] at htol
    have hchk : check_constraints (d.events i)
        (d.track.cont0.init_x - d.track.cont1.init_x)
        (d.track.cont0.init_y - d.track.cont1.init_y) = true := by
      unfold pinch_hit at hhit
      split_ifs at hhit with a1 a2 a3 a4
      simpa using a3
    have hsep : d.track.cont0.init_x - d.track.cont1.init_x ≠ 0 ∨
        d.track.cont0.init_y - d.track.cont1.init_y ≠ 0 := by
      omega
    obtain ⟨hx, hy⟩ := accepted_separation (d.events i) _ _ htol hsep hchk
    have hx2 : (resolve_pinch d).track.working_co ≠ CO_VERT →
        d.track.cont0.init_x ≠ d.track.cont1.init_x := by
      rw [h]
      intro hw
      have := hx hw
      omega
    have hy2 : (resolve_pinch d).track.working_co ≠ CO_HORIZ →
        d.track.cont0.init_y ≠ d.track.cont1.init_y := by
      rw [h]
      intro hw
      have := hy hw
      omega
    obtain ⟨e0, e1⟩ := resolve_pinch_conts d
    refine ⟨by rw [e0, e1]; exact hx2, by rw [e0, e1]; exact hy2, ?_⟩
    intro c0 c1 a0 b0 a1 b1
    obtain ⟨sx, sy, -, -, hs⟩ := pinch_plain_some ℚ
      ⟨c0, c1, false, (resolve_pinch d).track.working_co⟩
      (by intro hw; show c0.init_x ≠ c1.init_x; rw [a0, a1]; exact hx2 hw)
      (by intro hw; show c0.init_y ≠ c1.init_y; rw [b0, b1]; exact hy2 hw)
    exact ⟨_, hs⟩

/-- C23 at the pinch of `pinch_detector` before its resolution: contacts that
start at (50,100) and (150,100). -/
theorem pinch_denominators_nonzero_witness :
    ((call_cb fresh_pinch_detector).det.track.working_co ≠ CO_VERT →
        (call_cb fresh_pinch_detector).det.track.cont0.init_x
          ≠ (call_cb fresh_pinch_detector).det.track.cont1.init_x) ∧
      ((call_cb fresh_pinch_detector).det.track.working_co ≠ CO_HORIZ →
        (call_cb fresh_pinch_detector).det.track.cont0.init_y
          ≠ (call_cb fresh_pinch_detector).det.track.cont1.init_y) :=
  ⟨(pinch_denominators_nonzero fresh_pinch_detector (by decide) (by decide) (by decide)
      (by decide) (by decide)).1,
    (pinch_denominators_nonzero fresh_pinch_detector (by decide) (by decide) (by decide)
      (by decide) (by decide)).2.1⟩

/-- The pinch of the example is resolved with the working constraint
horizontal-only: only the x quotient is evaluated, over 50 - 150. -/
theorem fresh_pinch_resolution :
    (call_cb fresh_pinch_detector).det.track.active_event = 0 ∧
      (call_cb fresh_pinch_detector).det.track.working_co = CO_HORIZ := by
  decide

/-- The bound `angle_tol ≥ 0` is needed: with tolerance -1 the separation
(5, 0) is accepted and taken as vertical although its `dy` is zero. -/
theorem negative_tol_zero_denominator :
    check_constraints (constrained CO_NONE (-1)) 5 0 = true ∧
      (enforce_constraints (constrained CO_NONE (-1)) 5 0).1 = CO_VERT := by
  decide

/-! ## Orientation of a ring -/

theorem is_left_swap (P A B : Point) (hP : P.small) (hA : A.small) (hB : B.small) :
    P.is_left B A = -(P.is_left A B) := by
  rw [is_left_small P B A hP hB hA, is_left_small P A B hP hA hB]
  ring

theorem edge_step_add (P A B : Point) (wn : Int) :
    edge_step P A B wn = wn + edge_step P A B 0 := by
  unfold edge_step
  split_ifs <;> omega

/-- The step of an edge taken backwards is the opposite of its step, where
`is_left` does not overflow. -/
theorem edge_step_swap (P A B : Point) (hP : P.small) (hA : A.small) (hB : B.small) :
    edge_step P B A 0 = -(edge_step P A B 0) := by
  unfold edge_step
  rw [is_left_swap P A B hP hA hB]
  split_ifs <;> omega

theorem in_polygon_edge_cons (P : Point) (a : Point) (V : List Point) (wn : Int) (i : Nat) :
    Point.in_polygon_edge P (a :: V) wn (i + 1) = Point.in_polygon_edge P V wn i := by
  unfold Point.in_polygon_edge
  simp only [List.getD_cons_succ]

theorem foldl_edge_sum (P : Point) :
    ∀ (n : Nat) (V : List Point) (wn : Int), n + 1 ≤ V.length →
      (List.range n).foldl (Point.in_polygon_edge P V) wn = wn + edge_sum P (V.take (n + 1)) := by
  intro n
  induction n with
  | zero =>
    intro V wn h
    cases V with
    | nil => simp at h
    | cons a rest => simp [edge_sum]
  | succ m ih =>
    intro V wn h
    cases V with
    | nil => simp at h
    | cons a rest =>
      cases rest with
      | nil => simp at h
      | cons b rest2 =>
        have hlen : m + 1 ≤ (b :: rest2).length := by
          simp only [List.length_cons] at h ⊢
          omega
        rw [List.range_succ_eq_map, List.foldl_cons, List.foldl_map]
        have hf : (fun (x : Int) (y : Nat) => Point.in_polygon_edge P (a :: b :: rest2) x (y + 1))
            = Point.in_polygon_edge P (b :: rest2) := by
          funext x y
          exact in_polygon_edge_cons P a (b :: rest2) x y
        show List.foldl (fun x y => Point.in_polygon_edge P (a :: b :: rest2) x (Nat.succ y))
          (Point.in_polygon_edge P (a :: b :: rest2) wn 0) (List.range m) = _
        rw [show (fun (x : Int) (y : Nat) =>
            Point.in_polygon_edge P (a :: b :: rest2) x (Nat.succ y))
          = Point.in_polygon_edge P (b :: rest2) from hf, ih (b :: rest2) _ hlen,
          in_polygon_edge_eq]
        show edge_step P a b wn + edge_sum P ((b :: rest2).take (m + 1))
          = wn + edge_sum P (a :: (b :: rest2).take (m + 1))
        rw [edge_step_add P a b wn]
        cases hq : (b :: rest2).take (m + 1) with
        | nil => simp at hq
        | cons c rest3 =>
          have hc : c = b := by
            simp only [List.take_succ_cons, List.cons.injEq] at hq
            exact hq.1.symm
          rw [hc]
          show wn + edge_step P a b 0 + edge_sum P (b :: rest3)
            = wn + (edge_step P a b 0 + edge_sum P (b :: rest3))
          omega

/-- The winding number of `in_polygon` is the sum of the steps of the edges of
the ring `V[0..n]`. -/
theorem in_polygon_eq_edge_sum (P : Point) (V : List Point) (n : Nat)
    (h : n + 1 ≤ V.length) :
    P.in_polygon V (n : Int) = edge_sum P (V.take (n + 1)) := by
  unfold Point.in_polygon
  rw [Int.toNat_ofNat, foldl_edge_sum P n V 0 h]
  omega

theorem edge_sum_append_one (P : Point) :
    ∀ (l : List Point) (y z : Point),
      edge_sum P (l ++ [y, z]) = edge_sum P (l ++ [y]) + edge_step P y z 0 := by
  intro l
  induction l with
  | nil =>
    intro y z
    simp [edge_sum]
  | cons a rest ih =>
    intro y z
    cases rest with
    | nil => simp [edge_sum]
    | cons b rest2 =>
      show edge_step P a b 0 + edge_sum P ((b :: rest2) ++ [y, z])
        = edge_step P a b 0 + edge_sum P ((b :: rest2) ++ [y]) + edge_step P y z 0
      rw [ih y z]
      omega

/-- Reversing a list of vertices negates the sum of its edge steps, where
`is_left` does not overflow. -/
theorem edge_sum_reverse (P : Point) (hP : P.small) :
    ∀ l : List Point, (∀ v ∈ l, v.small) → edge_sum P l.reverse = -(edge_sum P l) := by
  intro l
  induction l with
  | nil =>
    intro _
    simp [edge_sum]
  | cons a rest ih =>
    intro hl
    cases rest with
    | nil => simp [edge_sum]
    | cons b rest2 =>
      have ha : a.small := hl a (List.mem_cons_self a _)
      have hb : b.small := hl b (List.mem_cons_of_mem a (List.mem_cons_self b _))
      have hrest : ∀ v ∈ b :: rest2, v.small := fun v hv => hl v (List.mem_cons_of_mem a hv)
      have e : (a :: b :: rest2).reverse = rest2.reverse ++ [b, a] := by simp
      have e2 : (b :: rest2).reverse = rest2.reverse ++ [b] := by simp
      rw [e, edge_sum_append_one, ← e2, ih hrest, edge_step_swap P a b hP ha hb]
      show -(edge_sum P (b :: rest2)) + -(edge_step P a b 0)
        = -(edge_step P a b 0 + edge_sum P (b :: rest2))
      omega

/-- The same for the rings that registration builds: the vertices supplied in
reverse order and closed with their first vertex give the opposite sum of the
vertices as supplied, closed with their first vertex. -/
theorem closed_ring_reverse (P : Point) (a : Point) (t : List Point) (hP : P.small)
    (hV : ∀ v ∈ a :: t, v.small) :
    edge_sum P ((a :: t).reverse ++ [(a :: t).reverse.getD 0 default])
      = -(edge_sum P ((a :: t) ++ [a])) := by
  have ha : a.small := hV a (List.mem_cons_self a _)
  rcases List.eq_nil_or_concat t with ht | ⟨l, z, ht⟩
  · rw [ht]
    have h := edge_step_swap P a a hP ha ha
    simp only [List.reverse_cons, List.reverse_nil, List.nil_append, List.singleton_append,
      List.getD_cons_zero, edge_sum]
    omega
  · rw [ht, List.concat_eq_append] at hV ⊢
    have hz : z.small := hV z (by simp)
    have hall : ∀ v ∈ (a :: l) ++ [z], v.small := fun v hv => hV v (by simpa using hv)
    have e1 : (a :: (l ++ [z])).reverse = (z :: l.reverse) ++ [a] := by simp
    have e2 : ((z :: l.reverse) ++ [a]).getD 0 default = z := by simp
    have e3 : (z :: l.reverse) ++ [a] ++ [z] = (z :: l.reverse) ++ [a, z] := by simp
    have e4 : a :: (l ++ [z]) ++ [a] = (a :: l) ++ [z, a] := by simp
    have e5 : (z :: l.reverse) ++ [a] = ((a :: l) ++ [z]).reverse := by simp
    rw [e1, e2, e3, e4, edge_sum_append_one, edge_sum_append_one, e5,
      edge_sum_reverse P hP _ hall, edge_step_swap P z a hP hz ha]
    omega

/-- Hit-testing a polygon given by its vertices does not depend on the order
in which they are given, where `is_left` does not overflow: the ring of the
reversed vertices has the opposite winding number. -/
theorem reversed_vertices_winding (P : Point) (a : Point) (t : List Point) (hP : P.small)
    (hV : ∀ v ∈ a :: t, v.small) :
    P.in_polygon ((a :: t).reverse ++ [(a :: t).reverse.getD 0 default])
        (((a :: t).length : Nat) : Int)
      = -(P.in_polygon ((a :: t) ++ [a]) (((a :: t).length : Nat) : Int)) := by
  have l1 : (a :: t).length + 1
      ≤ ((a :: t).reverse ++ [(a :: t).reverse.getD 0 default]).length := by
    simp
  have l2 : (a :: t).length + 1 ≤ ((a :: t) ++ [a]).length := by
    simp
  rw [in_polygon_eq_edge_sum P _ _ l1, in_polygon_eq_edge_sum P _ _ l2,
    List.take_of_length_le (by simp), List.take_of_length_le (by simp),
    closed_ring_reverse P a t hP hV]

/-- C26 as stated fails: for the closed ring of the rectangle x = -10, y = 0,
w = 65546, h = 32768 and the point (0,0), `in_polygon` returns 0 on the ring
and -1 on the ring traversed in reverse order. On the right edge `is_left` is
`65536 * 32768 = 2^31`, which the 32-bit `int` holds as `-2^31`, and the
negation of that is `-2^31` again: the edge is counted when it is traversed
downwards and not when it is traversed upwards. -/
theorem wide_ring_reverse_differs :
    wide_ring.getD 4 default = wide_ring.getD 0 default ∧
      (Point.mk 0 0).in_polygon wide_ring 4 = 0 ∧
      (Point.mk 0 0).in_polygon wide_ring.reverse 4 = -1 ∧
      (Point.mk 0 0).is_left ⟨65536, 0⟩ ⟨65536, 32768⟩ = -2147483648 ∧
      (Point.mk 0 0).is_left ⟨65536, 32768⟩ ⟨65536, 0⟩ = -2147483648 := by
  decide

/-- C26, amended. Vertex order does not matter for hit-testing where the
32-bit arithmetic of `is_left` does not overflow: for every ring `V[0..n]`
(closed or not) and every point `P`, all with coordinates within `COORD_MAX`
(16383) of zero, `in_polygon` on the ring traversed in reverse order returns
the negation of `in_polygon` on the ring, so that the winding number is
non-zero for the one exactly when it is for the other. -/
theorem in_polygon_reverse (P : Point) (V : List Point) (n : Nat) (h : n + 1 ≤ V.length)
    (hP : P.small) (hV : ∀ v ∈ V.take (n + 1), v.small) :
    P.in_polygon (V.take (n + 1)).reverse (n : Int) = -(P.in_polygon V (n : Int)) ∧
      (P.in_polygon (V.take (n + 1)).reverse (n : Int) ≠ 0 ↔ P.in_polygon V (n : Int) ≠ 0) := by
  have hlen : n + 1 ≤ ((V.take (n + 1)).reverse).length := by
    rw [List.length_reverse, List.length_take]
    omega
  have hall : ((V.take (n + 1)).reverse).take (n + 1) = (V.take (n + 1)).reverse := by
    apply List.take_of_length_le
    rw [List.length_reverse, List.length_take]
    omega
  have e : P.in_polygon (V.take (n + 1)).reverse (n : Int) = -(P.in_polygon V (n : Int)) := by
    rw [in_polygon_eq_edge_sum P _ n hlen, hall, edge_sum_reverse P hP _ hV,
      in_polygon_eq_edge_sum P V n h]
  refine ⟨e, ?_⟩
  rw [e]
  omega

/-- C26, amended, at the square ring (0,0),(10,0),(10,10),(0,10),(0,0) and the
point (5,5). -/
theorem in_polygon_reverse_witness :
    (Point.mk 5 5).in_polygon (square_ring.take (4 + 1)).reverse ((4 : Nat) : Int)
        = -((Point.mk 5 5).in_polygon square_ring ((4 : Nat) : Int)) ∧
      ((Point.mk 5 5).in_polygon (square_ring.take (4 + 1)).reverse ((4 : Nat) : Int) ≠ 0 ↔
        (Point.mk 5 5).in_polygon square_ring ((4 : Nat) : Int) ≠ 0) :=
  in_polygon_reverse ⟨5, 5⟩ square_ring 4 (by decide) (by decide) (by decide)

/-- The winding numbers of the example: 1 for the ring as given, -1 for the
ring in reverse order. -/
theorem square_ring_winding :
    (Point.mk 5 5).in_polygon square_ring 4 = 1 ∧
      (Point.mk 5 5).in_polygon square_ring.reverse 4 = -1 := by
  decide

/-! ## Soundness of the resolved listener -/

theorem resolved_sound_ok (d : Detector) (h : resolved_sound d) : dispatch_ok d := by
  intro h0
  obtain ⟨h1, h2⟩ := h h0
  refine ⟨h1, ?_, ?_⟩
  · intro hb
    rw [h2]
    exact hb
  · intro hb
    rw [h2]
    exact hb

theorem resolved_sound_fresh (d : Detector) (h : d.track.active_event < 0) :
    resolved_sound d := by
  intro h0
  omega

theorem sound_call_congr (d1 d2 : Detector) (h : d2.events = d1.events) (e : Event) :
    sound_call d2 e = sound_call d1 e := by
  cases e <;> simp [sound_call, from_listener, h]

theorem to_kind_congr (d1 d2 : Detector) (h : d2.events = d1.events) (k : EventType)
    (e : Event) : to_kind d2 k e = to_kind d1 k e := by
  cases e <;> simp [to_kind, h]

/-- The call of `call_cb` keeps a sound resolution sound. -/
theorem call_cb_keeps_sound (d : Detector) (h : resolved_sound d) :
    resolved_sound (call_cb d).det := by
  have hsame := call_cb_same d
  have hb : base_kind (call_cb d).det = base_kind d := base_kind_of_same d _ hsame
  have hev : (call_cb d).det.events = d.events := hsame.2.2.1
  intro h0
  rw [hb, hev]
  rw [call_cb_det] at h0 ⊢
  split_ifs at h0 ⊢ with k1 k2 k3
  · rcases resolve_tap_cases d with e | ⟨i, hi, hhit, -, e⟩
    · rw [e] at h0 ⊢
      exact h h0
    · rw [e, set_active_active, Int.toNat_ofNat]
      have h20 : (MAX_EVENTS : Int) = 20 := rfl
      have h20n : MAX_EVENTS = 20 := rfl
      refine ⟨by omega, ?_⟩
      rw [tap_hit_type d i hhit, k1]
  · rcases resolve_drag_cases d (base_kind d) with e | ⟨i, hi, hhit, -, e⟩
    · rw [e] at h0 ⊢
      exact h h0
    · rw [e, set_active_active, Int.toNat_ofNat]
      have h20 : (MAX_EVENTS : Int) = 20 := rfl
      have h20n : MAX_EVENTS = 20 := rfl
      exact ⟨by omega, drag_hit_type d _ i hhit⟩
  · rcases resolve_pinch_cases d with e | ⟨i, hi, hhit, -, e⟩
    · rw [e] at h0 ⊢
      exact h h0
    · rw [e, set_working_co_active, set_active_active, Int.toNat_ofNat]
      have h20 : (MAX_EVENTS : Int) = 20 := rfl
      have h20n : MAX_EVENTS = 20 := rfl
      refine ⟨by omega, ?_⟩
      rw [pinch_hit_type d i hhit, k3]
  · exact h h0
theorem dispatch_tap_sound (d : Detector) (released : EventType) (hs : resolved_sound d)
    (hb : base_kind d = EV_TAP) :
    (dispatch_tap d released).status = Status.running ∧
      ∀ e ∈ (dispatch_tap d released).log, sound_call d e = true := by
  unfold dispatch_tap
  by_cases h0 : d.track.active_event < 0
  · rw [if_pos h0]
    exact ⟨rfl, fun e he => by cases he⟩
  · obtain ⟨h1, h2⟩ := hs (by omega)
    rw [hb] at h2
    rw [if_neg h0, if_neg (by omega)]
    simp only []
    split_ifs
    · refine ⟨rfl, fun e he => ?_⟩
      rw [List.mem_singleton] at he
      rw [he]
      simp only [sound_call, from_listener, Bool.and_eq_true, decide_eq_true_eq]
      refine ⟨⟨by omega, h1, h2⟩, ?_⟩
      simp
    · refine ⟨rfl, fun e he => ?_⟩
      rw [List.mem_singleton] at he
      rw [he]
      simp only [sound_call, from_listener, Bool.and_eq_true, decide_eq_true_eq]
      refine ⟨⟨by omega, h1, h2⟩, ?_⟩
      simp

theorem dispatch_drag_sound (d : Detector) (ev released : EventType) (hs : resolved_sound d)
    (hb : base_kind d = ev) (hev : ev = EV_DRAG ∨ ev = EV_SWIPE)
    (hband : band (bor ev released) (bnot EV_RELEASED) = ev) :
    (dispatch_drag d ev released).status = Status.running ∧
      ∀ e ∈ (dispatch_drag d ev released).log, sound_call d e = true := by
  unfold dispatch_drag
  by_cases h0 : d.track.active_event < 0
  · rw [if_pos h0]
    exact ⟨rfl, fun e he => by cases he⟩
  · obtain ⟨h1, h2⟩ := hs (by omega)
    rw [hb] at h2
    have hty : (d.events d.track.active_event.toNat).type = EV_DRAG ∨
        (d.events d.track.active_event.toNat).type = EV_SWIPE := by
      rw [h2]
      exact hev
    have hnot : ¬ ¬ ((d.events d.track.active_event.toNat).type = EV_DRAG ∨
        (d.events d.track.active_event.toNat).type = EV_SWIPE) := fun h => h hty
    rw [if_neg h0, if_neg (by omega)]
    simp only []
    rw [if_neg hnot]
    refine ⟨rfl, fun e he => ?_⟩
    rw [List.mem_singleton] at he
    rw [he]
    simp only [sound_call, from_listener, Bool.and_eq_true, decide_eq_true_eq]
    refine ⟨⟨by omega, h1, by rw [hband]; exact h2, hty⟩, ?_⟩
    simp

theorem dispatch_pinch_sound (d : Detector) (released : EventType) (hs : resolved_sound d)
    (hb : base_kind d = EV_PINCH) :
    (dispatch_pinch d released).status = Status.running ∧
      ∀ e ∈ (dispatch_pinch d released).log, sound_call d e = true := by
  unfold dispatch_pinch
  by_cases h0 : d.track.active_event < 0
  · rw [if_pos h0]
    exact ⟨rfl, fun e he => by cases he⟩
  · obtain ⟨h1, h2⟩ := hs (by omega)
    rw [hb] at h2
    have hnot : ¬ ¬ ((d.events d.track.active_event.toNat).type = EV_PINCH) := fun h => h h2
    rw [if_neg h0, if_neg (by omega)]
    simp only []
    rw [if_neg hnot]
    refine ⟨rfl, fun e he => ?_⟩
    rw [List.mem_singleton] at he
    rw [he]
    simp only [sound_call, from_listener, Bool.and_eq_true, decide_eq_true_eq]
    refine ⟨⟨by omega, h1, h2⟩, ?_⟩
    simp

theorem call_cb_tap_sound (d : Detector) (hb : base_kind d = EV_TAP) (hs : resolved_sound d) :
    (call_cb d).status = Status.running ∧ ∀ e ∈ (call_cb d).log, sound_call d e = true := by
  have hk := call_cb_keeps_sound d hs
  have hsame := call_cb_same d
  have hb2 : base_kind (call_cb d).det = EV_TAP := by
    rw [base_kind_of_same d _ hsame]
    exact hb
  have hdet : (call_cb d).det = resolve_tap d := by
    rw [call_cb_det, if_pos hb]
  have hcall : call_cb d = dispatch_tap (resolve_tap d) (band d.track.type EV_RELEASED) := by
    rw [call_cb_eq, if_pos hb]
  rw [hdet] at hk hb2 hsame
  obtain ⟨h1, h2⟩ := dispatch_tap_sound (resolve_tap d) (band d.track.type EV_RELEASED) hk hb2
  rw [hcall]
  refine ⟨h1, fun e he => ?_⟩
  rw [← sound_call_congr d (resolve_tap d) hsame.2.2.1 e]
  exact h2 e he

theorem call_cb_drag_sound (d : Detector)
    (hb : base_kind d = EV_DRAG ∨ base_kind d = EV_SWIPE) (hs : resolved_sound d)
    (hband : band (bor (base_kind d) (band d.track.type EV_RELEASED)) (bnot EV_RELEASED)
      = base_kind d) :
    (call_cb d).status = Status.running ∧ ∀ e ∈ (call_cb d).log, sound_call d e = true := by
  have hk := call_cb_keeps_sound d hs
  have hsame := call_cb_same d
  have hnt : ¬ (base_kind d = EV_TAP) := by
    rcases hb with h | h <;> rw [h] <;> decide
  have hb2 : base_kind (call_cb d).det = base_kind d := base_kind_of_same d _ hsame
  have hdet : (call_cb d).det = resolve_drag d (base_kind d) := by
    rw [call_cb_det, if_neg hnt, if_pos hb]
  have hcall : call_cb d = dispatch_drag (resolve_drag d (base_kind d)) (base_kind d)
      (band d.track.type EV_RELEASED) := by
    rw [call_cb_eq, if_neg hnt, if_pos hb]
  rw [hdet] at hk hb2 hsame
  obtain ⟨h1, h2⟩ := dispatch_drag_sound (resolve_drag d (base_kind d)) (base_kind d)
    (band d.track.type EV_RELEASED) hk hb2 hb hband
  rw [hcall]
  refine ⟨h1, fun e he => ?_⟩
  rw [← sound_call_congr d (resolve_drag d (base_kind d)) hsame.2.2.1 e]
  exact h2 e he

theorem call_cb_pinch_sound (d : Detector) (hb : base_kind d = EV_PINCH)
    (hs : resolved_sound d) :
    (call_cb d).status = Status.running ∧ ∀ e ∈ (call_cb d).log, sound_call d e = true := by
  have hk := call_cb_keeps_sound d hs
  have hsame := call_cb_same d
  have h1 : ¬ (base_kind d = EV_TAP) := by rw [hb]; decide
  have h2 : ¬ (base_kind d = EV_DRAG ∨ base_kind d = EV_SWIPE) := by rw [hb]; decide
  have hb2 : base_kind (call_cb d).det = EV_PINCH := by
    rw [base_kind_of_same d _ hsame]
    exact hb
  have hdet : (call_cb d).det = resolve_pinch d := by
    rw [call_cb_det, if_neg h1, if_neg h2, if_pos hb]
  have hcall : call_cb d = dispatch_pinch (resolve_pinch d) (band d.track.type EV_RELEASED) := by
    rw [call_cb_eq, if_neg h1, if_neg h2, if_pos hb]
  rw [hdet] at hk hb2 hsame
  obtain ⟨g1, g2⟩ := dispatch_pinch_sound (resolve_pinch d) (band d.track.type EV_RELEASED)
    hk hb2
  rw [hcall]
  refine ⟨g1, fun e he => ?_⟩
  rw [← sound_call_congr d (resolve_pinch d) hsame.2.2.1 e]
  exact g2 e he

/-- With nothing tracked (`track.type` is `EV_NONE`, with or without the
released bit) `call_cb` does nothing. -/
theorem call_cb_idle (d : Detector) (hb : base_kind d = EV_NONE) :
    call_cb d = ⟨d, [], Status.running⟩ := by
  have h1 : ¬ (base_kind d = EV_TAP) := by rw [hb]; decide
  have h2 : ¬ (base_kind d = EV_DRAG ∨ base_kind d = EV_SWIPE) := by rw [hb]; decide
  have h3 : ¬ (base_kind d = EV_PINCH) := by rw [hb]; decide
  rw [call_cb_eq, if_neg h1, if_neg h2, if_neg h3]

/-- Every call that `call_cb` makes from `poll` with base kind Swipe carries
the released bit. -/
theorem call_cb_swipe_released (d : Detector) (hty : dispatch_type d.track.type) :
    ∀ e ∈ (call_cb d).log, swipe_released e = true := by
  intro e he
  have h := call_cb_type_arg d e he
  unfold base_kind at h
  unfold swipe_released
  rcases hty with t | t | t | t | t | t | t | t <;> rw [t] at h <;>
    rcases h with h | h | h | h <;> rw [h] <;> decide

/-- What `poll` relies on at each of its calls of `call_cb`: no `ASSERT`
fires, no slot outside the table is read, the calls are sound and those with
base kind Swipe carry the released bit. -/
theorem call_cb_sound (d : Detector) (hty : dispatch_type d.track.type)
    (hs : resolved_sound d ∨ d.track.type = bor EV_NONE EV_RELEASED) :
    (call_cb d).status = Status.running ∧
      (∀ e ∈ (call_cb d).log, sound_call d e = true) ∧
      (∀ e ∈ (call_cb d).log, swipe_released e = true) := by
  have hsw := call_cb_swipe_released d hty
  have key : (call_cb d).status = Status.running ∧
      ∀ e ∈ (call_cb d).log, sound_call d e = true := by
    rcases hty with t | t | t | t | t | t | t | t
    · have hr : resolved_sound d := hs.resolve_right (by rw [t]; decide)
      exact call_cb_tap_sound d (by unfold base_kind; rw [t]; decide) hr
    · have hr : resolved_sound d := hs.resolve_right (by rw [t]; decide)
      exact call_cb_drag_sound d (Or.inl (by unfold base_kind; rw [t]; decide)) hr
        (by unfold base_kind; rw [t]; decide)
    · have hr : resolved_sound d := hs.resolve_right (by rw [t]; decide)
      exact call_cb_pinch_sound d (by unfold base_kind; rw [t]; decide) hr
    · rw [call_cb_idle d (by unfold base_kind; rw [t]; decide)]
      exact ⟨rfl, fun e he => by cases he⟩
    · have hr : resolved_sound d := hs.resolve_right (by rw [t]; decide)
      exact call_cb_tap_sound d (by unfold base_kind; rw [t]; decide) hr
    · have hr : resolved_sound d := hs.resolve_right (by rw [t]; decide)
      exact call_cb_drag_sound d (Or.inl (by unfold base_kind; rw [t]; decide)) hr
        (by unfold base_kind; rw [t]; decide)
    · have hr : resolved_sound d := hs.resolve_right (by rw [t]; decide)
      exact call_cb_drag_sound d (Or.inr (by unfold base_kind; rw [t]; decide)) hr
        (by unfold base_kind; rw [t]; decide)
    · have hr : resolved_sound d := hs.resolve_right (by rw [t]; decide)
      exact call_cb_pinch_sound d (by unfold base_kind; rw [t]; decide) hr
  exact ⟨key.1, key.2, hsw⟩

/-! ## One poll keeps the resolved listener sound -/

theorem remap_ok (rot : Int) (p : GDTpoint) (h : 0 ≤ rot ∧ rot ≤ 3) :
    ∃ v, remap rot p = some v := by
  have h4 : rot = 0 ∨ rot = 1 ∨ rot = 2 ∨ rot = 3 := by omega
  unfold remap
  rcases h4 with r | r | r | r <;> rw [r] <;> simp

theorem release_and_reset_running (d : Detector) (now : Nat)
    (h : (call_cb (set_released d)).status = Status.running) :
    release_and_reset d now =
      ⟨start_new_tracked (call_cb (set_released d)).det now EV_NONE,
        (call_cb (set_released d)).log ++ [Event.started EV_NONE], Status.running⟩ := by
  unfold release_and_reset
  simp only [h]

theorem release_and_reset_sound (d : Detector) (now : Nat)
    (hty : d.track.type = EV_NONE ∨ d.track.type = EV_TAP ∨ d.track.type = EV_DRAG ∨
      d.track.type = EV_SWIPE ∨ d.track.type = EV_PINCH)
    (hs : resolved_sound d ∨ d.track.type = EV_NONE) :
    sound_run d (release_and_reset d now) := by
  have hdt : dispatch_type (set_released d).track.type := by
    show dispatch_type (bor d.track.type EV_RELEASED)
    rcases hty with t | t | t | t | t <;> rw [t]
    · exact Or.inr (Or.inr (Or.inr (Or.inl rfl)))
    · exact Or.inr (Or.inr (Or.inr (Or.inr (Or.inl rfl))))
    · exact Or.inr (Or.inr (Or.inr (Or.inr (Or.inr (Or.inl rfl)))))
    · exact Or.inr (Or.inr (Or.inr (Or.inr (Or.inr (Or.inr (Or.inl rfl))))))
    · exact Or.inr (Or.inr (Or.inr (Or.inr (Or.inr (Or.inr (Or.inr rfl))))))
  have hs2 : resolved_sound (set_released d) ∨
      (set_released d).track.type = bor EV_NONE EV_RELEASED := by
    rcases hs with h | h
    · left
      intro h0
      rw [base_kind_set_released]
      exact h h0
    · right
      show bor d.track.type EV_RELEASED = bor EV_NONE EV_RELEASED
      rw [h]
  obtain ⟨c1, c2, c3⟩ := call_cb_sound (set_released d) hdt hs2
  obtain ⟨s1, -, s3, -⟩ := call_cb_same (set_released d)
  rw [release_and_reset_running d now c1]
  refine ⟨s3, s1, (show Status.running ≠ Status.assertFailed by decide), fun _ => rfl,
    fun _ => Or.inl rfl, ?_, ?_⟩
  · intro e he
    rcases List.mem_append.mp he with h | h
    · exact c2 e h
    · rw [List.mem_singleton] at h
      rw [h]
      rfl
  · intro e he
    rcases List.mem_append.mp he with h | h
    · exact c3 e h
    · rw [List.mem_singleton] at h
      rw [h]
      rfl

theorem sound_run_after (d : Detector) (ev : EventType) (r : Run) (h : sound_run d r) :
    sound_run d (Run.after [Event.started ev] r) := by
  obtain ⟨h1, h2, h3, h4, h5, h6, h7⟩ := h
  refine ⟨h1, h2, h3, h4, h5, ?_, ?_⟩
  · intro e he
    rcases List.mem_append.mp he with h | h
    · rw [List.mem_singleton] at h
      rw [h]
      rfl
    · exact h6 e h
  · intro e he
    rcases List.mem_append.mp he with h | h
    · rw [List.mem_singleton] at h
      rw [h]
      rfl
    · exact h7 e h

/-- A call of `call_cb` made by `poll` without the released bit, as a run. -/
theorem call_cb_run_sound (d : Detector)
    (hty : d.track.type = EV_TAP ∨ d.track.type = EV_DRAG ∨ d.track.type = EV_PINCH)
    (hs : resolved_sound d) : sound_run d (call_cb d) := by
  have hdt : dispatch_type d.track.type := by
    rcases hty with t | t | t
    · exact Or.inl t
    · exact Or.inr (Or.inl t)
    · exact Or.inr (Or.inr (Or.inl t))
  obtain ⟨c1, c2, c3⟩ := call_cb_sound d hdt (Or.inl hs)
  obtain ⟨s1, -, s3, s4, -⟩ := call_cb_same d
  refine ⟨s3, s1, by rw [c1]; decide, fun _ => c1, fun _ => Or.inr ⟨?_, call_cb_keeps_sound d hs⟩,
    c2, c3⟩
  rw [s4]
  exact hty

theorem poll_none_sound (d : Detector) (now : Nat) (h : between_polls d) :
    sound_run d (poll_none d now) := by
  unfold poll_none
  split_ifs with hm
  · have hr := release_and_reset_sound (start_new_tracked d now EV_SWIPE) now
      (Or.inr (Or.inr (Or.inr (Or.inl rfl))))
      (Or.inl (resolved_sound_fresh _ (start_new_tracked_fresh d now EV_SWIPE)))
    exact sound_run_after d EV_SWIPE _ hr
  · rcases h with t | ⟨t, hs⟩
    · exact release_and_reset_sound d now (Or.inl t) (Or.inr t)
    · refine release_and_reset_sound d now ?_ (Or.inl hs)
      rcases t with t | t | t
      · exact Or.inr (Or.inl t)
      · exact Or.inr (Or.inr (Or.inl t))
      · exact Or.inr (Or.inr (Or.inr (Or.inr t)))

theorem hold_or_move_sound (d : Detector) (now : Nat) (x y : Int)
    (hty : d.track.type = EV_TAP ∨ d.track.type = EV_DRAG) (hs : resolved_sound d) :
    sound_run d (hold_or_move d now x y) := by
  have hs4 : resolved_sound (set_hold_time (move_cont0 d x y) now) := hs
  have hty4 : (set_hold_time (move_cont0 d x y) now).track.type = EV_TAP ∨
      (set_hold_time (move_cont0 d x y) now).track.type = EV_DRAG ∨
      (set_hold_time (move_cont0 d x y) now).track.type = EV_PINCH := by
    rcases hty with t | t
    · exact Or.inl t
    · exact Or.inr (Or.inl t)
  unfold hold_or_move
  split_ifs with hm hc
  · have hr := call_cb_run_sound
      (start_new_tracked (set_hold_time (move_cont0 d x y) now) now EV_DRAG)
      (Or.inr (Or.inl rfl))
      (resolved_sound_fresh _ (start_new_tracked_fresh _ now EV_DRAG))
    exact sound_run_after d EV_DRAG _ hr
  · exact call_cb_run_sound (set_hold_time (move_cont0 d x y) now) hty4 hs4
  · refine ⟨rfl, rfl, (show Status.running ≠ Status.assertFailed by decide), fun _ => rfl,
      fun _ => Or.inr ⟨hty4, hs4⟩, fun e he => absurd he (List.not_mem_nil e), fun e he => absurd he (List.not_mem_nil e)⟩

theorem release_pinch_sound (d : Detector) (now : Nat) (xy : Option (Int × Int))
    (hty : d.track.type = EV_PINCH) (hs : resolved_sound d)
    (hxy : rotation_ok d → ∃ v, xy = some v) :
    sound_run d (release_pinch d now xy) := by
  have hdt : dispatch_type (set_released d).track.type := by
    show dispatch_type (bor d.track.type EV_RELEASED)
    rw [hty]
    exact Or.inr (Or.inr (Or.inr (Or.inr (Or.inr (Or.inr (Or.inr rfl))))))
  have hs2 : resolved_sound (set_released d) := by
    intro h0
    rw [base_kind_set_released]
    exact hs h0
  obtain ⟨c1, c2, c3⟩ := call_cb_sound (set_released d) hdt (Or.inl hs2)
  obtain ⟨s1, -, s3, -⟩ := call_cb_same (set_released d)
  have hlog : ∀ e ∈ (call_cb (set_released d)).log ++ [Event.started EV_DRAG],
      sound_call d e = true ∧ swipe_released e = true := by
    intro e he
    rcases List.mem_append.mp he with h | h
    · exact ⟨c2 e h, c3 e h⟩
    · rw [List.mem_singleton] at h
      rw [h]
      exact ⟨rfl, rfl⟩
  unfold release_pinch
  simp only [c1]
  cases xy with
  | none =>
    refine ⟨s3, s1, (show Status.undefined ≠ Status.assertFailed by decide), ?_, ?_,
      fun e he => (hlog e he).1, fun e he => (hlog e he).2⟩
    · intro hr
      obtain ⟨v, hv⟩ := hxy hr
      cases hv
    · intro h
      cases h
  | some v =>
    obtain ⟨x, y⟩ := v
    refine ⟨s3, s1, (show Status.running ≠ Status.assertFailed by decide), fun _ => rfl, ?_,
      fun e he => (hlog e he).1, fun e he => (hlog e he).2⟩
    intro _
    exact Or.inr ⟨Or.inr (Or.inl rfl), resolved_sound_fresh _ (show (-1 : Int) < 0 by decide)⟩

theorem poll_one_sound (d : Detector) (now : Nat) (xy : Option (Int × Int))
    (h : between_polls d) (hxy : rotation_ok d → ∃ v, xy = some v) :
    sound_run d (poll_one d now xy) := by
  unfold poll_one
  split_ifs with t0 t1 t2
  · cases xy with
    | none =>
      refine ⟨rfl, rfl, (show Status.undefined ≠ Status.assertFailed by decide), ?_, ?_,
        ?_, ?_⟩
      · intro hr
        obtain ⟨v, hv⟩ := hxy hr
        cases hv
      · intro hst
        cases hst
      · intro e he
        rw [List.mem_singleton] at he
        rw [he]
        rfl
      · intro e he
        rw [List.mem_singleton] at he
        rw [he]
        rfl
    | some v =>
      obtain ⟨x, y⟩ := v
      have hr := call_cb_run_sound (set_cont0 (start_new_tracked d now EV_TAP) x y)
        (Or.inl rfl) (resolved_sound_fresh _ (show (-1 : Int) < 0 by decide))
      exact sound_run_after d EV_TAP _ hr
  · have hs : resolved_sound d := by
      rcases h with t | ⟨-, hs⟩
      · exact absurd t t0
      · exact hs
    cases xy with
    | none =>
      refine ⟨rfl, rfl, (show Status.undefined ≠ Status.assertFailed by decide), ?_, ?_,
        fun e he => absurd he (List.not_mem_nil e), fun e he => absurd he (List.not_mem_nil e)⟩
      · intro hr
        obtain ⟨v, hv⟩ := hxy hr
        cases hv
      · intro hst
        cases hst
    | some v =>
      obtain ⟨x, y⟩ := v
      exact hold_or_move_sound d now x y t1 hs
  · have hs : resolved_sound d := by
      rcases h with t | ⟨-, hs⟩
      · exact absurd t t0
      · exact hs
    exact release_pinch_sound d now xy t2 hs hxy
  · refine ⟨rfl, rfl, (show Status.running ≠ Status.assertFailed by decide), fun _ => rfl,
      fun _ => h, fun e he => absurd he (List.not_mem_nil e), fun e he => absurd he (List.not_mem_nil e)⟩

theorem poll_two_sound (d : Detector) (now : Nat) (xy0 xy1 : Option (Int × Int))
    (h : between_polls d) (h0 : rotation_ok d → ∃ v, xy0 = some v)
    (h1 : rotation_ok d → ∃ v, xy1 = some v) :
    sound_run d (poll_two d now xy0 xy1) := by
  have hstop : ∀ s : Detector, s.events = d.events → s.rotation = d.rotation →
      ∀ l : List Event, (∀ e ∈ l, sound_call d e = true ∧ swipe_released e = true) →
      (xy0 = none ∨ xy1 = none) → sound_run d ⟨s, l, Status.undefined⟩ := by
    intro s e1 e2 l hl hn
    refine ⟨e1, e2, (show Status.undefined ≠ Status.assertFailed by decide), ?_, ?_,
      fun e he => (hl e he).1, fun e he => (hl e he).2⟩
    · intro hr
      obtain ⟨v0, hv0⟩ := h0 hr
      obtain ⟨v1, hv1⟩ := h1 hr
      rcases hn with hn | hn
      · rw [hn] at hv0
        cases hv0
      · rw [hn] at hv1
        cases hv1
    · intro hst
      cases hst
  have hstart : ∀ e ∈ [Event.started EV_PINCH],
      sound_call d e = true ∧ swipe_released e = true := by
    intro e he
    rw [List.mem_singleton] at he
    rw [he]
    exact ⟨rfl, rfl⟩
  unfold poll_two
  split_ifs with t
  · cases xy0 with
    | none =>
      cases xy1 <;>
        exact hstop (start_new_tracked d now EV_PINCH) rfl rfl _ hstart (Or.inl rfl)
    | some v0 =>
      cases xy1 with
      | none =>
        exact hstop (start_new_tracked d now EV_PINCH) rfl rfl _ hstart (Or.inr rfl)
      | some v1 =>
        obtain ⟨x0, y0⟩ := v0
        obtain ⟨x1, y1⟩ := v1
        refine ⟨rfl, rfl, (show Status.running ≠ Status.assertFailed by decide),
          fun _ => rfl, ?_, fun e he => (hstart e he).1, fun e he => (hstart e he).2⟩
        intro _
        exact Or.inr ⟨Or.inr (Or.inr rfl),
          resolved_sound_fresh _ (show (-1 : Int) < 0 by decide)⟩
  · have tp : d.track.type = EV_PINCH := not_not.mp t
    have hs : resolved_sound d := by
      rcases h with t0 | ⟨-, hs⟩
      · rw [tp] at t0
        exact absurd t0 (by decide)
      · exact hs
    cases xy0 with
    | none =>
      cases xy1 <;>
        exact hstop d rfl rfl _ (fun e he => absurd he (List.not_mem_nil e)) (Or.inl rfl)
    | some v0 =>
      cases xy1 with
      | none =>
        exact hstop d rfl rfl _ (fun e he => absurd he (List.not_mem_nil e)) (Or.inr rfl)
      | some v1 =>
        obtain ⟨x0, y0⟩ := v0
        obtain ⟨x1, y1⟩ := v1
        exact call_cb_run_sound
          (set_hold_time (move_cont1 (move_cont0 d x0 y0) x1 y1) now)
          (Or.inr (Or.inr tp)) hs

/-- One poll from a state met between polls. -/
theorem poll_sound (d : Detector) (now : Nat) (pts : List GDTpoint) (h : between_polls d) :
    sound_run d (poll d now pts) := by
  by_cases hg : gated d now = true
  · rw [poll_gated d now pts hg]
    exact ⟨rfl, rfl, (show Status.running ≠ Status.assertFailed by decide), fun _ => rfl,
      fun _ => h, fun e he => absurd he (List.not_mem_nil e), fun e he => absurd he (List.not_mem_nil e)⟩
  · have hg2 : gated d now = false := by
      cases hq : gated d now
      · rfl
      · exact absurd hq hg
    have h1 : between_polls { d with last_polled := now } := h
    rw [poll_scan d now pts hg2]
    match pts with
    | [] => exact poll_none_sound { d with last_polled := now } now h1
    | [p0] =>
      exact poll_one_sound { d with last_polled := now } now _ h1
        (fun hr => remap_ok d.rotation p0 hr)
    | [p0, p1] =>
      exact poll_two_sound { d with last_polled := now } now _ _ h1
        (fun hr => remap_ok d.rotation p0 hr) (fun hr => remap_ok d.rotation p1 hr)
    | _ :: _ :: _ :: _ =>
      exact ⟨rfl, rfl, (show Status.running ≠ Status.assertFailed by decide), fun _ => rfl,
        fun _ => h1, fun e he => absurd he (List.not_mem_nil e),
        fun e he => absurd he (List.not_mem_nil e)⟩

theorem poll_all_stopped (d : Detector) (s : Nat × List GDTpoint)
    (rest : List (Nat × List GDTpoint)) (h : (poll d s.1 s.2).status ≠ Status.running) :
    poll_all d (s :: rest) = poll d s.1 s.2 := by
  cases hq : (poll d s.1 s.2).status with
  | running => exact absurd hq h
  | assertFailed =>
    unfold poll_all
    simp only [hq]
    rw [← hq]
  | undefined =>
    unfold poll_all
    simp only [hq]
    rw [← hq]

/-- A run of polls from a state met between polls. -/
theorem poll_all_sound (samples : List (Nat × List GDTpoint)) :
    ∀ d : Detector, between_polls d → sound_run d (poll_all d samples) := by
  induction samples with
  | nil =>
    intro d h
    exact ⟨rfl, rfl, (show Status.running ≠ Status.assertFailed by decide), fun _ => rfl,
      fun _ => h, fun e he => absurd he (List.not_mem_nil e), fun e he => absurd he (List.not_mem_nil e)⟩
  | cons s rest ih =>
    intro d h
    have hp := poll_sound d s.1 s.2 h
    by_cases hrun : (poll d s.1 s.2).status = Status.running
    · obtain ⟨p1, p2, -, -, p5, p6, p7⟩ := hp
      obtain ⟨q1, q2, q3, q4, q5, q6, q7⟩ := ih (poll d s.1 s.2).det (p5 hrun)
      rw [poll_all_cons_running d s rest hrun]
      refine ⟨q1.trans p1, q2.trans p2, q3, ?_, q5, ?_, ?_⟩
      · intro hr
        exact q4 (by
          show 0 ≤ (poll d s.1 s.2).det.rotation ∧ (poll d s.1 s.2).det.rotation ≤ 3
          rw [p2]
          exact hr)
      · intro e he
        rcases List.mem_append.mp he with g | g
        · exact p6 e g
        · rw [← sound_call_congr d (poll d s.1 s.2).det p1 e]
          exact q6 e g
      · intro e he
        rcases List.mem_append.mp he with g | g
        · exact p7 e g
        · exact q7 e g
    · rw [poll_all_stopped d s rest hrun]
      exact hp

/-! ## Runs of polls after `begin()` -/

/-- The state `begin()` leaves is one met between polls, whatever the object
held before. -/
theorem begin_between_polls (d : Detector) : between_polls (begin d) :=
  Or.inl rfl

/-- A registration does not touch the tracked gesture or the rotation. -/
theorem fill_event_track (d d1 : Detector) (ev : EventType) (rc : List Point) (nPts : Int)
    (tapCB dragCB pinchCB : Callback) (indx : Int) (param : Nat) (rotatable : Bool)
    (constraint : Constraint) (angle_tol : Int)
    (h : fill_event d ev rc nPts tapCB dragCB pinchCB indx param rotatable constraint angle_tol
      = some d1) :
    d1.track = d.track ∧ d1.rotation = d.rotation ∧
      ∀ j, j ≠ indx.toNat → d1.events j = d.events j := by
  unfold fill_event at h
  simp only [] at h
  split_ifs at h <;> cases h <;>
    first
    | exact ⟨rfl, rfl, fun _ _ => rfl⟩
    | exact ⟨rfl, rfl, fun j hj => by simp only [if_neg hj]⟩

/-- A registration keeps the state one met between polls unless it overwrites
the slot of the resolved listener of a gesture in progress. -/
theorem fill_event_between_polls (d d1 : Detector) (ev : EventType) (rc : List Point)
    (nPts : Int) (tapCB dragCB pinchCB : Callback) (indx : Int) (param : Nat)
    (rotatable : Bool) (constraint : Constraint) (angle_tol : Int)
    (h : fill_event d ev rc nPts tapCB dragCB pinchCB indx param rotatable constraint angle_tol
      = some d1)
    (hb : between_polls d)
    (hfree : d.track.type = EV_NONE ∨ d.track.active_event ≠ indx) :
    between_polls d1 := by
  obtain ⟨h1, -, h3⟩ := fill_event_track d d1 ev rc nPts tapCB dragCB pinchCB indx param
    rotatable constraint angle_tol h
  rcases hb with t | ⟨t, hs⟩
  · left
    rw [h1]
    exact t
  · rcases hfree with f | f
    · left
      rw [h1]
      exact f
    · right
      rw [h1]
      refine ⟨t, ?_⟩
      intro h0
      rw [h1] at h0
      obtain ⟨a, b⟩ := hs h0
      have hj : d.track.active_event.toNat ≠ indx.toNat := by
        intro he
        by_cases hi : 0 ≤ indx
        · apply f
          omega
        · unfold fill_event at h
          have h20 : (MAX_EVENTS : Int) = 20 := rfl
          rw [if_neg (by omega), if_pos (by omega)] at h
          cases h
      show d1.track.active_event < (MAX_EVENTS : Int) ∧
        (d1.events d1.track.active_event.toNat).type = band d1.track.type (bnot EV_RELEASED)
      rw [h1, h3 _ hj]
      exact ⟨a, b⟩

/-- The callee of a sound call is set when every listener has the callback of
its kind set. -/
theorem callee_set_of_sound (d : Detector) (hc : callbacks_set d) (e : Event)
    (h : sound_call d e = true) : e.callee_set = true := by
  have h20 : (MAX_EVENTS : Int) = 20 := rfl
  have h20n : MAX_EVENTS = 20 := rfl
  cases e with
  | started ev => rfl
  | tap cb t indx param x y =>
    simp only [sound_call, from_listener, Bool.and_eq_true, decide_eq_true_eq] at h
    obtain ⟨⟨a, b, c⟩, -, hcb, -⟩ := h
    show cb.isSome = true
    rw [hcb]
    exact Option.isSome_iff_ne_none.mpr ((hc indx.toNat (by omega)).1 c)
  | drag cb t indx param x y dx dy =>
    simp only [sound_call, from_listener, Bool.and_eq_true, decide_eq_true_eq] at h
    obtain ⟨⟨a, b, -, c⟩, -, hcb, -⟩ := h
    show cb.isSome = true
    rw [hcb]
    exact Option.isSome_iff_ne_none.mpr ((hc indx.toNat (by omega)).2.1 c)
  | pinch cb t indx param g =>
    simp only [sound_call, from_listener, Bool.and_eq_true, decide_eq_true_eq] at h
    obtain ⟨⟨a, b, c⟩, -, hcb, -⟩ := h
    show cb.isSome = true
    rw [hcb]
    exact Option.isSome_iff_ne_none.mpr ((hc indx.toNat (by omega)).2.2 c)

/-- C24. Dispatch assertions never fire: for every run of polls that starts
from a state met between polls (as `begin()` leaves the detector, and as
registrations keep it while they do not overwrite a resolved listener), no
`ASSERT` stops the run and control always comes back when the rotation is one
of 0..3; every call that is logged has an index below `MAX_EVENTS`, goes to a
listener whose kind is the base kind of the dispatch and through that
listener's callback of the matching shape, which is not `NULL` when the
listeners have the callback of their kind set; and the state after the run is
again one met between polls, over the same table. -/
theorem dispatch_asserts_hold (d : Detector) (samples : List (Nat × List GDTpoint))
    (h : between_polls d) :
    (poll_all d samples).status ≠ Status.assertFailed ∧
      (rotation_ok d → (poll_all d samples).status = Status.running) ∧
      (∀ e ∈ (poll_all d samples).log, sound_call d e = true) ∧
      (callbacks_set d → ∀ e ∈ (poll_all d samples).log, e.callee_set = true) ∧
      ((poll_all d samples).status = Status.running →
        between_polls (poll_all d samples).det ∧ (poll_all d samples).det.events = d.events) := by
  obtain ⟨h1, -, h3, h4, h5, h6, -⟩ := poll_all_sound samples d h
  exact ⟨h3, h4, h6, fun hc e he => callee_set_of_sound d hc e (h6 e he),
    fun hr => ⟨h5 hr, h1⟩⟩

/-- C24 at the listeners of `idle_detector` (a Tap, a Drag and a Swipe
listener) and a contact that lands, is held, moves and is lifted. -/
theorem dispatch_asserts_hold_witness :
    (poll_all idle_detector [(30, [⟨10, 10⟩]), (100, [⟨10, 10⟩]), (240, [⟨20, 10⟩]),
        (270, [])]).status = Status.running ∧
      ∀ e ∈ (poll_all idle_detector [(30, [⟨10, 10⟩]), (100, [⟨10, 10⟩]), (240, [⟨20, 10⟩]),
        (270, [])]).log, sound_call idle_detector e = true :=
  ⟨(dispatch_asserts_hold idle_detector [(30, [⟨10, 10⟩]), (100, [⟨10, 10⟩]),
      (240, [⟨20, 10⟩]), (270, [])] (Or.inl rfl)).2.1 (by decide),
    (dispatch_asserts_hold idle_detector [(30, [⟨10, 10⟩]), (100, [⟨10, 10⟩]),
      (240, [⟨20, 10⟩]), (270, [])] (Or.inl rfl)).2.2.1⟩

/-- The calls of the example: the tap at touch-down, the drag when the contact
is seen moved, and the released drag. -/
theorem idle_run_log :
    (poll_all idle_detector [(30, [⟨10, 10⟩]), (100, [⟨10, 10⟩]), (240, [⟨20, 10⟩]),
        (270, [])]).log
      = [Event.started EV_TAP, Event.tap (some 1) EV_TAP 0 0 10 10,
          Event.started EV_DRAG, Event.drag (some 2) EV_DRAG 1 0 10 10 10 0,
          Event.drag (some 2) (bor EV_DRAG EV_RELEASED) 1 0 10 10 10 0,
          Event.started EV_NONE] := by
  decide

/-! ## Swipe dispatches -/

theorem mem_of_mem_add_to_first (e x : Event) (segs : List (List Event)) (seg : List Event)
    (hs : seg ∈ add_to_first e segs) (hx : x ∈ seg) :
    x = e ∨ ∃ s ∈ segs, x ∈ s := by
  cases segs with
  | nil =>
    simp only [add_to_first, List.mem_singleton] at hs
    rw [hs, List.mem_singleton] at hx
    exact Or.inl hx
  | cons s0 rest =>
    simp only [add_to_first, List.mem_cons] at hs
    rcases hs with hs | hs
    · rw [hs, List.mem_cons] at hx
      rcases hx with hx | hx
      · exact Or.inl hx
      · exact Or.inr ⟨s0, List.mem_cons_self _ _, hx⟩
    · exact Or.inr ⟨seg, List.mem_cons_of_mem _ hs, hx⟩

/-- The dispatches of the instances of a log are events of the log. -/
theorem mem_of_mem_split (l : List Event) :
    ∀ seg ∈ split_instances l, ∀ x ∈ seg, x ∈ l := by
  induction l with
  | nil =>
    intro seg hs x hx
    simp only [split_instances, List.mem_singleton] at hs
    rw [hs] at hx
    cases hx
  | cons e rest ih =>
    intro seg hs x hx
    unfold split_instances at hs
    split_ifs at hs with he
    · rw [List.mem_cons] at hs
      rcases hs with hs | hs
      · rw [hs] at hx
        cases hx
      · exact List.mem_cons_of_mem _ (ih seg hs x hx)
    · rcases mem_of_mem_add_to_first e x _ seg hs hx with h | ⟨s, hs2, hx2⟩
      · rw [h]
        exact List.mem_cons_self _ _
      · exact List.mem_cons_of_mem _ (ih s hs2 x hx2)

theorem filter_length_le (p q : Event → Bool) :
    ∀ seg : List Event, (∀ e ∈ seg, p e = true → q e = true) →
      (seg.filter p).length ≤ (seg.filter q).length := by
  intro seg
  induction seg with
  | nil => intro _; exact Nat.le_refl _
  | cons a rest ih =>
    intro h
    have hr := ih (fun e he => h e (List.mem_cons_of_mem _ he))
    by_cases hp : p a = true
    · have hq := h a (List.mem_cons_self _ _) hp
      rw [List.filter_cons_of_pos hp, List.filter_cons_of_pos hq]
      simp only [List.length_cons]
      omega
    · rw [List.filter_cons_of_neg hp]
      by_cases hq : q a = true
      · rw [List.filter_cons_of_pos hq]
        simp only [List.length_cons]
        omega
      · rw [List.filter_cons_of_neg hq]
        exact hr

/-- An instance in which only the last dispatch may be released has at most
one released dispatch. -/
theorem released_at_most_once :
    ∀ seg : List Event, released_only_last seg = true →
      (seg.filter Event.is_released).length ≤ 1 := by
  intro seg
  induction seg with
  | nil => intro _; exact Nat.zero_le 1
  | cons a rest ih =>
    intro h
    cases rest with
    | nil =>
      by_cases ha : a.is_released = true
      · rw [List.filter_cons_of_pos ha]
        exact Nat.le_refl 1
      · rw [List.filter_cons_of_neg ha]
        exact Nat.zero_le 1
    | cons b rest2 =>
      simp only [released_only_last, Bool.and_eq_true, Bool.not_eq_true'] at h
      have ha : ¬ (a.is_released = true) := by
        rw [h.1]
        decide
      rw [List.filter_cons_of_neg ha]
      exact ih h.2

/-- A sound call of a Swipe listener whose Swipe dispatch carries the released
bit is a released call. -/
theorem swipe_call_released (d : Detector) (e : Event) (h1 : sound_call d e = true)
    (h2 : swipe_released e = true) (h3 : to_kind d EV_SWIPE e = true) :
    e.is_released = true := by
  cases e with
  | started ev => cases h3
  | tap cb t indx param x y =>
    simp only [sound_call, Bool.and_eq_true, decide_eq_true_eq] at h1
    simp only [to_kind, decide_eq_true_eq] at h3
    rw [h1.1.2.2] at h3
    exact absurd h3 (by decide)
  | drag cb t indx param x y dx dy =>
    simp only [sound_call, Bool.and_eq_true, decide_eq_true_eq] at h1
    simp only [to_kind, decide_eq_true_eq] at h3
    simp only [swipe_released, Event.type_arg, decide_eq_true_eq] at h2
    have hb : band t (bnot EV_RELEASED) = EV_SWIPE := by
      rw [← h1.1.2.2.1]
      exact h3
    simp only [Event.is_released, decide_eq_true_eq]
    exact h2 hb
  | pinch cb t indx param g =>
    simp only [sound_call, Bool.and_eq_true, decide_eq_true_eq] at h1
    simp only [to_kind, decide_eq_true_eq] at h3
    rw [h1.1.2.2] at h3
    exact absurd h3 (by decide)

/-- C25. Swipe is never a persisted state: for every run of polls that starts
from a state met between polls (as `begin()` leaves the detector), the
tracked kind when control is back is `EV_NONE`, `EV_TAP`, `EV_DRAG` or
`EV_PINCH`, without the released or the long-press bit; every dispatch whose
base kind is Swipe carries `EV_RELEASED`; and in each tracked gesture instance
at most one call goes to a Swipe listener. -/
theorem swipe_never_persisted (d : Detector) (samples : List (Nat × List GDTpoint))
    (h : between_polls d) :
    ((poll_all d samples).status = Status.running →
        (poll_all d samples).det.track.type = EV_NONE ∨
        (poll_all d samples).det.track.type = EV_TAP ∨
        (poll_all d samples).det.track.type = EV_DRAG ∨
        (poll_all d samples).det.track.type = EV_PINCH) ∧
      (∀ e ∈ (poll_all d samples).log, swipe_released e = true) ∧
      (∀ seg ∈ split_instances (poll_all d samples).log,
        (seg.filter (to_kind d EV_SWIPE)).length ≤ 1) := by
  obtain ⟨-, -, -, -, h5, h6, h7⟩ := poll_all_sound samples d h
  refine ⟨?_, h7, ?_⟩
  · intro hr
    rcases h5 hr with t | ⟨t, -⟩
    · exact Or.inl t
    · exact Or.inr t
  · intro seg hseg
    have hlast := instances_released_only_last _ (poll_all_log samples d) seg hseg
    have hle := filter_length_le (to_kind d EV_SWIPE) Event.is_released seg (by
      intro e he hk
      have hmem := mem_of_mem_split _ seg hseg e he
      exact swipe_call_released d e (h6 e hmem) (h7 e hmem) hk)
    have h1 := released_at_most_once seg hlast
    omega

/-- C25 at the listeners of `idle_detector` and a contact that lands, is seen
moved 70 ms later and is lifted: a swipe. -/
theorem swipe_never_persisted_witness :
    (∀ e ∈ (poll_all idle_detector [(30, [⟨10, 10⟩]), (100, [⟨40, 10⟩]), (130, [])]).log,
        swipe_released e = true) ∧
      (∀ seg ∈ split_instances
          (poll_all idle_detector [(30, [⟨10, 10⟩]), (100, [⟨40, 10⟩]), (130, [])]).log,
        (seg.filter (to_kind idle_detector EV_SWIPE)).length ≤ 1) :=
  (swipe_never_persisted idle_detector [(30, [⟨10, 10⟩]), (100, [⟨40, 10⟩]), (130, [])]
    (Or.inl rfl)).2

/-- The calls of the swipe of the example: the Tap listener is called at
touch-down and when the contact is seen moved, and the Swipe listener once,
released; the tracked kind is `EV_TAP` after the second poll and `EV_NONE`
after the third. -/
theorem swipe_run_log :
    (poll_all idle_detector [(30, [⟨10, 10⟩]), (100, [⟨40, 10⟩]), (130, [])]).log
        = [Event.started EV_TAP, Event.tap (some 1) EV_TAP 0 0 10 10,
            Event.tap (some 1) EV_TAP 0 0 10 10,
            Event.started EV_SWIPE,
            Event.drag (some 3) (bor EV_SWIPE EV_RELEASED) 2 0 10 10 30 0,
            Event.started EV_NONE] ∧
      (poll_all idle_detector [(30, [⟨10, 10⟩]), (100, [⟨40, 10⟩])]).det.track.type = EV_TAP ∧
      (poll_all idle_detector [(30, [⟨10, 10⟩]), (100, [⟨40, 10⟩]), (130, [])]).det.track.type
        = EV_NONE := by
  decide

/-! ## Reset on zero contacts -/

/-- A listener overwritten during a tap: the tap is resolved to slot 0 at
touch-down; after the registration of a Drag listener in slot 0 the slot has
kind Drag and no tap callback, and the poll that sees the contact lifted makes
the released tap call through that slot, whose `tapCallback` is `NULL`.  The
state before that poll is not one met between polls with a sound resolution:
the resolved slot has not the kind of the tracked gesture. -/
theorem reregistered_tap_null_call :
    tap_session.map Run.summary
        = some ⟨Status.running, [Event.started EV_TAP, Event.tap (some 1) EV_TAP 0 0 10 10],
            EV_TAP, 0, 0⟩ ∧
      reregistered_mid_tap.map (fun r => r.log)
        = some [Event.tap none (bor EV_TAP EV_RELEASED) 0 0 10 10, Event.started EV_NONE] ∧
      (tap_session.bind (fun r => onDrag_rect r.det 0 0 100 100 (some 2) 0 0 CO_NONE 3)).map
          (fun d => ((d.events 0).type, (d.events 0).tapCallback, d.track.type,
            d.track.active_event))
        = some (EV_DRAG, none, EV_TAP, 0) := by
  decide

/-- C9, amended. Reset on zero contacts: for every prior state met between
polls (nothing tracked, or a Tap, a Drag or a Pinch whose resolved listener,
if any, still is a slot of the kind of the tracked gesture) over a table whose
listeners have the callback of their kind set, a poll that samples zero
contacts and is not skipped by the scan-interval gate returns, every call it
makes goes to a listener of the kind of the dispatch through that listener's
callback, which is not `NULL`, and it leaves the tracked gesture with kind
`EV_NONE`, `active_event = -1` and `hold_time = 0`. -/
theorem poll_zero_contacts_resets (d : Detector) (now : Nat) (hg : gated d now = false)
    (h : between_polls d) (hc : callbacks_set d) :
    (poll d now []).status = Status.running ∧
      (poll d now []).det.track.type = EV_NONE ∧
      (poll d now []).det.track.active_event = -1 ∧
      (poll d now []).det.track.hold_time = 0 ∧
      (∀ e ∈ (poll d now []).log, sound_call d e = true ∧ e.callee_set = true) := by
  obtain ⟨-, -, -, -, -, h6, -⟩ := poll_sound d now [] h
  have hr : (poll d now []).status = Status.running ∧
      (poll d now []).det.track.type = EV_NONE ∧
      (poll d now []).det.track.active_event = -1 ∧
      (poll d now []).det.track.hold_time = 0 := by
    rw [poll_scan d now [] hg]
    rcases h with t | ⟨-, hs⟩
    · have t2 : ({ d with last_polled := now } : Detector).track.type = EV_NONE := t
      have hb : base_kind (set_released { d with last_polled := now }) = EV_NONE := by
        rw [base_kind_set_released]
        unfold base_kind
        rw [t2]
        decide
      have hc0 := call_cb_idle _ hb
      show (poll_none _ now).status = Status.running ∧ _
      unfold poll_none
      rw [if_neg (fun hh => absurd (t2.symm.trans hh.1) (by decide)),
        release_and_reset_running _ now (by rw [hc0])]
      exact ⟨rfl, rfl, rfl, rfl⟩
    · exact poll_none_ok _ now (dispatch_ok_polled d now (resolved_sound_ok d hs))
  exact ⟨hr.1, hr.2.1, hr.2.2.1, hr.2.2.2,
    fun e he => ⟨h6 e he, callee_set_of_sound d hc e (h6 e he)⟩⟩

/-- C9, amended, at a drag resolved to a Drag listener. -/
theorem poll_zero_contacts_resets_witness :
    (poll sticky_detector 100 []).status = Status.running ∧
      (poll sticky_detector 100 []).det.track.type = EV_NONE ∧
      (poll sticky_detector 100 []).det.track.active_event = -1 ∧
      (poll sticky_detector 100 []).det.track.hold_time = 0 ∧
      (∀ e ∈ (poll sticky_detector 100 []).log,
        sound_call sticky_detector e = true ∧ e.callee_set = true) :=
  poll_zero_contacts_resets sticky_detector 100 (by decide) (by decide) (by decide)

/-- The calls of the example: the released drag, through the drag callback of
slot 2. -/
theorem sticky_release_log :
    (poll sticky_detector 100 []).log
      = [Event.drag (some 1) (bor EV_DRAG EV_RELEASED) 2 11 7 7 100 0,
          Event.started EV_NONE] := by
  decide

/-! ## Registration overwrites one slot -/

/-- Where `fill_event` has a result, `fill_event_aliased` has the same one. -/
theorem fill_event_aliased_of_some (d : Detector) (ev : EventType) (rc : List Point)
    (nPts : Int) (tapCB dragCB pinchCB : Callback) (indx : Int) (param : Nat)
    (rotatable : Bool) (constraint : Constraint) (angle_tol : Int) (d1 : Detector)
    (h : fill_event d ev rc nPts tapCB dragCB pinchCB indx param rotatable constraint
      angle_tol = some d1) :
    fill_event_aliased d ev rc nPts tapCB dragCB pinchCB indx param rotatable constraint
      angle_tol = some d1 := by
  unfold fill_event at h
  unfold fill_event_aliased
  by_cases h1 : indx ≥ (MAX_EVENTS : Int)
  · rw [if_pos h1] at h ⊢
    exact h
  · rw [if_neg h1] at h ⊢
    by_cases h2 : indx < 0
    · rw [if_pos h2] at h
      cases h
    · rw [if_neg h2] at h ⊢
      simp only [] at h ⊢
      by_cases h3 : (if nPts > (MAX_POINTS : Int) then (MAX_POINTS : Int) else nPts) < 0
      · rw [if_pos h3] at h
        cases h
      · rw [if_neg h3] at h ⊢
        by_cases h4 :
            (if nPts > (MAX_POINTS : Int) then (MAX_POINTS : Int) else nPts).toNat ≥ MAX_POINTS
        · rw [if_pos h4] at h
          cases h
        · rw [if_neg h4] at h
          rw [if_pos (Nat.lt_of_not_ge h4)]
          rw [← h]
          by_cases h5 : (if nPts > (MAX_POINTS : Int) then (MAX_POINTS : Int) else nPts) ≠ 0
          · simp only [if_pos h5]
          · simp only [if_neg h5]

/-- A registration of `MAX_POINTS` vertices or more at a slot of the table:
the detector it leaves. -/
theorem fill_event_aliased_full (d : Detector) (ev : EventType) (rc : List Point)
    (nPts : Int) (tapCB dragCB pinchCB : Callback) (indx : Int) (param : Nat)
    (rotatable : Bool) (constraint : Constraint) (angle_tol : Int)
    (hlo : 0 ≤ indx) (hhi : indx < (MAX_EVENTS : Int)) (hn : (MAX_POINTS : Int) ≤ nPts) :
    fill_event_aliased d ev rc nPts tapCB dragCB pinchCB indx param rotatable constraint
        angle_tol
      = some { d with events := fun j =>
          if j = indx.toNat then
            { type := ev, param := param,
              reg := copy_points (d.events indx.toNat).reg rc MAX_POINTS,
              nPts := (MAX_POINTS : Int), tapCallback := tapCB, dragCallback := dragCB,
              pinchCallback := pinchCB, constraint := constraint, angle_tol := angle_tol,
              rotatable := rotatable }
          else d.events j } := by
  have h16 : (MAX_POINTS : Int) = 16 := rfl
  unfold fill_event_aliased
  rw [if_neg (by omega), if_neg (by omega)]
  simp only []
  have hnn : (if nPts > (MAX_POINTS : Int) then (MAX_POINTS : Int) else nPts)
      = (MAX_POINTS : Int) := by
    split_ifs <;> omega
  have e1 : ¬ ((MAX_POINTS : Int) < 0) := by decide
  have e2 : (MAX_POINTS : Int) ≠ 0 := by decide
  have e3 : ¬ ((MAX_POINTS : Int).toNat < MAX_POINTS) := by decide
  have e4 : (MAX_POINTS : Int).toNat = MAX_POINTS := rfl
  have e5 : ¬ (MAX_POINTS < MAX_POINTS) := by decide
  simp only [hnn, if_neg e1, if_pos e2, if_neg e3, e4, if_neg e5]

/-- C19. Registration overwrites one slot only: a registration with `nPts ≥ 0`
vertices and a kind other than `EV_NONE` at a slot of the table, occupied or
not, has a result; the slot then holds the supplied kind, parameter,
callbacks, constraint, tolerance and rotatable flag, and as its region the
supplied vertices, of which it keeps `MAX_POINTS` at most; it is reported as
registered; every other slot, the tracked gesture, the rotation and the time
of the last poll are as before.  This holds also for a region of `MAX_POINTS`
vertices, whose closing vertex is stored on the members `nPts` and
`tapCallback` of the same slot before they are assigned. -/
theorem registration_overwrites_one_slot (d : Detector) (ev : EventType) (rc : List Point)
    (nPts : Int) (tapCB dragCB pinchCB : Callback) (indx : Int) (param : Nat)
    (rotatable : Bool) (constraint : Constraint) (angle_tol : Int)
    (hlo : 0 ≤ indx) (hhi : indx < (MAX_EVENTS : Int))
    (h0 : 0 ≤ nPts) (hev : ev ≠ EV_NONE) :
    ∃ d1, fill_event_aliased d ev rc nPts tapCB dragCB pinchCB indx param rotatable
        constraint angle_tol = some d1 ∧
      isEventRegistered d1 indx = some true ∧
      (∀ j, j ≠ indx.toNat → d1.events j = d.events j) ∧
      d1.track = d.track ∧ d1.rotation = d.rotation ∧ d1.last_polled = d.last_polled ∧
      (d1.events indx.toNat).type = ev ∧ (d1.events indx.toNat).param = param ∧
      (d1.events indx.toNat).nPts
        = (if nPts > (MAX_POINTS : Int) then (MAX_POINTS : Int) else nPts) ∧
      (∀ j : Nat, (j : Int) < nPts → j < MAX_POINTS →
        (d1.events indx.toNat).reg.getD j default = rc.getD j default) ∧
      (d1.events indx.toNat).tapCallback = tapCB ∧
      (d1.events indx.toNat).dragCallback = dragCB ∧
      (d1.events indx.toNat).pinchCallback = pinchCB ∧
      (d1.events indx.toNat).constraint = constraint ∧
      (d1.events indx.toNat).angle_tol = angle_tol ∧
      (d1.events indx.toNat).rotatable = rotatable := by
  have h16 : (MAX_POINTS : Int) = 16 := rfl
  by_cases hn : nPts < (MAX_POINTS : Int)
  · obtain ⟨d1, h, hr, hl, htr, hf, ht, hp, hnp, h1, h2, h3, h4, h5, h6, hv, -, -⟩ :=
      fill_event_fits d ev rc nPts tapCB dragCB pinchCB indx param rotatable constraint
        angle_tol hlo hhi h0 hn
    refine ⟨d1, fill_event_aliased_of_some d ev rc nPts tapCB dragCB pinchCB indx param
      rotatable constraint angle_tol d1 h, ?_, hf, htr, hr, hl, ht, hp, ?_,
      fun j hj _ => hv j hj, h1, h2, h3, h4, h5, h6⟩
    · unfold isEventRegistered
      rw [if_pos ⟨hlo, hhi⟩, ht]
      simp [hev]
    · rw [hnp, if_neg (by omega)]
  · have hfull := fill_event_aliased_full d ev rc nPts tapCB dragCB pinchCB indx param
      rotatable constraint angle_tol hlo hhi (by omega)
    refine ⟨_, hfull, ?_, ?_, rfl, rfl, rfl, ?_, ?_, ?_, ?_, ?_, ?_, ?_, ?_, ?_, ?_⟩
    · unfold isEventRegistered
      rw [if_pos ⟨hlo, hhi⟩]
      simp [hev]
    · intro j hj
      simp only [if_neg hj]
    all_goals simp only [if_true]
    · split_ifs <;> omega
    · intro j _ hj
      rw [copy_points_getD _ _ _ _ hj, if_pos hj]

/-- C19 at slot 5 after `begin()` and a Drag listener whose polygon has
`MAX_POINTS` vertices. -/
theorem registration_overwrites_one_slot_witness :
    ∃ d1, fill_event_aliased (begin zero_detector) EV_DRAG hexadecagon 16 none (some 2) none
        5 0 false CO_NONE 3 = some d1 ∧
      isEventRegistered d1 5 = some true ∧
      (∀ j, j ≠ (5 : Int).toNat → d1.events j = (begin zero_detector).events j) :=
  (registration_overwrites_one_slot (begin zero_detector) EV_DRAG hexadecagon 16
    none (some 2) none 5 0 false CO_NONE 3 (by decide) (by decide) (by decide)
    (by decide)).imp (fun _ h => ⟨h.1, h.2.1, h.2.2.1⟩)

/-- The slot of the example after the registration: kind Drag, all sixteen
vertices, `nPts = 16`, no tap callback and the drag callback supplied; the
strict reading `fill_event` has no result there. -/
theorem full_polygon_slot :
    (fill_event_aliased (begin zero_detector) EV_DRAG hexadecagon 16 none (some 2) none
        5 0 false CO_NONE 3).map (fun d => d.events 5)
      = some { type := EV_DRAG, param := 0, reg := hexadecagon, nPts := 16,
               tapCallback := none, dragCallback := some 2, pinchCallback := none,
               constraint := CO_NONE, angle_tol := 3, rotatable := false } ∧
      (fill_event (begin zero_detector) EV_DRAG hexadecagon 16 none (some 2) none
        5 0 false CO_NONE 3).isNone = true := by
  decide

/-! ## Rounding to `float` -/

/-- The session of the example makes one pinch call, computed from
`tall_input`. -/
theorem tall_session_log :
    tall_session.map (fun r => (r.log, r.status))
      = some ([Event.started EV_PINCH, Event.pinch (some 1) EV_PINCH 0 0 tall_input],
          Status.running) := by
  decide

end GestureDetector
